import Mathlib

/-!
# Batching render buffer (`src/src/buffer.cpp`)

A shallow embedding of `renderer::buffer`: the vertex stream, the batch list, the three
state stacks and the active render state, with every member function of `buffer.cpp`
as a function on an explicit buffer value.

Conventions of the embedding

* `float` scalars are exact rationals (`ℚ`); nothing proved below depends on rounding.
* `std::vector` is `List` in the same order: `push_back`/`emplace_back` append at the
  end, `back()` is the last element, `pop_back()` drops it.
* A failed `assert` and a read through `back()` of an empty vector stop the run with a
  `fault`; every other path returns `Except.ok`.
* A resource handle (`ID3D11ShaderResourceView*`) is `Option Nat`; `none` is `nullptr`.
* Declarations of the repository that are not among the sources (`buffer.hpp`,
  `color.hpp`, `polyline.hpp`, the font service) are modelled from the specification or
  taken as fields of `environment`; each such definition says so.
-/

namespace renderer

/-! ## Value types -/

/-- The `glm::vec2` of the sources, two scalars. -/
structure vec2 where
  x : ℚ
  y : ℚ
deriving DecidableEq

/-- The `glm::vec4` of the sources, four scalars; a rectangle is (x, y, width, height). -/
structure vec4 where
  x : ℚ
  y : ℚ
  z : ℚ
  w : ℚ
deriving DecidableEq

/-- The `DirectX::XMFLOAT2` of `vertex.hpp`. -/
structure XMFLOAT2 where
  x : ℚ
  y : ℚ
deriving DecidableEq

/-- The `DirectX::XMFLOAT3` of `vertex.hpp`. -/
structure XMFLOAT3 where
  x : ℚ
  y : ℚ
  z : ℚ
deriving DecidableEq

/-- The `DirectX::XMFLOAT4` of `buffer.cpp` (scissor bounds). -/
structure XMFLOAT4 where
  x : ℚ
  y : ℚ
  z : ℚ
  w : ℚ
deriving DecidableEq

/-- Modelled from the spec: `color_rgba` is declared in `color.hpp`, which is not among
the sources; the specification calls it an RGBA color and `main.cpp` writes its channel
`a`, so it is four channels. -/
structure color_rgba where
  r : Nat
  g : Nat
  b : Nat
  a : Nat
deriving DecidableEq

/-- The `vertex` of `vertex.hpp`: position, color, texture coordinate. The source converts
the `color_rgba` argument to four floats through a conversion declared in `color.hpp`;
the specification allows the packed form, which is what is stored here. -/
structure vertex where
  pos : XMFLOAT3
  col : color_rgba
  uv : XMFLOAT2
deriving DecidableEq

/-- The constructor `vertex(float x, float y, color_rgba col, float u = 0, float v = 0)`;
a call that leaves `u`, `v` out passes 0 here. -/
def vertex.of_xy (x y : ℚ) (col : color_rgba) (u v : ℚ) : vertex :=
  { pos := { x := x, y := y, z := 0 }, col := col, uv := { x := u, y := v } }

/-- The constructor `vertex(glm::vec2 pos, color_rgba col, float u = 0, float v = 0)`;
a call that leaves `u`, `v` out passes 0 here. -/
def vertex.of_vec2 (pos : vec2) (col : color_rgba) (u v : ℚ) : vertex :=
  { pos := { x := pos.x, y := pos.y, z := 0 }, col := col, uv := { x := u, y := v } }

/-- The `D3D_PRIMITIVE_TOPOLOGY` enumeration of the Direct3D headers; the control-point
patch lists carry their number of control points. -/
inductive D3D_PRIMITIVE_TOPOLOGY where
  | UNDEFINED
  | POINTLIST
  | LINELIST
  | LINESTRIP
  | TRIANGLELIST
  | TRIANGLESTRIP
  | LINELIST_ADJ
  | LINESTRIP_ADJ
  | TRIANGLELIST_ADJ
  | TRIANGLESTRIP_ADJ
  | CONTROL_POINT_PATCHLIST (n : Nat)
deriving DecidableEq

/-- Modelled from the spec: the render-state snapshot declared in `buffer.hpp` (not among
the sources), with the members `buffer.cpp` reads and writes on `active_command`: scissor
bounds, enable and shape flags, color-key enable and color, blur strength, and the
`textured` flag. -/
structure command where
  scissor_enable : Bool
  scissor_bounds : XMFLOAT4
  scissor_in : Bool
  scissor_circle : Bool
  key_enable : Bool
  key_color : color_rgba
  blur_strength : ℚ
  textured : Bool
deriving DecidableEq

/-- Modelled from the spec: the value of `active_command` in a freshly constructed buffer
(`buffer.hpp` is not among the sources): nothing enabled, every stack being empty. -/
def command.initial : command :=
  { scissor_enable := false, scissor_bounds := ⟨0, 0, 0, 0⟩, scissor_in := false,
    scissor_circle := false, key_enable := false, key_color := ⟨0, 0, 0, 0⟩,
    blur_strength := 0, textured := false }

/-- Modelled from the spec: the `batch` declared in `buffer.hpp` (not among the sources), a
running `size` counter, the topology, and the members `add_vertices` assigns: `rv`,
`color`, `command`. -/
structure batch where
  size : Nat
  type : D3D_PRIMITIVE_TOPOLOGY
  rv : Option Nat
  color : color_rgba
  command : command
deriving DecidableEq

/-- Modelled from the spec: the constructor `batch(size, type)` used by
`batches_.emplace_back(0, type)`; the members it leaves to their defaults are assigned by
`add_vertices` before the batch can be observed. -/
def batch.emplace (size : Nat) (type : D3D_PRIMITIVE_TOPOLOGY) : batch :=
  { size := size, type := type, rv := none, color := ⟨0, 0, 0, 0⟩, command := command.initial }

/-- Ghost record kept for every stored vertex: the arguments of the `add_vertices` call
that stored it and the active render state at that call. -/
structure append_record where
  command : command
  type : D3D_PRIMITIVE_TOPOLOGY
  rv : Option Nat
  col : color_rgba
deriving DecidableEq

/-- Modelled from the spec: the data members of `renderer::buffer` (declared in
`buffer.hpp`, not among the sources) that `buffer.cpp` uses. `history_` is ghost state,
not a member of the class: it runs parallel to `vertices_`, no operation reads it. -/
structure buffer where
  vertices_ : List vertex
  batches_ : List batch
  scissor_commands_ : List (XMFLOAT4 × Bool × Bool)
  key_commands_ : List color_rgba
  blur_commands_ : List ℚ
  active_command : command
  split_batch_ : Bool
  history_ : List append_record
deriving DecidableEq

/-- Modelled from the spec: a freshly constructed buffer (`buffer.hpp` is not among the
sources): no vertices, no batches, empty stacks, no split pending. -/
def buffer.fresh : buffer :=
  { vertices_ := [], batches_ := [], scissor_commands_ := [], key_commands_ := [],
    blur_commands_ := [], active_command := command.initial, split_batch_ := false,
    history_ := [] }

/-- How a member function can stop instead of returning. -/
inductive fault where
  | assertion_failed
  | undefined_behaviour
deriving DecidableEq

/-- Modelled from the spec: the joint styles of the polyline stroker (`polyline.hpp` is not
among the sources). -/
inductive joint_type where
  | joint_miter
  | joint_bevel
  | joint_round
deriving DecidableEq

/-- Modelled from the spec: the cap styles of the polyline stroker (`polyline.hpp` is not
among the sources). -/
inductive cap_type where
  | cap_butt
  | cap_square
  | cap_round
  | cap_joint
deriving DecidableEq

/-- Modelled from the spec: the alignment argument of `draw_text`, accepted and never
applied. -/
inductive text_align where
  | align_top
  | align_left
  | align_center
  | align_right
  | align_bottom
deriving DecidableEq

/-- Modelled from the spec: the glyph record of the font service,
`{bearing, size, advance, texture_handle}`. -/
structure glyph where
  bearing : vec2
  size : vec2
  advance : Int
  rv : Option Nat
deriving DecidableEq

/-- What `buffer.cpp` takes from declarations that are not among the sources: the default
`col` argument of `add_vertices`, the `COLOR_RED` constant, `M_PI`, `std::cos` and
`std::sin` on exact scalars, the stroker `polyline::compute` (as a function of thickness,
joint, cap and points) and the font service `get_font_glyph`. -/
structure environment where
  default_color : color_rgba
  COLOR_RED : color_rgba
  M_PI : ℚ
  cos : ℚ → ℚ
  sin : ℚ → ℚ
  polyline_compute : ℚ → joint_type → cap_type → List vec2 → List vec2
  get_font_glyph : Nat → Char → glyph

/-! ## `buffer.cpp` -/

/-- `buffer::clear` (lines 11-16): resets the vertices, the batches and the scissor stack,
nothing else. -/
def buffer.clear (s : buffer) : buffer :=
  { s with vertices_ := [], batches_ := [], scissor_commands_ := [], history_ := [] }

/-- `buffer::get_vertices`. -/
def buffer.get_vertices (s : buffer) : List vertex := s.vertices_

/-- `buffer::get_batches`. -/
def buffer.get_batches (s : buffer) : List batch := s.batches_

/-- The one-argument overload `add_vertices(vertices)` (lines 26-32): grows the last
batch and appends the vertices. `who` is the ghost record of the calling `add_vertices`. -/
def buffer.add_vertices_1 (s : buffer) (vertices : List vertex) (who : append_record) :
    Except fault buffer :=
  match s.batches_.getLast? with
  | none => .error .undefined_behaviour
  | some batch =>
    .ok { s with
      batches_ := s.batches_.dropLast ++ [{ batch with size := batch.size + vertices.length }]
      vertices_ := s.vertices_ ++ vertices
      history_ := s.history_ ++ List.replicate vertices.length who }

/-- The statement `batches_.emplace_back(0, type)`. -/
def buffer.emplace_back (s : buffer) (type : D3D_PRIMITIVE_TOPOLOGY) : buffer :=
  { s with batches_ := s.batches_ ++ [batch.emplace 0 type] }

/-- Lines 38-71 of `add_vertices`: decide between a new batch, a stitch and a plain merge.
`front` is `vertices.front()`. -/
def buffer.select_batch (s : buffer) (front : vertex) (type : D3D_PRIMITIVE_TOPOLOGY)
    (rv : Option Nat) (who : append_record) : Except fault buffer :=
  match s.batches_.getLast? with
  | none => .ok { s.emplace_back type with split_batch_ := false }
  | some previous =>
    if s.split_batch_ then
      .ok { (if previous.size ≠ 0 then s.emplace_back type else s) with split_batch_ := false }
    else if previous.type ≠ type ∨ rv ≠ none ∨ rv ≠ previous.rv then
      .ok (s.emplace_back type)
    else if type = .TRIANGLESTRIP then
      match s.vertices_.getLast? with
      | none => .error .undefined_behaviour
      | some back => s.add_vertices_1 [back, front] who
    else
      match type with
      | .LINESTRIP | .LINESTRIP_ADJ | .TRIANGLESTRIP_ADJ => .ok (s.emplace_back type)
      | _ => .ok s

/-- The four-argument `add_vertices(vertices, type, rv, col)` (lines 34-80). -/
def buffer.add_vertices (s : buffer) (vertices : List vertex) (type : D3D_PRIMITIVE_TOPOLOGY)
    (rv : Option Nat) (col : color_rgba) : Except fault buffer :=
  match vertices with
  | [] => .ok s
  | front :: _ =>
    let who : append_record := { command := s.active_command, type := type, rv := rv, col := col }
    match s.select_batch front type rv who with
    | .error e => .error e
    | .ok s₁ =>
      match s₁.batches_.getLast? with
      | none => .error .undefined_behaviour
      | some new_batch =>
        let s₂ : buffer := { s₁ with
          batches_ := s₁.batches_.dropLast ++
            [{ new_batch with rv := rv, color := col, command := s₁.active_command }] }
        s₂.add_vertices_1 vertices who

/-- `buffer::draw_polyline` (lines 83-102): strokes the points and appends the path as one
TRIANGLESTRIP draw with the default resource and color; an empty path appends nothing. -/
def buffer.draw_polyline (env : environment) (s : buffer) (points : List vec2)
    (col : color_rgba) (thickness : ℚ) (joint : joint_type) (cap : cap_type) :
    Except fault buffer :=
  let path := env.polyline_compute thickness joint cap points
  match path with
  | [] => .ok s
  | _ :: _ =>
    s.add_vertices (path.map fun point => vertex.of_xy point.x point.y col 0 0)
      .TRIANGLESTRIP none env.default_color

/-- `buffer::draw_point` (lines 104-110). -/
def buffer.draw_point (env : environment) (s : buffer) (pos : vec2) (col : color_rgba) :
    Except fault buffer :=
  s.add_vertices [vertex.of_xy pos.x pos.y col 0 0] .POINTLIST none env.default_color

/-- `buffer::draw_line` (lines 112-119). -/
def buffer.draw_line (env : environment) (s : buffer) (start finish : vec2)
    (col : color_rgba) : Except fault buffer :=
  s.add_vertices [vertex.of_xy start.x start.y col 0 0, vertex.of_xy finish.x finish.y col 0 0]
    .LINELIST none env.default_color

/-- `buffer::draw_rect` (lines 121-130). -/
def buffer.draw_rect (env : environment) (s : buffer) (rect : vec4) (col : color_rgba)
    (thickness : ℚ) : Except fault buffer :=
  let points : List vec2 :=
    [⟨rect.x, rect.y⟩,
     ⟨rect.x + rect.z - 1, rect.y⟩,
     ⟨rect.x + rect.z - 1, rect.y + rect.w - 1⟩,
     ⟨rect.x, rect.y + rect.w - 1⟩]
  s.draw_polyline env points col thickness .joint_miter .cap_joint

/-- `buffer::draw_rect_filled` (lines 132-141). -/
def buffer.draw_rect_filled (env : environment) (s : buffer) (rect : vec4)
    (col : color_rgba) : Except fault buffer :=
  s.add_vertices
    [vertex.of_xy rect.x rect.y col 0 0,
     vertex.of_xy (rect.x + rect.z) rect.y col 0 0,
     vertex.of_xy rect.x (rect.y + rect.w) col 0 0,
     vertex.of_xy (rect.x + rect.z) (rect.y + rect.w) col 0 0]
    .TRIANGLESTRIP none env.default_color

/-- `buffer::draw_textured_quad` (lines 143-158): the quad is drawn between two forced
splits, with `textured` set on the active render state for the duration of the append. -/
def buffer.draw_textured_quad (s : buffer) (rect : vec4) (rv : Option Nat)
    (col : color_rgba) : Except fault buffer :=
  let s₁ : buffer :=
    { s with split_batch_ := true, active_command := { s.active_command with textured := true } }
  match s₁.add_vertices
      [vertex.of_xy rect.x rect.y col 0 0,
       vertex.of_xy (rect.x + rect.z) rect.y col 1 0,
       vertex.of_xy rect.x (rect.y + rect.w) col 0 1,
       vertex.of_xy (rect.x + rect.z) (rect.y + rect.w) col 1 1]
      .TRIANGLESTRIP rv col with
  | .error e => .error e
  | .ok s₂ =>
    .ok { s₂ with
      active_command := { s₂.active_command with textured := false }, split_batch_ := true }

/-- The tessellation point of index `i` (lines 165-167 and 184-185). -/
def circle_point (env : environment) (pos : vec2) (radius : ℚ) (segments i : Nat) : vec2 :=
  let theta := 2 * env.M_PI * (i : ℚ) / (segments : ℚ)
  ⟨pos.x + radius * env.cos theta, pos.y + radius * env.sin theta⟩

/-- The loop of lines 172-174: one filled 3x3 quad in `COLOR_RED` around every point. -/
def buffer.draw_circle_marks (env : environment) (s : buffer) :
    List vec2 → Except fault buffer
  | [] => .ok s
  | point :: rest =>
    match s.draw_rect_filled env ⟨point.x - 1, point.y - 1, 3, 3⟩ env.COLOR_RED with
    | .error e => .error e
    | .ok s₁ => s₁.draw_circle_marks env rest

/-- `buffer::draw_circle` (lines 160-175). -/
def buffer.draw_circle (env : environment) (s : buffer) (pos : vec2) (radius : ℚ)
    (col : color_rgba) (thickness : ℚ) (segments : Nat) : Except fault buffer :=
  let points := (List.range segments).map (circle_point env pos radius segments)
  match s.draw_polyline env points col thickness .joint_miter .cap_joint with
  | .error e => .error e
  | .ok s₁ => s₁.draw_circle_marks env points

/-- The local variables `first`, `prev`, `vertices` of `draw_circle_filled`. -/
structure circle_filled_state where
  first : vec2
  prev : vec2
  vertices : List vertex

/-- One iteration of the loop of `draw_circle_filled` (lines 183-203). -/
def circle_filled_step (env : environment) (pos : vec2) (radius : ℚ) (col : color_rgba)
    (segments : Nat) (st : circle_filled_state) (i : Nat) : circle_filled_state :=
  let point := circle_point env pos radius segments i
  let first := if i = 0 then point else st.first
  let vertices :=
    if st.prev ≠ ⟨0, 0⟩ then
      st.vertices ++ [vertex.of_vec2 st.prev col 0 0, vertex.of_vec2 point col 0 0,
        vertex.of_vec2 pos col 0 0]
    else st.vertices
  let vertices :=
    if i = segments - 1 then
      vertices ++ [vertex.of_vec2 point col 0 0, vertex.of_vec2 first col 0 0,
        vertex.of_vec2 pos col 0 0]
    else vertices
  { first := first, prev := point, vertices := vertices }

/-- `buffer::draw_circle_filled` (lines 177-206). -/
def buffer.draw_circle_filled (env : environment) (s : buffer) (pos : vec2) (radius : ℚ)
    (col : color_rgba) (segments : Nat) : Except fault buffer :=
  let st := (List.range segments).foldl (circle_filled_step env pos radius col segments)
    { first := ⟨0, 0⟩, prev := ⟨0, 0⟩, vertices := [] }
  s.add_vertices st.vertices .TRIANGLELIST none env.default_color

/-- `buffer::draw_glyph` (lines 208-210). -/
def buffer.draw_glyph (s : buffer) (pos : vec2) (g : glyph) (col : color_rgba) :
    Except fault buffer :=
  s.draw_textured_quad ⟨pos.x + g.bearing.x, pos.y + g.bearing.y, g.size.x, g.size.y⟩ g.rv col

/-- The C library `isprint` on a `char` in the default locale: the codes 0x20 to 0x7E. -/
def isprint (c : Char) : Bool := decide (32 ≤ c.toNat ∧ c.toNat ≤ 126)

/-- `buffer::draw_text` (lines 212-224); the alignment arguments are not used. -/
def buffer.draw_text (env : environment) (s : buffer) (pos : vec2) (text : List Char)
    (font_id : Nat) (col : color_rgba) (h_align v_align : text_align) : Except fault buffer :=
  match text with
  | [] => .ok s
  | c :: rest =>
    if isprint c = false ∨ c = ' ' then
      s.draw_text env pos rest font_id col h_align v_align
    else
      let g := env.get_font_glyph font_id c
      match s.draw_glyph pos g col with
      | .error e => .error e
      | .ok s₁ =>
        s₁.draw_text env { pos with x := pos.x + (g.advance : ℚ) / 64 } rest font_id col
          h_align v_align

/-- `buffer::update_scissor` (lines 241-255). -/
def buffer.update_scissor (s : buffer) : buffer :=
  let s₁ : buffer := { s with split_batch_ := true }
  match s₁.scissor_commands_.getLast? with
  | none => { s₁ with active_command := { s₁.active_command with scissor_enable := false } }
  | some new_command =>
    { s₁ with active_command := { s₁.active_command with
        scissor_enable := true
        scissor_bounds := new_command.1
        scissor_in := new_command.2.1
        scissor_circle := new_command.2.2 } }

/-- `buffer::push_scissor` (lines 226-233). -/
def buffer.push_scissor (s : buffer) (bounds : vec4) (in_ circle : Bool) : buffer :=
  buffer.update_scissor { s with
    scissor_commands_ :=
      s.scissor_commands_ ++ [(⟨bounds.x, bounds.y, bounds.z, bounds.w⟩, in_, circle)] }

/-- `buffer::pop_scissor` (lines 235-239); the `assert` is checked. -/
def buffer.pop_scissor (s : buffer) : Except fault buffer :=
  if s.scissor_commands_ = [] then .error .assertion_failed
  else .ok (buffer.update_scissor { s with scissor_commands_ := s.scissor_commands_.dropLast })

/-- `buffer::update_key` (lines 268-278). -/
def buffer.update_key (s : buffer) : buffer :=
  let s₁ : buffer := { s with split_batch_ := true }
  match s₁.key_commands_.getLast? with
  | none => { s₁ with active_command := { s₁.active_command with key_enable := false } }
  | some back =>
    { s₁ with active_command := { s₁.active_command with key_enable := true, key_color := back } }

/-- `buffer::push_key` (lines 257-260). -/
def buffer.push_key (s : buffer) (color : color_rgba) : buffer :=
  buffer.update_key { s with key_commands_ := s.key_commands_ ++ [color] }

/-- `buffer::pop_key` (lines 262-266); the `assert` is checked. -/
def buffer.pop_key (s : buffer) : Except fault buffer :=
  if s.key_commands_ = [] then .error .assertion_failed
  else .ok (buffer.update_key { s with key_commands_ := s.key_commands_.dropLast })

/-- `buffer::update_blur` (lines 291-300). -/
def buffer.update_blur (s : buffer) : buffer :=
  let s₁ : buffer := { s with split_batch_ := true }
  match s₁.blur_commands_.getLast? with
  | none => { s₁ with active_command := { s₁.active_command with blur_strength := 0 } }
  | some back => { s₁ with active_command := { s₁.active_command with blur_strength := back } }

/-- `buffer::push_blur` (lines 280-283). -/
def buffer.push_blur (s : buffer) (strength : ℚ) : buffer :=
  buffer.update_blur { s with blur_commands_ := s.blur_commands_ ++ [strength] }

/-- `buffer::pop_blur` (lines 285-289); the `assert` is checked. -/
def buffer.pop_blur (s : buffer) : Except fault buffer :=
  if s.blur_commands_ = [] then .error .assertion_failed
  else .ok (buffer.update_blur { s with blur_commands_ := s.blur_commands_.dropLast })

/-! ## Sequences of public operations -/

/-- One call of a public member function of the buffer, with its arguments. -/
inductive operation where
  | clear
  | add_vertices (vertices : List vertex) (type : D3D_PRIMITIVE_TOPOLOGY) (rv : Option Nat)
      (col : color_rgba)
  | draw_polyline (points : List vec2) (col : color_rgba) (thickness : ℚ) (joint : joint_type)
      (cap : cap_type)
  | draw_point (pos : vec2) (col : color_rgba)
  | draw_line (start finish : vec2) (col : color_rgba)
  | draw_rect (rect : vec4) (col : color_rgba) (thickness : ℚ)
  | draw_rect_filled (rect : vec4) (col : color_rgba)
  | draw_textured_quad (rect : vec4) (rv : Option Nat) (col : color_rgba)
  | draw_circle (pos : vec2) (radius : ℚ) (col : color_rgba) (thickness : ℚ) (segments : Nat)
  | draw_circle_filled (pos : vec2) (radius : ℚ) (col : color_rgba) (segments : Nat)
  | draw_glyph (pos : vec2) (g : glyph) (col : color_rgba)
  | draw_text (pos : vec2) (text : List Char) (font_id : Nat) (col : color_rgba)
      (h_align v_align : text_align)
  | push_scissor (bounds : vec4) (in_ circle : Bool)
  | pop_scissor
  | push_key (color : color_rgba)
  | pop_key
  | push_blur (strength : ℚ)
  | pop_blur

/-- The effect of one public call on the buffer. -/
def buffer.apply (env : environment) (s : buffer) : operation → Except fault buffer
  | .clear => .ok s.clear
  | .add_vertices vertices type rv col => s.add_vertices vertices type rv col
  | .draw_polyline points col thickness joint cap =>
    s.draw_polyline env points col thickness joint cap
  | .draw_point pos col => s.draw_point env pos col
  | .draw_line start finish col => s.draw_line env start finish col
  | .draw_rect rect col thickness => s.draw_rect env rect col thickness
  | .draw_rect_filled rect col => s.draw_rect_filled env rect col
  | .draw_textured_quad rect rv col => s.draw_textured_quad rect rv col
  | .draw_circle pos radius col thickness segments =>
    s.draw_circle env pos radius col thickness segments
  | .draw_circle_filled pos radius col segments =>
    s.draw_circle_filled env pos radius col segments
  | .draw_glyph pos g col => s.draw_glyph pos g col
  | .draw_text pos text font_id col h_align v_align =>
    s.draw_text env pos text font_id col h_align v_align
  | .push_scissor bounds in_ round => .ok (s.push_scissor bounds in_ round)
  | .pop_scissor => s.pop_scissor
  | .push_key color => .ok (s.push_key color)
  | .pop_key => s.pop_key
  | .push_blur strength => .ok (s.push_blur strength)
  | .pop_blur => s.pop_blur

/-- A sequence of public calls, in order; the run stops at the first fault. -/
def buffer.run (env : environment) (s : buffer) : List operation → Except fault buffer
  | [] => .ok s
  | op :: ops =>
    match s.apply env op with
    | .error e => .error e
    | .ok s₁ => s₁.run env ops

/-- The buffers that a sequence of public calls produces from a freshly constructed one. -/
def buffer.reachable (env : environment) (s : buffer) : Prop :=
  ∃ ops : List operation, buffer.fresh.run env ops = .ok s

/-- The runs of a stream `xs` that the batches cover, in draw order: each batch takes the
next `size` elements. -/
def batch_runs {α : Type} : List batch → List α → List (List α)
  | [], _ => []
  | b :: bs, xs => xs.take b.size :: batch_runs bs (xs.drop b.size)

/-- The buffer after `add_vertices` has opened a new batch for `vertices`: the batch is
appended with the call's arguments and the active render state, the vertices are appended
as they are, and no split stays pending. -/
def buffer.with_new_batch (s : buffer) (vertices : List vertex)
    (type : D3D_PRIMITIVE_TOPOLOGY) (rv : Option Nat) (col : color_rgba) : buffer :=
  { s with
    batches_ := s.batches_ ++
      [{ size := vertices.length, type := type, rv := rv, color := col,
         command := s.active_command }]
    vertices_ := s.vertices_ ++ vertices
    history_ := s.history_ ++ List.replicate vertices.length
      { command := s.active_command, type := type, rv := rv, col := col }
    split_batch_ := false }

/-- The three strip-like topologies that `add_vertices` never merges (lines 61-63). -/
def D3D_PRIMITIVE_TOPOLOGY.never_merged : D3D_PRIMITIVE_TOPOLOGY → Bool
  | .LINESTRIP | .LINESTRIP_ADJ | .TRIANGLESTRIP_ADJ => true
  | _ => false

/-- The buffer after `add_vertices` has grown the last batch `p` (the batches before it
being `bs`) by the vertices `extra`, all with a null resource handle. -/
def buffer.with_grown_batch (s : buffer) (bs : List batch) (p : batch)
    (extra : List vertex) (col : color_rgba) : buffer :=
  { s with
    batches_ := bs ++
      [{ p with size := p.size + extra.length, rv := none, color := col,
                command := s.active_command }]
    vertices_ := s.vertices_ ++ extra
    history_ := s.history_ ++ List.replicate extra.length
      { command := s.active_command, type := p.type, rv := none, col := col } }

/-- What a batch and the run of ghost records it covers agree on: the run has the batch's
size and is not empty, every record carries the batch's render state, topology and
resource handle, and the last record carries the batch's color. -/
def run_agrees (b : batch) (r : List append_record) : Prop :=
  r.length = b.size ∧ b.size ≠ 0 ∧
  (∀ t ∈ r, t.command = b.command ∧ t.type = b.type ∧ t.rv = b.rv) ∧
  r.getLast?.map append_record.col = some b.color

/-- The part of the buffer invariant that concerns vertices and batches. -/
structure buffer.batches_ok (s : buffer) : Prop where
  history_length : s.history_.length = s.vertices_.length
  runs : ∃ chunks : List (List append_record),
    s.history_ = chunks.flatten ∧ List.Forall₂ run_agrees s.batches_ chunks
  command_current : s.split_batch_ = false →
    ∀ b ∈ s.batches_.getLast?, b.command = s.active_command

/-- The part of the buffer invariant that concerns the state stacks: a non-empty stack
has its top entry in the active render state, the key flag follows the key stack, and
`textured` is off between two public calls. -/
structure buffer.stacks_ok (s : buffer) : Prop where
  scissor_top : ∀ t ∈ s.scissor_commands_.getLast?,
    s.active_command.scissor_enable = true ∧ s.active_command.scissor_bounds = t.1 ∧
    s.active_command.scissor_in = t.2.1 ∧ s.active_command.scissor_circle = t.2.2
  key_enable : s.active_command.key_enable = true ↔ s.key_commands_ ≠ []
  key_top : ∀ c ∈ s.key_commands_.getLast?, s.active_command.key_color = c
  blur_top : ∀ x ∈ s.blur_commands_.getLast?, s.active_command.blur_strength = x
  not_textured : s.active_command.textured = false

/-- The invariant of the buffer between two public calls. -/
def buffer.consistent (s : buffer) : Prop := s.batches_ok ∧ s.stacks_ok

/-- The stacks and the active render state of `a` are those of `b`. -/
def buffer.same_state (a b : buffer) : Prop :=
  a.scissor_commands_ = b.scissor_commands_ ∧ a.key_commands_ = b.key_commands_ ∧
  a.blur_commands_ = b.blur_commands_ ∧ a.active_command = b.active_command

/-- The six calls that change the render state: push and pop of scissor, key and blur. -/
def operation.changes_state : operation → Bool
  | .push_scissor _ _ _ | .pop_scissor | .push_key _ | .pop_key | .push_blur _ | .pop_blur => true
  | _ => false

/-- The three pushes. -/
def operation.is_push : operation → Bool
  | .push_scissor _ _ _ | .push_key _ | .push_blur _ => true
  | _ => false

/-- An `add_vertices` call with a non-empty list and one of the topologies LINESTRIP,
LINESTRIP_ADJ, TRIANGLESTRIP_ADJ. -/
def operation.is_strip_append : operation → Prop
  | .add_vertices vertices type _ _ =>
    vertices ≠ [] ∧ (type = .LINESTRIP ∨ type = .LINESTRIP_ADJ ∨ type = .TRIANGLESTRIP_ADJ)
  | _ => False

/-! ## Concrete inputs -/

/-- A concrete environment for runs on explicit inputs: white default color, a stroker
that returns its points, constant `cos` and `sin`, one glyph for every character. -/
def sample_environment : environment :=
  { default_color := ⟨255, 255, 255, 255⟩
    COLOR_RED := ⟨255, 0, 0, 255⟩
    M_PI := 355 / 113
    cos := fun _ => 1
    sin := fun _ => 0
    polyline_compute := fun _ _ _ points => points
    get_font_glyph := fun _ _ => ⟨⟨1, 2⟩, ⟨8, 8⟩, 512, some 1⟩ }

/-- A concrete vertex. -/
def sample_vertex : vertex := vertex.of_xy 1 2 ⟨255, 255, 255, 255⟩ 0 0

/-- Another concrete vertex. -/
def other_vertex : vertex := vertex.of_xy 3 4 ⟨255, 255, 255, 255⟩ 0 0

/-- Two filled rectangles with a scissor push between them, then a textured quad. -/
def sample_scene : List operation :=
  [.draw_rect_filled ⟨0, 0, 10, 10⟩ ⟨0, 0, 255, 255⟩,
   .draw_rect_filled ⟨20, 0, 10, 10⟩ ⟨0, 0, 255, 255⟩,
   .push_scissor ⟨0, 0, 100, 100⟩ true false,
   .draw_rect_filled ⟨5, 5, 10, 10⟩ ⟨0, 255, 0, 255⟩,
   .draw_textured_quad ⟨0, 0, 8, 8⟩ (some 1) ⟨255, 255, 255, 255⟩]

/-- The buffer after one point has been appended to a fresh buffer with a null handle. -/
def sample_points : buffer :=
  buffer.fresh.with_new_batch [sample_vertex] .POINTLIST none ⟨255, 255, 255, 255⟩

/-- Two line draws that differ only in the color argument of `add_vertices`. -/
def two_color_lines : List operation :=
  [.add_vertices [sample_vertex, other_vertex] .LINELIST none ⟨255, 0, 0, 255⟩,
   .add_vertices [other_vertex, sample_vertex] .LINELIST none ⟨0, 0, 255, 255⟩]

/-- One push on each of the three stacks. -/
def three_pushes : List operation :=
  [.push_scissor ⟨0, 0, 100, 100⟩ true false, .push_key ⟨255, 0, 255, 255⟩, .push_blur 2]

end renderer

/-!
# Axis abstraction (`src/include/carbon/layout/axes.hpp`)
-/

namespace carbon

/-- The enumeration `flex_direction` (lines 8-13). -/
inductive flex_direction where
  | row
  | row_reversed
  | column
  | column_reversed
deriving DecidableEq

/-- The class template `axes<T, RetT>` (lines 15-53): its three data members. The return
type `RetT` only matters to the conversion, which takes its constructor as an argument. -/
structure axes (T : Type) where
  main : T
  cross : T
  axis : flex_direction
deriving DecidableEq

/-- The compound assignment `axes::operator+=` (lines 23-34): the value left in `*this`. -/
def axes.add_assign {T : Type} [Add T] [DecidableEq T] (a o : axes T) : axes T :=
  if a.cross = o.cross then
    { a with main := a.main + o.main, cross := a.cross + o.cross }
  else
    { a with main := a.main + o.cross, cross := a.cross + o.main }

/-- The binary `axes::operator+` (lines 36-38). -/
def axes.add {T : Type} [Add T] [Sub T] (a o : axes T) : axes T :=
  { main := a.main + o.main, cross := a.cross - o.main, axis := a.axis }

/-- The conversion `explicit operator RetT()` (lines 40-47); `ret` is the two-argument
constructor of `RetT`. -/
def axes.to_RetT {T R : Type} (ret : T → T → R) (a : axes T) : R :=
  if a.axis = .row ∨ a.axis = .row_reversed then ret a.main a.cross else ret a.cross a.main

/-- The conversion of `axes_vec2 = axes<float, glm::vec2>` (line 56): `glm::vec2(a, b)`. -/
def axes_vec2_to_vec2 (a : axes ℚ) : renderer.vec2 :=
  a.to_RetT fun x y => { x := x, y := y }

/-- The conversion of `axes_vec4 = axes<glm::vec2, glm::vec4>` (line 55):
`glm::vec4(a, b)` lays the two pairs out one after the other. -/
def axes_vec4_to_vec4 (a : axes renderer.vec2) : renderer.vec4 :=
  a.to_RetT fun p q => { x := p.x, y := p.y, z := q.x, w := q.y }

/-!
# Flex items and flexible lengths (`item.hpp`, `containers/flex_line.hpp`)

The data members come from the headers. `flex_line.cpp` is not among the sources, so the
functions declared in `flex_line.hpp` are modelled from the specification; `float` is an
exact rational.
-/

/-- The enumeration `flex_unit` (`item.hpp` lines 12-17). -/
inductive flex_unit where
  | unit_pixel
  | unit_aspect
  | unit_relative
  | unit_auto
deriving DecidableEq

/-- The struct `flex_width` (`item.hpp` lines 39-53); the `relative` pointer is the index
of the item it points to, if any. -/
structure flex_width where
  unit : flex_unit
  value : ℚ
  relative : Option Nat
deriving DecidableEq

/-- The struct `flex_basis` (`item.hpp` lines 55-66). -/
structure flex_basis where
  minimum : Bool
  content : renderer.vec2
  width : flex_width
deriving DecidableEq

/-- The struct `flex` (`item.hpp` lines 69-83). -/
structure flex where
  grow : ℚ
  shrink : ℚ
  basis : flex_basis
deriving DecidableEq

/-- The class `flex_item` (`item.hpp` lines 86-119): its data members; `parent` is the
index of the parent item, if any. -/
structure flex_item where
  parent : Option Nat
  flex : flex
  visible : Bool
  min : ℚ
  max : ℚ
  content_min_ : ℚ
  base_size_ : ℚ
  hypothetical_size_ : ℚ
  shrink_scaled : ℚ
  shrink_ratio : ℚ
  final_size : ℚ
  flexible : Bool
deriving DecidableEq

/-- The constant `FLT_MAX` of `<cfloat>`, the default of `flex_item::max`. -/
def FLT_MAX : ℚ := 340282346638528859811704183484516925440

/-- Modelled from the spec: the weight by which the free space is shared, which
`flex_line.cpp` (not among the sources) computes: the grow factor when the space is
positive, the scaled shrink factor `shrink × base_size` when it is negative. -/
def flex_weight (growing : Bool) (item : flex_item) : ℚ :=
  if growing then item.flex.grow else item.flex.shrink * item.base_size_

/-- Modelled from the spec: `flex_line::clamp(item, proposed, &violation_out)`, declared in
`flex_line.hpp` line 19 and defined in `flex_line.cpp` (not among the sources): applies
[min, max] and reports how much was clamped. The pair is (clamped value, violation). -/
def flex_line.clamp (item : flex_item) (src : ℚ) : ℚ × ℚ :=
  (max item.min (min src item.max), max item.min (min src item.max) - src)

/-- Modelled from the spec: the running total of the weights of the items that are still
flexible (`grow_total`, `shrink_scaled_total` of `flex_line.hpp`). -/
def flex_line.weight_total (growing : Bool) (items : List flex_item) : ℚ :=
  (items.map fun item => if item.flexible then flex_weight growing item else 0).sum

/-- Modelled from the spec: `flex_line::resolve_flexible_length(item)`, declared in
`flex_line.hpp` line 23 and defined in `flex_line.cpp` (not among the sources): the
per-item delta for the current iteration, the item's proportional share of the free space
that is left. -/
def flex_line.resolve_flexible_length (growing : Bool) (free_space total : ℚ)
    (item : flex_item) : ℚ :=
  free_space * flex_weight growing item / total

/-- Modelled from the spec: the size one iteration proposes to an item: its base size plus
its delta. -/
def flex_line.proposed (growing : Bool) (free_space total : ℚ) (item : flex_item) : ℚ :=
  item.base_size_ + flex_line.resolve_flexible_length growing free_space total item

/-- Modelled from the spec: whether one iteration freezes the item: it is still flexible
and the clamp reports a violation for the proposed size. -/
def flex_line.freezes (growing : Bool) (free_space total : ℚ) (item : flex_item) : Bool :=
  item.flexible &&
    decide ((flex_line.clamp item (flex_line.proposed growing free_space total item)).2 ≠ 0)

/-- Modelled from the spec: what one iteration does to one item: a flexible item takes the
proposed size, or, when the clamp reports a violation, the clamped size and is frozen. -/
def flex_line.resolve_item (growing : Bool) (free_space total : ℚ) (item : flex_item) :
    flex_item :=
  if flex_line.freezes growing free_space total item then
    { item with
      final_size := (flex_line.clamp item (flex_line.proposed growing free_space total item)).1
      flexible := false }
  else if item.flexible then
    { item with final_size := flex_line.proposed growing free_space total item }
  else item

/-- Modelled from the spec: the space that one iteration hands to the item when it freezes
it, and 0 for every other item. -/
def flex_line.frozen_space (growing : Bool) (free_space total : ℚ) (item : flex_item) : ℚ :=
  if flex_line.freezes growing free_space total item then
    (flex_line.clamp item (flex_line.proposed growing free_space total item)).1 -
      item.base_size_
  else 0

/-- Modelled from the spec: `bool flex_line::calculate_flex()`, declared in `flex_line.hpp`
line 22 and defined in `flex_line.cpp` (not among the sources): one iteration of the
distribution. It returns the items, the free space that remains for the items still
flexible, and whether an item was clamped, that is whether another iteration is needed. -/
def flex_line.calculate_flex (growing : Bool) (free_space : ℚ) (items : List flex_item) :
    List flex_item × ℚ × Bool :=
  let total := flex_line.weight_total growing items
  (items.map (flex_line.resolve_item growing free_space total),
   free_space - (items.map (flex_line.frozen_space growing free_space total)).sum,
   items.any (flex_line.freezes growing free_space total))

/-- Modelled from the spec: the loop "until no item clamps, or until all items are frozen"
around `calculate_flex`; every repetition freezes an item, so `rounds` = number of items
plus one is enough. -/
def flex_line.resolve_flexible_lengths (growing : Bool) :
    Nat → ℚ → List flex_item → List flex_item
  | 0, _, items => items
  | rounds + 1, free_space, items =>
    let r := flex_line.calculate_flex growing free_space items
    if r.2.2 then flex_line.resolve_flexible_lengths growing rounds r.2.1 r.1 else r.1

/-- Modelled from the spec: the start of the resolution: every item has its base size, and
the visible items with a positive weight are the flexible ones. -/
def flex_line.start (growing : Bool) (items : List flex_item) : List flex_item :=
  items.map fun item =>
    { item with
      final_size := item.base_size_
      flexible := item.visible && decide (0 < flex_weight growing item) }

/-- Modelled from the spec: phase 3 of `flex_line::compute()` (`flex_line.cpp` is not among
the sources), for items whose base sizes are measured and a container whose free space is
`free_space`: with no free space every item keeps its base size, otherwise the free space
is distributed by grow factor (positive) or scaled shrink factor (negative). -/
def flex_line.compute (free_space : ℚ) (items : List flex_item) : List flex_item :=
  if free_space = 0 then
    flex_line.start true items
  else
    flex_line.resolve_flexible_lengths (decide (0 < free_space)) (items.length + 1) free_space
      (flex_line.start (decide (0 < free_space)) items)

/-- The growth `final_size - base_size` of an item that is visible and has a positive grow
factor, and 0 for every other item. -/
def flex_item.growth (item : flex_item) : ℚ :=
  if item.visible ∧ 0 < item.flex.grow then item.final_size - item.base_size_ else 0

/-- An item measured to the base size `base` with the flex factors and bounds given and
the defaults of `item.hpp` elsewhere. -/
def flex_item.measured (grow shrink min max base : ℚ) : flex_item :=
  { parent := none
    flex := { grow := grow, shrink := shrink,
              basis := { minimum := false, content := ⟨0, 0⟩,
                         width := { unit := .unit_aspect, value := 0, relative := none } } }
    visible := true
    min := min
    max := max
    content_min_ := 0
    base_size_ := base
    hypothetical_size_ := base
    shrink_scaled := 0
    shrink_ratio := 0
    final_size := 0
    flexible := false }

/-- The three items of the specification's example: grows 1, 2, 1, basis 0, max
unbounded. -/
def grows_121 : List flex_item :=
  [flex_item.measured 1 1 0 FLT_MAX 0, flex_item.measured 2 1 0 FLT_MAX 0,
   flex_item.measured 1 1 0 FLT_MAX 0]

/-- One growing item whose max of 10 is below the free space. -/
def capped_item : List flex_item := [flex_item.measured 1 1 0 10 0]

/-- The growth of an item that has been frozen, and 0 for an item that is still
flexible. -/
def flex_item.frozen_growth (item : flex_item) : ℚ :=
  if item.flexible then 0 else item.growth

/-- The number of items that are still flexible. -/
def flex_line.flexible_count (items : List flex_item) : Nat :=
  items.countP fun item => item.flexible

end carbon

namespace renderer

/-- The characters of `text` for which the loop of `draw_text` reaches the glyph lookup of
line 219: those that pass the test of line 216, in order. -/
def drawn_characters (text : List Char) : List Char :=
  text.filter fun c => decide (¬ (isprint c = false ∨ c = ' '))

/-- A text of spaces and non-printable characters only: space, tab, space, DEL, newline. -/
def blank_text : List Char := [' ', Char.ofNat 9, ' ', Char.ofNat 127, Char.ofNat 10]

/-- A text with two glyphs and a space between them. -/
def spaced_text : List Char := ['a', ' ', 'b']

/-- The four vertices that `draw_textured_quad` builds for `rect` (lines 147-152), with
the texture coordinates (0,0), (1,0), (0,1), (1,1). -/
def textured_quad_vertices (rect : vec4) (col : color_rgba) : List vertex :=
  [vertex.of_xy rect.x rect.y col 0 0,
   vertex.of_xy (rect.x + rect.z) rect.y col 1 0,
   vertex.of_xy rect.x (rect.y + rect.w) col 0 1,
   vertex.of_xy (rect.x + rect.z) (rect.y + rect.w) col 1 1]

/-- The buffer after `draw_textured_quad` on a consistent buffer: one new TRIANGLESTRIP
batch of the four vertices with the handle, the color and the active render state with
`textured` set; afterwards a split is pending and `textured` is off again. -/
def buffer.with_textured_quad (s : buffer) (rect : vec4) (rv : Option Nat)
    (col : color_rgba) : buffer :=
  { s with
    batches_ := s.batches_ ++
      [{ size := 4, type := .TRIANGLESTRIP, rv := rv, color := col,
         command := { s.active_command with textured := true } }]
    vertices_ := s.vertices_ ++ textured_quad_vertices rect col
    history_ := s.history_ ++ List.replicate 4
      { command := { s.active_command with textured := true }, type := .TRIANGLESTRIP,
        rv := rv, col := col }
    split_batch_ := true
    active_command := { s.active_command with textured := false } }

/-- Follows the spec's words: the rectangle of the quad of index `i` for the drawn
characters `cs`, in exact arithmetic: x is `pos.x` plus the advances, each divided by 64,
of the characters before `i`, plus the bearing of character `i`; y is `pos.y` plus its
bearing; the extent is its glyph size. -/
def text_quad_rect (env : environment) (font_id : Nat) (pos : vec2) (cs : List Char)
    (i : Nat) : vec4 :=
  let g := env.get_font_glyph font_id (cs.getD i ' ')
  { x := pos.x + ((cs.take i).map fun c => ((env.get_font_glyph font_id c).advance : ℚ) / 64).sum
      + g.bearing.x
    y := pos.y + g.bearing.y
    z := g.size.x
    w := g.size.y }

/-- The vertex list that the loop of `draw_circle_filled` (lines 181-203) hands to
`add_vertices`. -/
def circle_filled_vertices (env : environment) (pos : vec2) (radius : ℚ) (col : color_rgba)
    (segments : Nat) : List vertex :=
  ((List.range segments).foldl (circle_filled_step env pos radius col segments)
    { first := ⟨0, 0⟩, prev := ⟨0, 0⟩, vertices := [] }).vertices

/-- A concrete environment whose `cos` and `sin` are exact at the four angles of a circle
of 4 segments, `2 * M_PI * i / 4` for i = 0, 1, 2, 3: the values 1, 0, -1, 0 and
0, 1, 0, -1. -/
def quarter_turn_environment : environment :=
  { default_color := ⟨255, 255, 255, 255⟩
    COLOR_RED := ⟨255, 0, 0, 255⟩
    M_PI := 355 / 113
    cos := fun theta => if theta = 0 then 1 else if theta = 2 * (355 / 113) * 2 / 4 then -1 else 0
    sin := fun theta =>
      if theta = 2 * (355 / 113) * 1 / 4 then 1
      else if theta = 2 * (355 / 113) * 3 / 4 then -1 else 0
    polyline_compute := fun _ _ _ points => points
    get_font_glyph := fun _ _ => ⟨⟨1, 2⟩, ⟨8, 8⟩, 512, some 1⟩ }

/-- The four vertices that `draw_rect_filled` builds for `rect` (lines 133-138). -/
def rect_filled_vertices (rect : vec4) (col : color_rgba) : List vertex :=
  [vertex.of_xy rect.x rect.y col 0 0,
   vertex.of_xy (rect.x + rect.z) rect.y col 0 0,
   vertex.of_xy rect.x (rect.y + rect.w) col 0 0,
   vertex.of_xy (rect.x + rect.z) (rect.y + rect.w) col 0 0]

/-- The quad that the loop of `draw_circle` (lines 172-174) draws around `point`: the
vertices of `draw_rect_filled({ point - 1, 3, 3 }, COLOR_RED)`. -/
def marker_quad (env : environment) (point : vec2) : List vertex :=
  rect_filled_vertices ⟨point.x - 1, point.y - 1, 3, 3⟩ env.COLOR_RED

/-- The first vertex of the quad around `point`. -/
def marker_first (env : environment) (point : vec2) : vertex :=
  vertex.of_xy (point.x - 1) (point.y - 1) env.COLOR_RED 0 0

/-- The last vertex of the quad around `point`. -/
def marker_last (env : environment) (point : vec2) : vertex :=
  vertex.of_xy (point.x - 1 + 3) (point.y - 1 + 3) env.COLOR_RED 0 0

/-- The vertices that the quads around `points` add to a triangle strip whose last vertex
is `back`: each quad is preceded by the two bridging vertices of the stitch, the last
vertex stored before it and its own first vertex. -/
def stitched_marks (env : environment) (back : vertex) : List vec2 → List vertex
  | [] => []
  | point :: rest =>
    back :: marker_first env point ::
      (marker_quad env point ++ stitched_marks env (marker_last env point) rest)

/-! ## Lemmas on `add_vertices` -/

theorem add_vertices_nil (s : buffer) (type : D3D_PRIMITIVE_TOPOLOGY) (rv : Option Nat)
    (col : color_rgba) : s.add_vertices [] type rv col = .ok s := rfl

theorem add_vertices_no_batches (s : buffer) (v : vertex) (vs : List vertex)
    (type : D3D_PRIMITIVE_TOPOLOGY) (rv : Option Nat) (col : color_rgba)
    (hb : s.batches_ = []) :
    s.add_vertices (v :: vs) type rv col = .ok (s.with_new_batch (v :: vs) type rv col) := by
  simp [buffer.add_vertices, buffer.select_batch, buffer.emplace_back, buffer.add_vertices_1,
    buffer.with_new_batch, batch.emplace, hb]

theorem add_vertices_split (s : buffer) (v : vertex) (vs : List vertex)
    (type : D3D_PRIMITIVE_TOPOLOGY) (rv : Option Nat) (col : color_rgba)
    (bs : List batch) (p : batch) (hb : s.batches_ = bs ++ [p]) (hp : p.size ≠ 0)
    (hs : s.split_batch_ = true) :
    s.add_vertices (v :: vs) type rv col = .ok (s.with_new_batch (v :: vs) type rv col) := by
  simp [buffer.add_vertices, buffer.select_batch, buffer.emplace_back, buffer.add_vertices_1,
    buffer.with_new_batch, batch.emplace, hb, hp, hs]

theorem add_vertices_differs (s : buffer) (v : vertex) (vs : List vertex)
    (type : D3D_PRIMITIVE_TOPOLOGY) (rv : Option Nat) (col : color_rgba)
    (bs : List batch) (p : batch) (hb : s.batches_ = bs ++ [p])
    (hs : s.split_batch_ = false) (hd : p.type ≠ type ∨ rv ≠ none ∨ rv ≠ p.rv) :
    s.add_vertices (v :: vs) type rv col = .ok (s.with_new_batch (v :: vs) type rv col) := by
  simp only [buffer.add_vertices, buffer.select_batch, hb, List.getLast?_concat, hs,
    Bool.false_eq_true, if_false, if_pos hd]
  simp [buffer.emplace_back, buffer.add_vertices_1, buffer.with_new_batch, batch.emplace, hb,
    hs]

theorem add_vertices_never_merged (s : buffer) (v : vertex) (vs : List vertex)
    (type : D3D_PRIMITIVE_TOPOLOGY) (rv : Option Nat) (col : color_rgba)
    (bs : List batch) (p : batch) (hb : s.batches_ = bs ++ [p])
    (hs : s.split_batch_ = false) (ht : type.never_merged = true) :
    s.add_vertices (v :: vs) type rv col = .ok (s.with_new_batch (v :: vs) type rv col) := by
  by_cases hd : p.type ≠ type ∨ rv ≠ none ∨ rv ≠ p.rv
  · exact add_vertices_differs s v vs type rv col bs p hb hs hd
  · simp only [buffer.add_vertices, buffer.select_batch, hb, List.getLast?_concat, hs,
      Bool.false_eq_true, if_false, if_neg hd]
    cases type <;> simp [D3D_PRIMITIVE_TOPOLOGY.never_merged] at ht <;>
      simp [buffer.emplace_back, buffer.add_vertices_1, buffer.with_new_batch, batch.emplace,
        hb, hs]

/-- The plain merge: same list topology, null handle on both sides, no split pending. -/
theorem add_vertices_merge (s : buffer) (v : vertex) (vs : List vertex)
    (type : D3D_PRIMITIVE_TOPOLOGY) (col : color_rgba)
    (bs : List batch) (p : batch) (hb : s.batches_ = bs ++ [p])
    (hs : s.split_batch_ = false) (hty : p.type = type) (hrv : p.rv = none)
    (ht : type.never_merged = false) (hts : type ≠ .TRIANGLESTRIP) :
    s.add_vertices (v :: vs) type none col = .ok (s.with_grown_batch bs p (v :: vs) col) := by
  have hd : ¬ (p.type ≠ type ∨ (none : Option Nat) ≠ none ∨ (none : Option Nat) ≠ p.rv) := by
    simp [hty, hrv]
  simp only [buffer.add_vertices, buffer.select_batch, hb, List.getLast?_concat, hs,
    Bool.false_eq_true, if_false, if_neg hd, if_neg hts]
  cases type <;> simp [D3D_PRIMITIVE_TOPOLOGY.never_merged] at ht hts <;>
    simp [buffer.add_vertices_1, buffer.with_grown_batch, hb, hs, hty]

/-- The stitch: TRIANGLESTRIP onto a TRIANGLESTRIP batch, null handle on both sides, no
split pending; the last stored vertex and the first new one are inserted first. -/
theorem add_vertices_stitch (s : buffer) (v : vertex) (vs : List vertex) (col : color_rgba)
    (bs : List batch) (p : batch) (hb : s.batches_ = bs ++ [p])
    (ws : List vertex) (back : vertex) (hv : s.vertices_ = ws ++ [back])
    (hs : s.split_batch_ = false) (hty : p.type = .TRIANGLESTRIP) (hrv : p.rv = none) :
    s.add_vertices (v :: vs) .TRIANGLESTRIP none col =
      .ok (s.with_grown_batch bs p (back :: v :: v :: vs) col) := by
  have hd : ¬ (p.type ≠ .TRIANGLESTRIP ∨ (none : Option Nat) ≠ none ∨
      (none : Option Nat) ≠ p.rv) := by
    simp [hty, hrv]
  simp only [buffer.add_vertices, buffer.select_batch, hb, List.getLast?_concat, hs,
    Bool.false_eq_true, if_false, if_neg hd, if_true, hv]
  simp [buffer.add_vertices_1, buffer.with_grown_batch, hb, hv, hs, hty, List.replicate_succ,
    Nat.add_assoc]
  omega

/-! ## The invariant is kept -/

theorem forall₂_concat_left {α β : Type} {R : α → β → Prop} {as : List α} {a : α}
    {l : List β} (h : List.Forall₂ R (as ++ [a]) l) :
    ∃ cs c, l = cs ++ [c] ∧ List.Forall₂ R as cs ∧ R a c := by
  have h' := List.rel_reverse h
  rw [List.reverse_append, List.reverse_singleton, List.singleton_append,
    List.forall₂_cons_left_iff] at h'
  obtain ⟨c, cs, hc, hcs, hl⟩ := h'
  refine ⟨cs.reverse, c, ?_, ?_, hc⟩
  · have := congrArg List.reverse hl
    simpa using this
  · have := List.rel_reverse hcs
    simpa using this

theorem same_state_refl (s : buffer) : s.same_state s := ⟨rfl, rfl, rfl, rfl⟩

theorem same_state_trans {a b c : buffer} (h₁ : a.same_state b) (h₂ : b.same_state c) :
    a.same_state c :=
  ⟨h₁.1.trans h₂.1, h₁.2.1.trans h₂.2.1, h₁.2.2.1.trans h₂.2.2.1, h₁.2.2.2.trans h₂.2.2.2⟩

theorem stacks_ok_of_same_state {a b : buffer} (h : a.same_state b) (hb : b.stacks_ok) :
    a.stacks_ok := by
  obtain ⟨h₁, h₂, h₃, h₄⟩ := h
  exact ⟨by rw [h₁, h₄]; exact hb.scissor_top, by rw [h₂, h₄]; exact hb.key_enable,
    by rw [h₂, h₄]; exact hb.key_top, by rw [h₃, h₄]; exact hb.blur_top,
    by rw [h₄]; exact hb.not_textured⟩

/-- In a consistent buffer the last batch is not empty and a vertex is stored for it. -/
theorem batches_ok_last (s : buffer) (h : s.batches_ok) (bs : List batch) (p : batch)
    (hb : s.batches_ = bs ++ [p]) :
    p.size ≠ 0 ∧ ∃ ws back, s.vertices_ = ws ++ [back] := by
  obtain ⟨chunks, hflat, hrel⟩ := h.runs
  rw [hb] at hrel
  obtain ⟨cs, c, rfl, -, hc⟩ := forall₂_concat_left hrel
  refine ⟨hc.2.1, ?_⟩
  have hne : s.vertices_ ≠ [] := by
    intro hnil
    have hlen := h.history_length
    rw [hflat, hnil] at hlen
    simp at hlen
    exact hc.2.1 (by rw [← hc.1, hlen.2]; rfl)
  rcases List.eq_nil_or_concat s.vertices_ with hnil | ⟨ws, back, hw⟩
  · exact absurd hnil hne
  · exact ⟨ws, back, by simpa using hw⟩

theorem batches_ok_with_new_batch (s : buffer) (h : s.batches_ok) (v : vertex)
    (vs : List vertex) (type : D3D_PRIMITIVE_TOPOLOGY) (rv : Option Nat) (col : color_rgba) :
    (s.with_new_batch (v :: vs) type rv col).batches_ok := by
  obtain ⟨chunks, hflat, hrel⟩ := h.runs
  refine ⟨?_, ⟨chunks ++ [List.replicate (v :: vs).length
    { command := s.active_command, type := type, rv := rv, col := col }], ?_, ?_⟩, ?_⟩
  · simp [buffer.with_new_batch, h.history_length]
  · simp [buffer.with_new_batch, hflat]
  · refine List.rel_append hrel (List.Forall₂.cons ?_ List.Forall₂.nil)
    refine ⟨by simp, by simp, ?_, ?_⟩
    · intro t ht
      rw [List.eq_of_mem_replicate ht]
      exact ⟨rfl, rfl, rfl⟩
    · simp [List.getLast?_replicate]
  · intro _ b hb
    simp [buffer.with_new_batch] at hb
    rw [← hb]
    rfl

theorem batches_ok_with_grown_batch (s : buffer) (h : s.batches_ok) (bs : List batch)
    (p : batch) (hb : s.batches_ = bs ++ [p]) (hs : s.split_batch_ = false)
    (hrv : p.rv = none) (v : vertex) (vs : List vertex) (col : color_rgba) :
    (s.with_grown_batch bs p (v :: vs) col).batches_ok := by
  obtain ⟨chunks, hflat, hrel⟩ := h.runs
  have hcur : p.command = s.active_command :=
    h.command_current hs p (by rw [hb]; simp)
  rw [hb] at hrel
  obtain ⟨cs, c, rfl, hcs, hc⟩ := forall₂_concat_left hrel
  refine ⟨?_, ⟨cs ++ [c ++ List.replicate (v :: vs).length
    { command := s.active_command, type := p.type, rv := none, col := col }], ?_, ?_⟩, ?_⟩
  · simp [buffer.with_grown_batch, h.history_length]
  · simp [buffer.with_grown_batch, hflat]
  · refine List.rel_append hcs (List.Forall₂.cons ?_ List.Forall₂.nil)
    refine ⟨by simp [hc.1], by simp, ?_, ?_⟩
    · intro t ht
      rcases List.mem_append.mp ht with ht | ht
      · obtain ⟨h₁, h₂, h₃⟩ := hc.2.2.1 t ht
        exact ⟨h₁.trans hcur, h₂, h₃.trans hrv⟩
      · rw [List.eq_of_mem_replicate ht]
        exact ⟨rfl, rfl, rfl⟩
    · simp [List.getLast?_replicate]
  · intro _ b hb'
    simp [buffer.with_grown_batch] at hb'
    rw [← hb']
    rfl

/-- The three ways `add_vertices` ends on a consistent buffer with a non-empty list: a new
batch, a plain merge into the last batch, or a stitch onto it. -/
theorem add_vertices_cases (s : buffer) (h : s.batches_ok) (v : vertex) (vs : List vertex)
    (type : D3D_PRIMITIVE_TOPOLOGY) (rv : Option Nat) (col : color_rgba) :
    s.add_vertices (v :: vs) type rv col = .ok (s.with_new_batch (v :: vs) type rv col) ∨
    ∃ bs p, s.batches_ = bs ++ [p] ∧ s.split_batch_ = false ∧ p.type = type ∧ rv = none ∧
      p.rv = none ∧ type.never_merged = false ∧
      ((type ≠ .TRIANGLESTRIP ∧
          s.add_vertices (v :: vs) type rv col =
            .ok (s.with_grown_batch bs p (v :: vs) col)) ∨
       (type = .TRIANGLESTRIP ∧ ∃ ws back, s.vertices_ = ws ++ [back] ∧
          s.add_vertices (v :: vs) type rv col =
            .ok (s.with_grown_batch bs p (back :: v :: v :: vs) col))) := by
  rcases List.eq_nil_or_concat s.batches_ with hb | ⟨bs, p, hb⟩
  · exact Or.inl (add_vertices_no_batches s v vs type rv col hb)
  · have hb : s.batches_ = bs ++ [p] := by simpa using hb
    obtain ⟨hp, ws, back, hv⟩ := batches_ok_last s h bs p hb
    cases hs : s.split_batch_ with
    | true => exact Or.inl (add_vertices_split s v vs type rv col bs p hb hp hs)
    | false =>
      by_cases hd : p.type ≠ type ∨ rv ≠ none ∨ rv ≠ p.rv
      · exact Or.inl (add_vertices_differs s v vs type rv col bs p hb hs hd)
      · have hty : p.type = type := by
          by_contra hne
          exact hd (Or.inl hne)
        have hrv : rv = none := by
          by_contra hne
          exact hd (Or.inr (Or.inl hne))
        have hprv : p.rv = none := by
          by_contra hne
          exact hd (Or.inr (Or.inr (by rw [hrv]; exact fun e => hne e.symm)))
        subst hrv
        cases ht : type.never_merged with
        | true => exact Or.inl (add_vertices_never_merged s v vs type none col bs p hb hs ht)
        | false =>
          refine Or.inr ⟨bs, p, hb, rfl, hty, rfl, hprv, rfl, ?_⟩
          by_cases hts : type = .TRIANGLESTRIP
          · subst hts
            exact Or.inr ⟨rfl, ws, back, hv,
              add_vertices_stitch s v vs col bs p hb ws back hv hs hty hprv⟩
          · exact Or.inl ⟨hts, add_vertices_merge s v vs type col bs p hb hs hty hprv ht hts⟩

/-- When `add_vertices` is certain to open a new batch on a consistent buffer: no batch
yet, a split pending, a never-merged topology, a non-null handle, or a last batch of
another topology or handle. -/
theorem add_vertices_opens (s : buffer) (h : s.batches_ok) (v : vertex) (vs : List vertex)
    (type : D3D_PRIMITIVE_TOPOLOGY) (rv : Option Nat) (col : color_rgba)
    (hc : s.batches_ = [] ∨ s.split_batch_ = true ∨ type.never_merged = true ∨ rv ≠ none ∨
      ∃ p ∈ s.batches_.getLast?, p.type ≠ type ∨ p.rv ≠ rv) :
    s.add_vertices (v :: vs) type rv col = .ok (s.with_new_batch (v :: vs) type rv col) := by
  rcases add_vertices_cases s h v vs type rv col with e | ⟨bs, p, hb, hs, hty, hrv, hprv, ht, -⟩
  · exact e
  · exfalso
    rcases hc with hc | hc | hc | hc | ⟨q, hq, hc⟩
    · rw [hb] at hc
      simp at hc
    · rw [hs] at hc
      cases hc
    · rw [ht] at hc
      cases hc
    · exact hc hrv
    · rw [hb] at hq
      simp at hq
      subst hq
      rcases hc with hc | hc
      · exact hc hty
      · exact hc (hprv.trans hrv.symm)

/-- On a consistent buffer `add_vertices` returns, keeps the batch invariant and leaves
the stacks and the active render state alone. -/
theorem add_vertices_ok (s : buffer) (h : s.batches_ok) (vertices : List vertex)
    (type : D3D_PRIMITIVE_TOPOLOGY) (rv : Option Nat) (col : color_rgba) :
    ∃ s', s.add_vertices vertices type rv col = .ok s' ∧ s'.batches_ok ∧ s'.same_state s := by
  cases vertices with
  | nil => exact ⟨s, rfl, h, same_state_refl s⟩
  | cons v vs =>
    rcases add_vertices_cases s h v vs type rv col with
      e | ⟨bs, p, hb, hs, -, -, hprv, -, ⟨-, e⟩ | ⟨-, ws, back, -, e⟩⟩
    · exact ⟨_, e, batches_ok_with_new_batch s h v vs type rv col, rfl, rfl, rfl, rfl⟩
    · exact ⟨_, e, batches_ok_with_grown_batch s h bs p hb hs hprv v vs col,
        rfl, rfl, rfl, rfl⟩
    · exact ⟨_, e, batches_ok_with_grown_batch s h bs p hb hs hprv back (v :: v :: vs) col,
        rfl, rfl, rfl, rfl⟩

theorem add_vertices_consistent (s : buffer) (h : s.consistent) (vertices : List vertex)
    (type : D3D_PRIMITIVE_TOPOLOGY) (rv : Option Nat) (col : color_rgba) :
    ∃ s', s.add_vertices vertices type rv col = .ok s' ∧ s'.consistent ∧ s'.same_state s := by
  obtain ⟨s', h₁, h₂, h₃⟩ := add_vertices_ok s h.1 vertices type rv col
  exact ⟨s', h₁, ⟨h₂, stacks_ok_of_same_state h₃ h.2⟩, h₃⟩

theorem draw_polyline_consistent (env : environment) (s : buffer) (h : s.consistent)
    (points : List vec2) (col : color_rgba) (thickness : ℚ) (joint : joint_type)
    (cap : cap_type) :
    ∃ s', s.draw_polyline env points col thickness joint cap = .ok s' ∧ s'.consistent ∧
      s'.same_state s := by
  unfold buffer.draw_polyline
  cases hpath : env.polyline_compute thickness joint cap points with
  | nil => exact ⟨s, rfl, h, same_state_refl s⟩
  | cons q qs => exact add_vertices_consistent s h _ _ _ _

theorem draw_rect_filled_consistent (env : environment) (s : buffer) (h : s.consistent)
    (rect : vec4) (col : color_rgba) :
    ∃ s', s.draw_rect_filled env rect col = .ok s' ∧ s'.consistent ∧ s'.same_state s :=
  add_vertices_consistent s h _ _ _ _

theorem draw_textured_quad_consistent (s : buffer) (h : s.consistent) (rect : vec4)
    (rv : Option Nat) (col : color_rgba) :
    ∃ s', s.draw_textured_quad rect rv col = .ok s' ∧ s'.consistent ∧ s'.same_state s := by
  have h₁ : buffer.batches_ok { s with
      split_batch_ := true, active_command := { s.active_command with textured := true } } :=
    ⟨h.1.history_length, h.1.runs, fun hf => by simp at hf⟩
  obtain ⟨s₂, e₂, b₂, st₂⟩ := add_vertices_ok _ h₁
    [vertex.of_xy rect.x rect.y col 0 0,
     vertex.of_xy (rect.x + rect.z) rect.y col 1 0,
     vertex.of_xy rect.x (rect.y + rect.w) col 0 1,
     vertex.of_xy (rect.x + rect.z) (rect.y + rect.w) col 1 1] .TRIANGLESTRIP rv col
  have hst : buffer.same_state { s₂ with
      active_command := { s₂.active_command with textured := false },
      split_batch_ := true } s := by
    obtain ⟨e₁, e₃, e₄, e₅⟩ := st₂
    refine ⟨e₁, e₃, e₄, ?_⟩
    have ht := h.2.not_textured
    simp only [e₅]
    cases hc : s.active_command
    rw [hc] at ht
    simp at ht
    simp [ht]
  refine ⟨_, by simp only [buffer.draw_textured_quad, e₂], ⟨?_, ?_⟩, hst⟩
  · exact ⟨b₂.history_length, b₂.runs, fun hf => by simp at hf⟩
  · exact stacks_ok_of_same_state hst h.2

theorem draw_circle_marks_consistent (env : environment) (points : List vec2) :
    ∀ s : buffer, s.consistent →
      ∃ s', s.draw_circle_marks env points = .ok s' ∧ s'.consistent ∧ s'.same_state s := by
  induction points with
  | nil => exact fun s h => ⟨s, rfl, h, same_state_refl s⟩
  | cons q qs ih =>
    intro s h
    obtain ⟨s₁, e₁, c₁, st₁⟩ :=
      draw_rect_filled_consistent env s h ⟨q.x - 1, q.y - 1, 3, 3⟩ env.COLOR_RED
    obtain ⟨s₂, e₂, c₂, st₂⟩ := ih s₁ c₁
    exact ⟨s₂, by simp only [buffer.draw_circle_marks, e₁, e₂], c₂, same_state_trans st₂ st₁⟩

theorem draw_circle_consistent (env : environment) (s : buffer) (h : s.consistent)
    (pos : vec2) (radius : ℚ) (col : color_rgba) (thickness : ℚ) (segments : Nat) :
    ∃ s', s.draw_circle env pos radius col thickness segments = .ok s' ∧ s'.consistent ∧
      s'.same_state s := by
  obtain ⟨s₁, e₁, c₁, st₁⟩ := draw_polyline_consistent env s h
    ((List.range segments).map (circle_point env pos radius segments)) col thickness
    .joint_miter .cap_joint
  obtain ⟨s₂, e₂, c₂, st₂⟩ := draw_circle_marks_consistent env
    ((List.range segments).map (circle_point env pos radius segments)) s₁ c₁
  exact ⟨s₂, by simp only [buffer.draw_circle, e₁, e₂], c₂, same_state_trans st₂ st₁⟩

theorem draw_text_consistent (env : environment) (font_id : Nat) (col : color_rgba)
    (h_align v_align : text_align) (text : List Char) :
    ∀ (s : buffer) (pos : vec2), s.consistent →
      ∃ s', s.draw_text env pos text font_id col h_align v_align = .ok s' ∧ s'.consistent ∧
        s'.same_state s := by
  induction text with
  | nil => exact fun s _ h => ⟨s, rfl, h, same_state_refl s⟩
  | cons c rest ih =>
    intro s pos h
    by_cases hskip : isprint c = false ∨ c = ' '
    · obtain ⟨s₁, e₁, c₁, st₁⟩ := ih s pos h
      exact ⟨s₁, by simp only [buffer.draw_text, if_pos hskip, e₁], c₁, st₁⟩
    · obtain ⟨s₁, e₁, c₁, st₁⟩ := draw_textured_quad_consistent s h
        ⟨pos.x + (env.get_font_glyph font_id c).bearing.x,
         pos.y + (env.get_font_glyph font_id c).bearing.y,
         (env.get_font_glyph font_id c).size.x, (env.get_font_glyph font_id c).size.y⟩
        (env.get_font_glyph font_id c).rv col
      obtain ⟨s₂, e₂, c₂, st₂⟩ := ih s₁
        { pos with x := pos.x + ((env.get_font_glyph font_id c).advance : ℚ) / 64 } c₁
      refine ⟨s₂, ?_, c₂, same_state_trans st₂ st₁⟩
      simp only [buffer.draw_text, if_neg hskip, buffer.draw_glyph, e₁, e₂]

theorem draw_point_consistent (env : environment) (s : buffer) (h : s.consistent)
    (pos : vec2) (col : color_rgba) :
    ∃ s', s.draw_point env pos col = .ok s' ∧ s'.consistent ∧ s'.same_state s :=
  add_vertices_consistent s h _ _ _ _

theorem draw_line_consistent (env : environment) (s : buffer) (h : s.consistent)
    (start finish : vec2) (col : color_rgba) :
    ∃ s', s.draw_line env start finish col = .ok s' ∧ s'.consistent ∧ s'.same_state s :=
  add_vertices_consistent s h _ _ _ _

theorem draw_rect_consistent (env : environment) (s : buffer) (h : s.consistent)
    (rect : vec4) (col : color_rgba) (thickness : ℚ) :
    ∃ s', s.draw_rect env rect col thickness = .ok s' ∧ s'.consistent ∧ s'.same_state s :=
  draw_polyline_consistent env s h _ col thickness _ _

theorem draw_circle_filled_consistent (env : environment) (s : buffer) (h : s.consistent)
    (pos : vec2) (radius : ℚ) (col : color_rgba) (segments : Nat) :
    ∃ s', s.draw_circle_filled env pos radius col segments = .ok s' ∧ s'.consistent ∧
      s'.same_state s :=
  add_vertices_consistent s h _ _ _ _

theorem draw_glyph_consistent (s : buffer) (h : s.consistent) (pos : vec2) (g : glyph)
    (col : color_rgba) :
    ∃ s', s.draw_glyph pos g col = .ok s' ∧ s'.consistent ∧ s'.same_state s :=
  draw_textured_quad_consistent s h _ _ _

theorem fresh_consistent : buffer.fresh.consistent := by
  refine ⟨⟨rfl, ⟨[], rfl, List.Forall₂.nil⟩, ?_⟩, ⟨?_, ?_, ?_, ?_, rfl⟩⟩ <;>
    simp [buffer.fresh, command.initial]

theorem clear_consistent (s : buffer) (h : s.consistent) : s.clear.consistent := by
  refine ⟨⟨rfl, ⟨[], rfl, List.Forall₂.nil⟩, ?_⟩, ⟨?_, h.2.key_enable, h.2.key_top,
    h.2.blur_top, h.2.not_textured⟩⟩ <;> simp [buffer.clear]

theorem update_scissor_consistent (s : buffer) (hb : s.batches_ok)
    (hk : s.active_command.key_enable = true ↔ s.key_commands_ ≠ [])
    (hkt : ∀ c ∈ s.key_commands_.getLast?, s.active_command.key_color = c)
    (hbt : ∀ x ∈ s.blur_commands_.getLast?, s.active_command.blur_strength = x)
    (ht : s.active_command.textured = false) : s.update_scissor.consistent := by
  cases hl : s.scissor_commands_.getLast? with
  | none =>
    simp only [buffer.update_scissor, hl]
    exact ⟨⟨hb.history_length, hb.runs, fun hf => by simp at hf⟩,
      ⟨by simp [hl], hk, hkt, hbt, ht⟩⟩
  | some t =>
    simp only [buffer.update_scissor, hl]
    exact ⟨⟨hb.history_length, hb.runs, fun hf => by simp at hf⟩,
      ⟨by simp [hl], hk, hkt, hbt, ht⟩⟩

theorem update_key_consistent (s : buffer) (hb : s.batches_ok)
    (hsc : ∀ t ∈ s.scissor_commands_.getLast?,
      s.active_command.scissor_enable = true ∧ s.active_command.scissor_bounds = t.1 ∧
      s.active_command.scissor_in = t.2.1 ∧ s.active_command.scissor_circle = t.2.2)
    (hbt : ∀ x ∈ s.blur_commands_.getLast?, s.active_command.blur_strength = x)
    (ht : s.active_command.textured = false) : s.update_key.consistent := by
  cases hl : s.key_commands_.getLast? with
  | none =>
    simp only [buffer.update_key, hl]
    refine ⟨⟨hb.history_length, hb.runs, fun hf => by simp at hf⟩, ⟨hsc, ?_, ?_, hbt, ht⟩⟩
    · have : s.key_commands_ = [] := List.getLast?_eq_none_iff.mp hl
      simp [this]
    · simp [hl]
  | some c =>
    simp only [buffer.update_key, hl]
    refine ⟨⟨hb.history_length, hb.runs, fun hf => by simp at hf⟩, ⟨hsc, ?_, ?_, hbt, ht⟩⟩
    · have : s.key_commands_ ≠ [] := by
        intro hnil
        rw [hnil] at hl
        simp at hl
      simp [this]
    · simp [hl]

theorem update_blur_consistent (s : buffer) (hb : s.batches_ok)
    (hsc : ∀ t ∈ s.scissor_commands_.getLast?,
      s.active_command.scissor_enable = true ∧ s.active_command.scissor_bounds = t.1 ∧
      s.active_command.scissor_in = t.2.1 ∧ s.active_command.scissor_circle = t.2.2)
    (hk : s.active_command.key_enable = true ↔ s.key_commands_ ≠ [])
    (hkt : ∀ c ∈ s.key_commands_.getLast?, s.active_command.key_color = c)
    (ht : s.active_command.textured = false) : s.update_blur.consistent := by
  cases hl : s.blur_commands_.getLast? with
  | none =>
    simp only [buffer.update_blur, hl]
    exact ⟨⟨hb.history_length, hb.runs, fun hf => by simp at hf⟩,
      ⟨hsc, hk, hkt, by simp [hl], ht⟩⟩
  | some x =>
    simp only [buffer.update_blur, hl]
    exact ⟨⟨hb.history_length, hb.runs, fun hf => by simp at hf⟩,
      ⟨hsc, hk, hkt, by simp [hl], ht⟩⟩

theorem push_scissor_consistent (s : buffer) (h : s.consistent) (bounds : vec4)
    (in_ circle : Bool) : (s.push_scissor bounds in_ circle).consistent :=
  update_scissor_consistent _ ⟨h.1.history_length, h.1.runs, h.1.command_current⟩
    h.2.key_enable h.2.key_top h.2.blur_top h.2.not_textured

theorem push_key_consistent (s : buffer) (h : s.consistent) (color : color_rgba) :
    (s.push_key color).consistent :=
  update_key_consistent _ ⟨h.1.history_length, h.1.runs, h.1.command_current⟩
    h.2.scissor_top h.2.blur_top h.2.not_textured

theorem push_blur_consistent (s : buffer) (h : s.consistent) (strength : ℚ) :
    (s.push_blur strength).consistent :=
  update_blur_consistent _ ⟨h.1.history_length, h.1.runs, h.1.command_current⟩
    h.2.scissor_top h.2.key_enable h.2.key_top h.2.not_textured

theorem pop_scissor_consistent (s s' : buffer) (h : s.consistent)
    (e : s.pop_scissor = .ok s') : s'.consistent := by
  unfold buffer.pop_scissor at e
  split at e
  · cases e
  · cases e
    exact update_scissor_consistent _ ⟨h.1.history_length, h.1.runs, h.1.command_current⟩
      h.2.key_enable h.2.key_top h.2.blur_top h.2.not_textured

theorem pop_key_consistent (s s' : buffer) (h : s.consistent)
    (e : s.pop_key = .ok s') : s'.consistent := by
  unfold buffer.pop_key at e
  split at e
  · cases e
  · cases e
    exact update_key_consistent _ ⟨h.1.history_length, h.1.runs, h.1.command_current⟩
      h.2.scissor_top h.2.blur_top h.2.not_textured

theorem pop_blur_consistent (s s' : buffer) (h : s.consistent)
    (e : s.pop_blur = .ok s') : s'.consistent := by
  unfold buffer.pop_blur at e
  split at e
  · cases e
  · cases e
    exact update_blur_consistent _ ⟨h.1.history_length, h.1.runs, h.1.command_current⟩
      h.2.scissor_top h.2.key_enable h.2.key_top h.2.not_textured

/-- Every public call keeps the invariant. -/
theorem apply_consistent (env : environment) (s s' : buffer) (op : operation)
    (h : s.consistent) (e : s.apply env op = .ok s') : s'.consistent := by
  have key : ∀ r : Except fault buffer, (∃ t, r = .ok t ∧ t.consistent ∧ t.same_state s) →
      r = .ok s' → s'.consistent := by
    rintro r ⟨t, rfl, ht, -⟩ e'
    cases e'
    exact ht
  cases op with
  | clear => cases e; exact clear_consistent s h
  | add_vertices vertices type rv col =>
    exact key _ (add_vertices_consistent s h vertices type rv col) e
  | draw_polyline points col thickness joint cap =>
    exact key _ (draw_polyline_consistent env s h points col thickness joint cap) e
  | draw_point pos col => exact key _ (draw_point_consistent env s h pos col) e
  | draw_line start finish col =>
    exact key _ (draw_line_consistent env s h start finish col) e
  | draw_rect rect col thickness =>
    exact key _ (draw_rect_consistent env s h rect col thickness) e
  | draw_rect_filled rect col => exact key _ (draw_rect_filled_consistent env s h rect col) e
  | draw_textured_quad rect rv col =>
    exact key _ (draw_textured_quad_consistent s h rect rv col) e
  | draw_circle pos radius col thickness segments =>
    exact key _ (draw_circle_consistent env s h pos radius col thickness segments) e
  | draw_circle_filled pos radius col segments =>
    exact key _ (draw_circle_filled_consistent env s h pos radius col segments) e
  | draw_glyph pos g col => exact key _ (draw_glyph_consistent s h pos g col) e
  | draw_text pos text font_id col h_align v_align =>
    exact key _ (draw_text_consistent env font_id col h_align v_align text s pos h) e
  | push_scissor bounds in_ round => cases e; exact push_scissor_consistent s h bounds in_ round
  | pop_scissor => exact pop_scissor_consistent s s' h e
  | push_key color => cases e; exact push_key_consistent s h color
  | pop_key => exact pop_key_consistent s s' h e
  | push_blur strength => cases e; exact push_blur_consistent s h strength
  | pop_blur => exact pop_blur_consistent s s' h e

theorem run_consistent (env : environment) (ops : List operation) :
    ∀ s s' : buffer, s.consistent → s.run env ops = .ok s' → s'.consistent := by
  induction ops with
  | nil =>
    intro s s' h e
    cases e
    exact h
  | cons op ops ih =>
    intro s s' h e
    simp only [buffer.run] at e
    cases h₁ : s.apply env op with
    | error f => rw [h₁] at e; cases e
    | ok s₁ =>
      rw [h₁] at e
      exact ih s₁ s' (apply_consistent env s s₁ op h h₁) e

/-- Every reachable buffer satisfies the invariant. -/
theorem reachable_consistent (env : environment) (s : buffer) (h : s.reachable env) :
    s.consistent := by
  obtain ⟨ops, e⟩ := h
  exact run_consistent env ops _ s fresh_consistent e

/-- What `add_vertices` with a non-empty list leaves behind on a consistent buffer: no
split pending, a last batch with the call's arguments and the active render state, and
the new vertices at the end of the stream. -/
theorem add_vertices_post (s : buffer) (h : s.batches_ok) (v : vertex) (vs : List vertex)
    (type : D3D_PRIMITIVE_TOPOLOGY) (rv : Option Nat) (col : color_rgba) :
    ∃ s' bs p ws, s.add_vertices (v :: vs) type rv col = .ok s' ∧ s'.batches_ok ∧
      s'.same_state s ∧ s'.split_batch_ = false ∧ s'.batches_ = bs ++ [p] ∧ p.type = type ∧
      p.rv = rv ∧ p.color = col ∧ p.command = s.active_command ∧
      s'.vertices_ = ws ++ (v :: vs) := by
  rcases add_vertices_cases s h v vs type rv col with
    e | ⟨bs, p, hb, hs, hty, hrv, hprv, -, ⟨-, e⟩ | ⟨-, ws, back, -, e⟩⟩
  · exact ⟨_, s.batches_, _, s.vertices_, e, batches_ok_with_new_batch s h v vs type rv col,
      ⟨rfl, rfl, rfl, rfl⟩, rfl, rfl, rfl, rfl, rfl, rfl, rfl⟩
  · exact ⟨_, bs, _, s.vertices_, e, batches_ok_with_grown_batch s h bs p hb hs hprv v vs col,
      ⟨rfl, rfl, rfl, rfl⟩, hs, rfl, hty, hrv.symm, rfl, rfl, rfl⟩
  · refine ⟨_, bs, _, s.vertices_ ++ [back, v], e,
      batches_ok_with_grown_batch s h bs p hb hs hprv back (v :: v :: vs) col,
      ⟨rfl, rfl, rfl, rfl⟩, hs, rfl, hty, hrv.symm, rfl, rfl, ?_⟩
    simp [buffer.with_grown_batch]

/-- A TRIANGLESTRIP append right after a TRIANGLESTRIP append with a null handle is
stitched onto the same batch. -/
theorem stitch_after_add (s : buffer) (h : s.batches_ok) (a b : List vertex)
    (col col' : color_rgba) (ha : a ≠ []) (hb : b ≠ []) :
    ∃ s₁ s₂ bs p, s.add_vertices a .TRIANGLESTRIP none col = .ok s₁ ∧
      s₁.batches_ = bs ++ [p] ∧
      s₁.vertices_.getLast? = some (a.getLast ha) ∧
      s₁.add_vertices b .TRIANGLESTRIP none col' = .ok s₂ ∧
      s₂.batches_ = bs ++ [{ p with size := p.size + 2 + b.length, color := col' }] ∧
      s₂.vertices_ = s₁.vertices_ ++ [a.getLast ha, b.head hb] ++ b := by
  obtain ⟨v, vs, rfl⟩ := List.exists_cons_of_ne_nil ha
  obtain ⟨w, ws', rfl⟩ := List.exists_cons_of_ne_nil hb
  obtain ⟨s₁, bs, p, ws, e₁, -, hst, hs₁, hb₁, hty, hrv, -, hcmd, hv₁⟩ :=
    add_vertices_post s h v vs .TRIANGLESTRIP none col
  have hv₁' : s₁.vertices_ = (ws ++ (v :: vs).dropLast) ++ [(v :: vs).getLast ha] := by
    rw [hv₁, List.append_assoc, List.dropLast_append_getLast]
  refine ⟨s₁, s₁.with_grown_batch bs p ((v :: vs).getLast ha :: w :: w :: ws') col', bs, p,
    e₁, hb₁, ?_, add_vertices_stitch s₁ w ws' col' bs p hb₁ _ _ hv₁' hs₁ hty hrv, ?_, ?_⟩
  · rw [hv₁']
    simp
  · have hcmd' : s₁.active_command = p.command := by rw [hcmd, hst.2.2.2]
    cases p
    simp only at hrv hcmd'
    simp [buffer.with_grown_batch, hrv, hcmd']
    omega
  · simp [buffer.with_grown_batch]

theorem update_scissor_frame (s : buffer) :
    s.update_scissor.split_batch_ = true ∧ s.update_scissor.batches_ = s.batches_ ∧
    s.update_scissor.vertices_ = s.vertices_ ∧ s.update_scissor.history_ = s.history_ ∧
    s.update_scissor.scissor_commands_ = s.scissor_commands_ ∧
    s.update_scissor.key_commands_ = s.key_commands_ ∧
    s.update_scissor.blur_commands_ = s.blur_commands_ := by
  cases hl : s.scissor_commands_.getLast? <;> simp [buffer.update_scissor, hl]

theorem update_key_frame (s : buffer) :
    s.update_key.split_batch_ = true ∧ s.update_key.batches_ = s.batches_ ∧
    s.update_key.vertices_ = s.vertices_ ∧ s.update_key.history_ = s.history_ ∧
    s.update_key.scissor_commands_ = s.scissor_commands_ ∧
    s.update_key.key_commands_ = s.key_commands_ ∧
    s.update_key.blur_commands_ = s.blur_commands_ := by
  cases hl : s.key_commands_.getLast? <;> simp [buffer.update_key, hl]

theorem update_blur_frame (s : buffer) :
    s.update_blur.split_batch_ = true ∧ s.update_blur.batches_ = s.batches_ ∧
    s.update_blur.vertices_ = s.vertices_ ∧ s.update_blur.history_ = s.history_ ∧
    s.update_blur.scissor_commands_ = s.scissor_commands_ ∧
    s.update_blur.key_commands_ = s.key_commands_ ∧
    s.update_blur.blur_commands_ = s.blur_commands_ := by
  cases hl : s.blur_commands_.getLast? <;> simp [buffer.update_blur, hl]

theorem pop_scissor_of_ne (s : buffer) (h : s.scissor_commands_ ≠ []) :
    s.pop_scissor =
      .ok (buffer.update_scissor { s with scissor_commands_ := s.scissor_commands_.dropLast }) := by
  simp only [buffer.pop_scissor, if_neg h]

theorem pop_key_of_ne (s : buffer) (h : s.key_commands_ ≠ []) :
    s.pop_key =
      .ok (buffer.update_key { s with key_commands_ := s.key_commands_.dropLast }) := by
  simp only [buffer.pop_key, if_neg h]

theorem pop_blur_of_ne (s : buffer) (h : s.blur_commands_ ≠ []) :
    s.pop_blur =
      .ok (buffer.update_blur { s with blur_commands_ := s.blur_commands_.dropLast }) := by
  simp only [buffer.pop_blur, if_neg h]

theorem update_scissor_active (s : buffer) (top : XMFLOAT4 × Bool × Bool)
    (h : s.scissor_commands_.getLast? = some top) :
    s.update_scissor.active_command = { s.active_command with
      scissor_enable := true, scissor_bounds := top.1, scissor_in := top.2.1,
      scissor_circle := top.2.2 } := by
  simp [buffer.update_scissor, h]

theorem update_key_active (s : buffer) (top : color_rgba)
    (h : s.key_commands_.getLast? = some top) :
    s.update_key.active_command =
      { s.active_command with key_enable := true, key_color := top } := by
  simp [buffer.update_key, h]

theorem update_blur_active (s : buffer) (top : ℚ) (h : s.blur_commands_.getLast? = some top) :
    s.update_blur.active_command = { s.active_command with blur_strength := top } := by
  simp [buffer.update_blur, h]

/-- A state-changing call leaves a split pending and touches neither vertices nor
batches. -/
theorem changes_state_frame (env : environment) (s s₁ : buffer) (op : operation)
    (hop : op.changes_state = true) (e : s.apply env op = .ok s₁) :
    s₁.split_batch_ = true ∧ s₁.batches_ = s.batches_ ∧ s₁.vertices_ = s.vertices_ := by
  cases op <;> simp [operation.changes_state] at hop
  case push_scissor bounds in_ round =>
    cases e
    obtain ⟨h₁, h₂, h₃, -⟩ := update_scissor_frame
      { s with scissor_commands_ :=
          s.scissor_commands_ ++ [(⟨bounds.x, bounds.y, bounds.z, bounds.w⟩, in_, round)] }
    exact ⟨h₁, h₂, h₃⟩
  case pop_scissor =>
    simp only [buffer.apply, buffer.pop_scissor] at e
    split at e
    · cases e
    · cases e
      obtain ⟨h₁, h₂, h₃, -⟩ := update_scissor_frame
        { s with scissor_commands_ := s.scissor_commands_.dropLast }
      exact ⟨h₁, h₂, h₃⟩
  case push_key color =>
    cases e
    obtain ⟨h₁, h₂, h₃, -⟩ := update_key_frame
      { s with key_commands_ := s.key_commands_ ++ [color] }
    exact ⟨h₁, h₂, h₃⟩
  case pop_key =>
    simp only [buffer.apply, buffer.pop_key] at e
    split at e
    · cases e
    · cases e
      obtain ⟨h₁, h₂, h₃, -⟩ := update_key_frame
        { s with key_commands_ := s.key_commands_.dropLast }
      exact ⟨h₁, h₂, h₃⟩
  case push_blur strength =>
    cases e
    obtain ⟨h₁, h₂, h₃, -⟩ := update_blur_frame
      { s with blur_commands_ := s.blur_commands_ ++ [strength] }
    exact ⟨h₁, h₂, h₃⟩
  case pop_blur =>
    simp only [buffer.apply, buffer.pop_blur] at e
    split at e
    · cases e
    · cases e
      obtain ⟨h₁, h₂, h₃, -⟩ := update_blur_frame
        { s with blur_commands_ := s.blur_commands_.dropLast }
      exact ⟨h₁, h₂, h₃⟩

/-- A push always returns. -/
theorem push_returns (env : environment) (s : buffer) (op : operation)
    (hop : op.is_push = true) : ∃ s₁, s.apply env op = .ok s₁ := by
  cases op <;> simp [operation.is_push] at hop <;> exact ⟨_, rfl⟩

theorem is_push_changes_state (op : operation) (hop : op.is_push = true) :
    op.changes_state = true := by
  cases op <;> simp [operation.is_push] at hop <;> rfl

theorem with_new_batch_consistent (s : buffer) (h : s.consistent) (v : vertex)
    (vs : List vertex) (type : D3D_PRIMITIVE_TOPOLOGY) (rv : Option Nat) (col : color_rgba) :
    (s.with_new_batch (v :: vs) type rv col).consistent := by
  have hst : (s.with_new_batch (v :: vs) type rv col).same_state s := ⟨rfl, rfl, rfl, rfl⟩
  exact ⟨batches_ok_with_new_batch s h.1 v vs type rv col, stacks_ok_of_same_state hst h.2⟩

theorem run_cons_ok (env : environment) (s s₁ : buffer) (op : operation)
    (ops : List operation) (e : s.apply env op = .ok s₁) :
    s.run env (op :: ops) = s₁.run env ops := by
  simp only [buffer.run, e]

/-- Successive appends with never-merged topologies open one batch each. -/
theorem run_strip_appends (env : environment) (ops : List operation) :
    ∀ s : buffer, s.consistent → (∀ op ∈ ops, op.is_strip_append) →
      ∃ s', s.run env ops = .ok s' ∧ s'.consistent ∧
        s'.batches_.length = s.batches_.length + ops.length := by
  induction ops with
  | nil => exact fun s h _ => ⟨s, rfl, h, rfl⟩
  | cons op ops ih =>
    intro s h hall
    have hop := hall op (List.mem_cons_self _ _)
    cases op <;> simp only [operation.is_strip_append] at hop
    case add_vertices vertices type rv col =>
      obtain ⟨hne, hty⟩ := hop
      obtain ⟨v, vs, rfl⟩ := List.exists_cons_of_ne_nil hne
      have hnm : type.never_merged = true := by
        rcases hty with rfl | rfl | rfl <;> rfl
      have e₁ := add_vertices_opens s h.1 v vs type rv col (Or.inr (Or.inr (Or.inl hnm)))
      have c₁ := with_new_batch_consistent s h v vs type rv col
      obtain ⟨s', e₂, c₂, hl⟩ := ih _ c₁ (fun o ho => hall o (List.mem_cons_of_mem _ ho))
      refine ⟨s', ?_, c₂, ?_⟩
      · rw [run_cons_ok env _ _ (.add_vertices (v :: vs) type rv col) _ e₁, e₂]
      · rw [hl]
        simp [buffer.with_new_batch]
        omega

/-! ## Batches and the runs they cover -/

theorem batch_runs_flatten (bs : List batch) (chunks : List (List append_record))
    (h : List.Forall₂ run_agrees bs chunks) : batch_runs bs chunks.flatten = chunks := by
  induction h with
  | nil => rfl
  | cons hbc _ ih =>
    simp only [batch_runs, List.flatten_cons]
    rw [List.take_left' hbc.1, List.drop_left' hbc.1, ih]

theorem sizes_sum_flatten (bs : List batch) (chunks : List (List append_record))
    (h : List.Forall₂ run_agrees bs chunks) :
    (bs.map batch.size).sum = chunks.flatten.length := by
  induction h with
  | nil => rfl
  | cons hbc _ ih =>
    simp only [List.map_cons, List.sum_cons, List.flatten_cons, List.length_append, ih, hbc.1]

/-- In a reachable buffer the batches partition the ghost history, which runs parallel
to the vertices, into runs that agree with their batch. -/
theorem reachable_runs (env : environment) (s : buffer) (h : s.reachable env) :
    s.history_.length = s.vertices_.length ∧
    (s.batches_.map batch.size).sum = s.vertices_.length ∧
    List.Forall₂ run_agrees s.batches_ (batch_runs s.batches_ s.history_) := by
  have hc := (reachable_consistent env s h).1
  obtain ⟨chunks, hflat, hrel⟩ := hc.runs
  refine ⟨hc.history_length, ?_, ?_⟩
  · rw [sizes_sum_flatten _ _ hrel, ← hflat, hc.history_length]
  · rw [hflat, batch_runs_flatten _ _ hrel]
    exact hrel

/-! ## The claims -/

/-- C1: in every buffer that a sequence of public operations produces from a freshly
constructed one, the batch sizes partition the vertex stream, and the command recorded on
each batch equals the active render state under which every vertex of its run was
appended. -/
theorem C1_batch_has_one_render_state (env : environment) (s : buffer)
    (h : s.reachable env) :
    s.history_.length = s.get_vertices.length ∧
    (s.get_batches.map batch.size).sum = s.get_vertices.length ∧
    List.Forall₂ (fun b run => run.length = b.size ∧ ∀ r ∈ run, r.command = b.command)
      s.get_batches (batch_runs s.get_batches s.history_) := by
  obtain ⟨h₁, h₂, h₃⟩ := reachable_runs env s h
  exact ⟨h₁, h₂, h₃.imp fun b run hr => ⟨hr.1, fun r hmem => (hr.2.2.1 r hmem).1⟩⟩

theorem C1_batch_has_one_render_state_witness :
    ∃ s, buffer.fresh.run sample_environment sample_scene = .ok s ∧
      s.get_batches.length = 3 ∧
      List.Forall₂ (fun b run => run.length = b.size ∧ ∀ r ∈ run, r.command = b.command)
        s.get_batches (batch_runs s.get_batches s.history_) :=
  ⟨_, rfl, rfl,
    (C1_batch_has_one_render_state sample_environment _ ⟨sample_scene, rfl⟩).2.2⟩

/-- C2, counterexample: the last batch is a POINTLIST batch with the non-null handle 7 and
no split is pending, yet appending one more point with the identical handle 7 opens a
second batch instead of growing the first. -/
theorem C2_identical_handle_not_merged :
    ∃ s s', buffer.fresh.add_vertices [sample_vertex] .POINTLIST (some 7) ⟨0, 0, 0, 255⟩ = .ok s ∧
      s.batches_.map batch.type = [.POINTLIST] ∧ s.batches_.map batch.rv = [some 7] ∧
      s.split_batch_ = false ∧
      s.add_vertices [other_vertex] .POINTLIST (some 7) ⟨0, 0, 0, 255⟩ = .ok s' ∧
      s'.batches_.length = s.batches_.length + 1 ∧
      s'.batches_.map batch.size = [1, 1] :=
  ⟨_, _, rfl, rfl, rfl, rfl, rfl, rfl, rfl⟩

/-- C2, amended: with a last batch `p` of list topology `t` and handle `r` and no split
pending, `add_vertices(vs, t, r, col)` with a non-empty `vs` appends `vs` to the vertex
stream; when `r` is null it is batched with `p` (same number of batches, the last batch
grows by `|vs|`), and when `r` is not null it opens a new batch of `|vs|` vertices even
though the handle is identical. -/
theorem C2_list_topology_merges_only_null_handle (s : buffer) (bs : List batch) (p : batch)
    (vs : List vertex) (t : D3D_PRIMITIVE_TOPOLOGY) (r : Option Nat) (col : color_rgba)
    (hb : s.get_batches = bs ++ [p])
    (ht : t = .POINTLIST ∨ t = .LINELIST ∨ t = .TRIANGLELIST)
    (hty : p.type = t) (hrv : p.rv = r) (hs : s.split_batch_ = false) (hvs : vs ≠ []) :
    ∃ s', s.add_vertices vs t r col = .ok s' ∧
      s'.get_vertices = s.get_vertices ++ vs ∧
      (r = none →
        s'.get_batches.length = s.get_batches.length ∧
        s'.get_batches = bs ++ [{ size := p.size + vs.length, type := t, rv := none,
                                  color := col, command := s.active_command }]) ∧
      (r ≠ none →
        s'.get_batches.length = s.get_batches.length + 1 ∧
        s'.get_batches = bs ++ [p, { size := vs.length, type := t, rv := r, color := col,
                                     command := s.active_command }]) := by
  obtain ⟨v, vs', rfl⟩ := List.exists_cons_of_ne_nil hvs
  have hb' : s.batches_ = bs ++ [p] := hb
  by_cases hr : r = none
  · subst hr
    have hnm : t.never_merged = false := by
      rcases ht with rfl | rfl | rfl <;> rfl
    have hts : t ≠ .TRIANGLESTRIP := by
      rcases ht with rfl | rfl | rfl <;> simp
    refine ⟨_, add_vertices_merge s v vs' t col bs p hb' hs hty hrv hnm hts, rfl, ?_, ?_⟩
    · intro _
      simp [buffer.get_batches, buffer.with_grown_batch, hb', hty]
    · intro hne
      exact absurd rfl hne
  · refine ⟨_, add_vertices_differs s v vs' t r col bs p hb' hs (Or.inr (Or.inl hr)), rfl,
      ?_, ?_⟩
    · intro he
      exact absurd he hr
    · intro _
      simp [buffer.get_batches, buffer.with_new_batch, hb']

theorem C2_list_topology_merges_only_null_handle_witness :
    ∃ s', sample_points.add_vertices [other_vertex] .POINTLIST none ⟨0, 0, 0, 255⟩ = .ok s' ∧
      s'.get_vertices = sample_points.get_vertices ++ [other_vertex] ∧
      ((none : Option Nat) = none →
        s'.get_batches.length = sample_points.get_batches.length ∧
        s'.get_batches = [] ++
          [⟨1 + [other_vertex].length, .POINTLIST, none, ⟨0, 0, 0, 255⟩,
            sample_points.active_command⟩]) ∧
      ((none : Option Nat) ≠ none →
        s'.get_batches.length = sample_points.get_batches.length + 1 ∧
        s'.get_batches = [] ++
          [⟨1, .POINTLIST, none, ⟨255, 255, 255, 255⟩, command.initial⟩,
           ⟨[other_vertex].length, .POINTLIST, none, ⟨0, 0, 0, 255⟩,
            sample_points.active_command⟩]) :=
  C2_list_topology_merges_only_null_handle sample_points []
    ⟨1, .POINTLIST, none, ⟨255, 255, 255, 255⟩, command.initial⟩ [other_vertex] .POINTLIST none
    ⟨0, 0, 0, 255⟩ rfl (Or.inl rfl) rfl rfl rfl (by simp)

/-- C3: on a reachable buffer, for non-empty `a` and `b`, `add_vertices(a, TRIANGLESTRIP)`
with the null handle followed directly by `add_vertices(b, TRIANGLESTRIP)` opens no new
batch for `b`: the number of batches is unchanged, the last batch grows by `2 + |b|`, and
the vertex stream becomes the prior vertices, then the last prior vertex and the first
vertex of `b`, then `b`. On a fresh buffer the two appends give exactly one batch of
`|a| + 2 + |b|` vertices. -/
theorem C3_triangle_strips_are_stitched (env : environment) (s : buffer) (a b : List vertex)
    (col col' : color_rgba) (h : s.reachable env) (ha : a ≠ []) (hb : b ≠ []) :
    (∃ s₁ s₂ bs p, s.add_vertices a .TRIANGLESTRIP none col = .ok s₁ ∧
      s₁.get_batches = bs ++ [p] ∧
      s₁.get_vertices.getLast? = some (a.getLast ha) ∧
      s₁.add_vertices b .TRIANGLESTRIP none col' = .ok s₂ ∧
      s₂.get_batches.length = s₁.get_batches.length ∧
      s₂.get_batches = bs ++ [{ p with size := p.size + 2 + b.length, color := col' }] ∧
      s₂.get_vertices = s₁.get_vertices ++ [a.getLast ha, b.head hb] ++ b) ∧
    (∃ s₁ s₂, buffer.fresh.add_vertices a .TRIANGLESTRIP none col = .ok s₁ ∧
      s₁.add_vertices b .TRIANGLESTRIP none col' = .ok s₂ ∧
      s₂.get_batches.map batch.size = [a.length + 2 + b.length] ∧
      s₂.get_vertices = a ++ [a.getLast ha, b.head hb] ++ b) := by
  obtain ⟨v, vs, rfl⟩ := List.exists_cons_of_ne_nil ha
  obtain ⟨w, ws, rfl⟩ := List.exists_cons_of_ne_nil hb
  constructor
  · obtain ⟨s₁, s₂, bs, p, e₁, hb₁, hl, e₂, hb₂, hv₂⟩ :=
      stitch_after_add s (reachable_consistent env s h).1 (v :: vs) (w :: ws) col col' ha hb
    refine ⟨s₁, s₂, bs, p, e₁, hb₁, hl, e₂, ?_, hb₂, hv₂⟩
    simp [buffer.get_batches, hb₁, hb₂]
  · have hv : (buffer.fresh.with_new_batch (v :: vs) .TRIANGLESTRIP none col).vertices_ =
        (v :: vs).dropLast ++ [(v :: vs).getLast ha] := by
      rw [List.dropLast_append_getLast]
      rfl
    refine ⟨_, _, add_vertices_no_batches buffer.fresh v vs .TRIANGLESTRIP none col rfl,
      add_vertices_stitch _ w ws col' [] _ rfl _ _ hv rfl rfl rfl, ?_, ?_⟩
    · simp [buffer.get_batches, buffer.with_grown_batch]
      omega
    · simp [buffer.get_vertices, buffer.with_grown_batch, buffer.with_new_batch, buffer.fresh]

theorem C3_triangle_strips_are_stitched_witness :
    ∃ s, buffer.fresh.run sample_environment sample_scene = .ok s ∧
      ∃ s₁ s₂ bs p,
        s.add_vertices [sample_vertex] .TRIANGLESTRIP none ⟨1, 1, 1, 1⟩ = .ok s₁ ∧
        s₁.get_batches = bs ++ [p] ∧
        s₁.get_vertices.getLast? = some sample_vertex ∧
        s₁.add_vertices [other_vertex, sample_vertex] .TRIANGLESTRIP none ⟨2, 2, 2, 2⟩ =
          .ok s₂ ∧
        s₂.get_batches.length = s₁.get_batches.length ∧
        s₂.get_batches = bs ++ [{ p with size := p.size + 2 + 2, color := ⟨2, 2, 2, 2⟩ }] ∧
        s₂.get_vertices =
          s₁.get_vertices ++ [sample_vertex, other_vertex] ++ [other_vertex, sample_vertex] :=
  ⟨_, rfl, (C3_triangle_strips_are_stitched sample_environment _ [sample_vertex]
    [other_vertex, sample_vertex] ⟨1, 1, 1, 1⟩ ⟨2, 2, 2, 2⟩ ⟨sample_scene, rfl⟩
    (by simp) (by simp)).1⟩

/-- C4: on a reachable buffer that holds at least one batch, after one successful push or
pop of scissor, key or blur, the next `add_vertices` with a non-empty list opens a new
batch whatever its topology and handle: one batch more, the previous batches as they
were, no bridging vertices, the new batch recording the new active render state. Two
TRIANGLESTRIP appends on a fresh buffer with a push between them give two batches. -/
theorem C4_state_change_forces_new_batch (env : environment) (s s₁ : buffer) (op : operation)
    (vs : List vertex) (t : D3D_PRIMITIVE_TOPOLOGY) (rv : Option Nat) (col : color_rgba)
    (h : s.reachable env) (hb : s.get_batches ≠ []) (hop : op.changes_state = true)
    (e : s.apply env op = .ok s₁) (hvs : vs ≠ []) :
    (∃ s₂ bs p, s₁.add_vertices vs t rv col = .ok s₂ ∧
      s.get_batches = bs ++ [p] ∧
      s₂.get_batches.length = s.get_batches.length + 1 ∧
      s₂.get_batches = bs ++ [p, { size := vs.length, type := t, rv := rv, color := col,
                                   command := s₁.active_command }] ∧
      s₂.get_vertices = s.get_vertices ++ vs) ∧
    (∀ (a b : List vertex) (c₁ c₂ : color_rgba) (push : operation),
      a ≠ [] → b ≠ [] → push.is_push = true →
      ∃ s', buffer.fresh.run env [.add_vertices a .TRIANGLESTRIP none c₁, push,
          .add_vertices b .TRIANGLESTRIP none c₂] = .ok s' ∧
        s'.get_batches.map batch.size = [a.length, b.length] ∧
        s'.get_vertices = a ++ b) := by
  constructor
  · obtain ⟨v, vs', rfl⟩ := List.exists_cons_of_ne_nil hvs
    have hc := reachable_consistent env s h
    have hc₁ := apply_consistent env s s₁ op hc e
    obtain ⟨hs₁, hb₁, hv₁⟩ := changes_state_frame env s s₁ op hop e
    rcases List.eq_nil_or_concat s.batches_ with hnil | ⟨bs, p, hbp⟩
    · exact absurd hnil hb
    · have hbp : s.batches_ = bs ++ [p] := by simpa using hbp
      refine ⟨_, bs, p, add_vertices_opens s₁ hc₁.1 v vs' t rv col (Or.inr (Or.inl hs₁)),
        hbp, ?_, ?_, ?_⟩
      · simp [buffer.get_batches, buffer.with_new_batch, hb₁]
      · simp [buffer.get_batches, buffer.with_new_batch, hb₁, hbp]
      · simp [buffer.get_vertices, buffer.with_new_batch, hv₁]
  · intro a b c₁ c₂ push ha hb' hpush
    obtain ⟨v, vs', rfl⟩ := List.exists_cons_of_ne_nil ha
    obtain ⟨w, ws, rfl⟩ := List.exists_cons_of_ne_nil hb'
    have e₁ := add_vertices_no_batches buffer.fresh v vs' .TRIANGLESTRIP none c₁ rfl
    have hc₁ :=
      with_new_batch_consistent buffer.fresh fresh_consistent v vs' .TRIANGLESTRIP none c₁
    obtain ⟨s₂, e₂⟩ := push_returns env
      (buffer.fresh.with_new_batch (v :: vs') .TRIANGLESTRIP none c₁) push hpush
    have hc₂ := apply_consistent env _ s₂ push hc₁ e₂
    obtain ⟨hs₂, hb₂, hv₂⟩ :=
      changes_state_frame env _ s₂ push (is_push_changes_state push hpush) e₂
    have e₃ := add_vertices_opens s₂ hc₂.1 w ws .TRIANGLESTRIP none c₂ (Or.inr (Or.inl hs₂))
    refine ⟨s₂.with_new_batch (w :: ws) .TRIANGLESTRIP none c₂, ?_, ?_, ?_⟩
    · rw [run_cons_ok env buffer.fresh _ (.add_vertices (v :: vs') .TRIANGLESTRIP none c₁) _ e₁,
        run_cons_ok env _ _ _ _ e₂,
        run_cons_ok env s₂ _ (.add_vertices (w :: ws) .TRIANGLESTRIP none c₂) _ e₃]
      rfl
    · simp [buffer.get_batches, buffer.with_new_batch, hb₂, buffer.fresh]
    · simp [buffer.get_vertices, buffer.with_new_batch, hv₂, buffer.fresh]

theorem C4_state_change_forces_new_batch_witness :
    ∃ s s₁, buffer.fresh.run sample_environment sample_scene = .ok s ∧
      s.apply sample_environment .pop_scissor = .ok s₁ ∧
      ∃ s₂ bs p, s₁.add_vertices [sample_vertex] .TRIANGLESTRIP (some 1) ⟨9, 9, 9, 9⟩ = .ok s₂ ∧
        s.get_batches = bs ++ [p] ∧
        s₂.get_batches.length = s.get_batches.length + 1 ∧
        s₂.get_batches = bs ++ [p, { size := [sample_vertex].length, type := .TRIANGLESTRIP,
                                     rv := some 1, color := ⟨9, 9, 9, 9⟩,
                                     command := s₁.active_command }] ∧
        s₂.get_vertices = s.get_vertices ++ [sample_vertex] :=
  ⟨_, _, rfl, rfl, (C4_state_change_forces_new_batch sample_environment _ _ .pop_scissor
    [sample_vertex] .TRIANGLESTRIP (some 1) ⟨9, 9, 9, 9⟩ ⟨sample_scene, rfl⟩ (by decide) rfl
    rfl (by simp)).1⟩

/-- C5: on a reachable buffer, `add_vertices` with a non-empty list and one of the
topologies LINESTRIP, LINESTRIP_ADJ, TRIANGLESTRIP_ADJ opens a new batch of exactly `|vs|`
vertices and inserts no bridging vertices, whatever the last batch and the split flag are;
`n` successive such appends add `n` batches, so they yield `n` batches on an empty
buffer. -/
theorem C5_other_strips_always_split (env : environment) (s : buffer) (vs : List vertex)
    (t : D3D_PRIMITIVE_TOPOLOGY) (rv : Option Nat) (col : color_rgba) (ops : List operation)
    (h : s.reachable env) (hvs : vs ≠ [])
    (ht : t = .LINESTRIP ∨ t = .LINESTRIP_ADJ ∨ t = .TRIANGLESTRIP_ADJ)
    (hops : ∀ op ∈ ops, op.is_strip_append) :
    (∃ s', s.add_vertices vs t rv col = .ok s' ∧
      s'.get_batches = s.get_batches ++ [{ size := vs.length, type := t, rv := rv,
                                           color := col, command := s.active_command }] ∧
      s'.get_vertices = s.get_vertices ++ vs) ∧
    (∃ s', s.run env ops = .ok s' ∧
      s'.get_batches.length = s.get_batches.length + ops.length) ∧
    (∃ s', buffer.fresh.run env ops = .ok s' ∧ s'.get_batches.length = ops.length) := by
  have hc := reachable_consistent env s h
  refine ⟨?_, ?_, ?_⟩
  · obtain ⟨v, vs', rfl⟩ := List.exists_cons_of_ne_nil hvs
    have hnm : t.never_merged = true := by
      rcases ht with rfl | rfl | rfl <;> rfl
    exact ⟨_, add_vertices_opens s hc.1 v vs' t rv col (Or.inr (Or.inr (Or.inl hnm))),
      rfl, rfl⟩
  · obtain ⟨s', e, -, hl⟩ := run_strip_appends env ops s hc hops
    exact ⟨s', e, hl⟩
  · obtain ⟨s', e, -, hl⟩ := run_strip_appends env ops buffer.fresh fresh_consistent hops
    exact ⟨s', e, by simpa [buffer.get_batches, buffer.fresh] using hl⟩

theorem C5_other_strips_always_split_witness :
    ∃ s, buffer.fresh.run sample_environment sample_scene = .ok s ∧
      (∃ s', s.add_vertices [sample_vertex, other_vertex] .LINESTRIP none ⟨9, 9, 9, 9⟩ = .ok s' ∧
        s'.get_batches = s.get_batches ++ [{ size := 2, type := .LINESTRIP, rv := none,
                                             color := ⟨9, 9, 9, 9⟩,
                                             command := s.active_command }] ∧
        s'.get_vertices = s.get_vertices ++ [sample_vertex, other_vertex]) ∧
      (∃ s', buffer.fresh.run sample_environment
          [.add_vertices [sample_vertex] .LINESTRIP none ⟨9, 9, 9, 9⟩,
           .add_vertices [other_vertex] .LINESTRIP none ⟨9, 9, 9, 9⟩,
           .add_vertices [other_vertex] .TRIANGLESTRIP_ADJ none ⟨9, 9, 9, 9⟩] = .ok s' ∧
        s'.get_batches.length = 3) :=
  ⟨_, rfl,
    (C5_other_strips_always_split sample_environment _ [sample_vertex, other_vertex] .LINESTRIP
      none ⟨9, 9, 9, 9⟩ [.add_vertices [sample_vertex] .LINESTRIP none ⟨9, 9, 9, 9⟩,
           .add_vertices [other_vertex] .LINESTRIP none ⟨9, 9, 9, 9⟩,
           .add_vertices [other_vertex] .TRIANGLESTRIP_ADJ none ⟨9, 9, 9, 9⟩]
      ⟨sample_scene, rfl⟩ (by simp) (Or.inl rfl)
      (by simp [operation.is_strip_append])).1,
    (C5_other_strips_always_split sample_environment _ [sample_vertex, other_vertex] .LINESTRIP
      none ⟨9, 9, 9, 9⟩ [.add_vertices [sample_vertex] .LINESTRIP none ⟨9, 9, 9, 9⟩,
           .add_vertices [other_vertex] .LINESTRIP none ⟨9, 9, 9, 9⟩,
           .add_vertices [other_vertex] .TRIANGLESTRIP_ADJ none ⟨9, 9, 9, 9⟩]
      ⟨sample_scene, rfl⟩ (by simp) (Or.inl rfl)
      (by simp [operation.is_strip_append])).2.2⟩

/-- C6, counterexample: on a reachable buffer whose only batch is a POINTLIST batch, an
`add_vertices` call with the other topology LINELIST and an empty list opens no batch. -/
theorem C6_empty_append_opens_no_batch :
    sample_points.reachable sample_environment ∧
    sample_points.get_batches.map batch.type = [.POINTLIST] ∧
    ∃ s', sample_points.add_vertices [] .LINELIST none ⟨255, 255, 255, 255⟩ = .ok s' ∧
      s'.get_batches.length = sample_points.get_batches.length :=
  ⟨⟨[.add_vertices [sample_vertex] .POINTLIST none ⟨255, 255, 255, 255⟩], rfl⟩, rfl,
    _, rfl, rfl⟩

/-- C6, amended: in every reachable buffer all vertices of a batch were appended with the
topology and the resource handle recorded on that batch, and an `add_vertices` call with a
non-empty list whose topology or handle differs from the last batch's opens a new batch:
one batch more, of size `|vs|`, with type, rv and color as passed. -/
theorem C6_batches_keep_topology_and_handle (env : environment) (s : buffer)
    (vs : List vertex) (t : D3D_PRIMITIVE_TOPOLOGY) (rv : Option Nat) (col : color_rgba)
    (p : batch) (h : s.reachable env) (hvs : vs ≠ [])
    (hp : s.get_batches.getLast? = some p) (hd : p.type ≠ t ∨ p.rv ≠ rv) :
    (∃ s', s.add_vertices vs t rv col = .ok s' ∧
      s'.get_batches.length = s.get_batches.length + 1 ∧
      s'.get_batches = s.get_batches ++ [{ size := vs.length, type := t, rv := rv,
                                           color := col, command := s.active_command }] ∧
      s'.get_vertices = s.get_vertices ++ vs) ∧
    List.Forall₂ (fun b run => run.length = b.size ∧ ∀ r ∈ run, r.type = b.type ∧ r.rv = b.rv)
      s.get_batches (batch_runs s.get_batches s.history_) := by
  constructor
  · obtain ⟨v, vs', rfl⟩ := List.exists_cons_of_ne_nil hvs
    refine ⟨_, add_vertices_opens s (reachable_consistent env s h).1 v vs' t rv col
      (Or.inr (Or.inr (Or.inr (Or.inr ⟨p, hp, hd⟩)))), ?_, rfl, rfl⟩
    simp [buffer.get_batches, buffer.with_new_batch]
  · exact (reachable_runs env s h).2.2.imp fun b run hr =>
      ⟨hr.1, fun r hmem => (hr.2.2.1 r hmem).2⟩

theorem C6_batches_keep_topology_and_handle_witness :
    (∃ s', sample_points.add_vertices [other_vertex] .POINTLIST (some 3) ⟨1, 1, 1, 1⟩ = .ok s' ∧
      s'.get_batches.length = sample_points.get_batches.length + 1 ∧
      s'.get_batches = sample_points.get_batches ++
        [{ size := [other_vertex].length, type := .POINTLIST, rv := some 3,
           color := ⟨1, 1, 1, 1⟩, command := sample_points.active_command }] ∧
      s'.get_vertices = sample_points.get_vertices ++ [other_vertex]) ∧
    List.Forall₂ (fun b run => run.length = b.size ∧ ∀ r ∈ run, r.type = b.type ∧ r.rv = b.rv)
      sample_points.get_batches (batch_runs sample_points.get_batches sample_points.history_) :=
  C6_batches_keep_topology_and_handle sample_environment sample_points [other_vertex]
    .POINTLIST (some 3) ⟨1, 1, 1, 1⟩ ⟨1, .POINTLIST, none, ⟨255, 255, 255, 255⟩, command.initial⟩
    ⟨[.add_vertices [sample_vertex] .POINTLIST none ⟨255, 255, 255, 255⟩], rfl⟩ (by simp) rfl
    (Or.inr (by simp))

/-- C7, counterexample: two `add_vertices` calls with the colors red and blue end up in
the same LINELIST batch, which records blue only. -/
theorem C7_two_colors_in_one_batch :
    ∃ s, buffer.fresh.run sample_environment two_color_lines = .ok s ∧
      s.get_batches.map batch.size = [4] ∧
      s.get_batches.map batch.color = [⟨0, 0, 255, 255⟩] ∧
      s.history_.map append_record.col =
        [⟨255, 0, 0, 255⟩, ⟨255, 0, 0, 255⟩, ⟨0, 0, 255, 255⟩, ⟨0, 0, 255, 255⟩] :=
  ⟨_, rfl, rfl, rfl, rfl⟩

/-- C7, amended: in every reachable buffer the color recorded on a batch is the color
argument of the last `add_vertices` call that stored vertices in that batch (color is not
a batching criterion, so earlier calls into the same batch may have carried another
color). -/
theorem C7_batch_color_is_last_append_color (env : environment) (s : buffer)
    (h : s.reachable env) :
    List.Forall₂ (fun b run => run.length = b.size ∧
        run.getLast?.map append_record.col = some b.color)
      s.get_batches (batch_runs s.get_batches s.history_) :=
  (reachable_runs env s h).2.2.imp fun _ _ hr => ⟨hr.1, hr.2.2.2⟩

theorem C7_batch_color_is_last_append_color_witness :
    ∃ s, buffer.fresh.run sample_environment two_color_lines = .ok s ∧
      List.Forall₂ (fun b run => run.length = b.size ∧
          run.getLast?.map append_record.col = some b.color)
        s.get_batches (batch_runs s.get_batches s.history_) :=
  ⟨_, rfl, C7_batch_color_is_last_append_color sample_environment _ ⟨two_color_lines, rfl⟩⟩

/-- C8, the code at the failing input: after `push_scissor` and then `clear` on a fresh
buffer the scissor stack is empty while `active_command.scissor_enable` is still true. -/
theorem C8_clear_leaves_scissor_enabled (env : environment) (bounds : vec4)
    (in_ circle : Bool) :
    ∃ s, buffer.fresh.run env [.push_scissor bounds in_ circle, .clear] = .ok s ∧
      s.scissor_commands_ = [] ∧ s.active_command.scissor_enable = true :=
  ⟨_, rfl, rfl, rfl⟩

/-- C9: each of `pop_scissor`, `pop_key`, `pop_blur` stops on the assertion exactly when
its stack is empty; on a non-empty stack it returns, removes exactly the top entry and
leaves the other two stacks, the vertices and the batches as they were. -/
theorem C9_pop_asserts_iff_stack_empty (s : buffer) :
    ((s.pop_scissor = .error .assertion_failed ↔ s.scissor_commands_ = []) ∧
      (s.scissor_commands_ ≠ [] → ∃ s' top, s.pop_scissor = .ok s' ∧
        s.scissor_commands_ = s'.scissor_commands_ ++ [top] ∧
        s'.key_commands_ = s.key_commands_ ∧ s'.blur_commands_ = s.blur_commands_ ∧
        s'.get_vertices = s.get_vertices ∧ s'.get_batches = s.get_batches)) ∧
    ((s.pop_key = .error .assertion_failed ↔ s.key_commands_ = []) ∧
      (s.key_commands_ ≠ [] → ∃ s' top, s.pop_key = .ok s' ∧
        s.key_commands_ = s'.key_commands_ ++ [top] ∧
        s'.scissor_commands_ = s.scissor_commands_ ∧ s'.blur_commands_ = s.blur_commands_ ∧
        s'.get_vertices = s.get_vertices ∧ s'.get_batches = s.get_batches)) ∧
    ((s.pop_blur = .error .assertion_failed ↔ s.blur_commands_ = []) ∧
      (s.blur_commands_ ≠ [] → ∃ s' top, s.pop_blur = .ok s' ∧
        s.blur_commands_ = s'.blur_commands_ ++ [top] ∧
        s'.scissor_commands_ = s.scissor_commands_ ∧ s'.key_commands_ = s.key_commands_ ∧
        s'.get_vertices = s.get_vertices ∧ s'.get_batches = s.get_batches)) := by
  refine ⟨⟨?_, ?_⟩, ⟨?_, ?_⟩, ⟨?_, ?_⟩⟩
  · by_cases hne : s.scissor_commands_ = [] <;> simp [buffer.pop_scissor, hne]
  · intro hne
    rcases List.eq_nil_or_concat s.scissor_commands_ with hnil | ⟨xs, top, hx⟩
    · exact absurd hnil hne
    · have hx : s.scissor_commands_ = xs ++ [top] := by simpa using hx
      obtain ⟨-, h₂, h₃, -, h₅, h₆, h₇⟩ := update_scissor_frame
        { s with scissor_commands_ := s.scissor_commands_.dropLast }
      refine ⟨_, top, by simp only [buffer.pop_scissor, if_neg hne], ?_, h₆, h₇, h₃, h₂⟩
      rw [h₅]
      simp [hx]
  · by_cases hne : s.key_commands_ = [] <;> simp [buffer.pop_key, hne]
  · intro hne
    rcases List.eq_nil_or_concat s.key_commands_ with hnil | ⟨xs, top, hx⟩
    · exact absurd hnil hne
    · have hx : s.key_commands_ = xs ++ [top] := by simpa using hx
      obtain ⟨-, h₂, h₃, -, h₅, h₆, h₇⟩ := update_key_frame
        { s with key_commands_ := s.key_commands_.dropLast }
      refine ⟨_, top, by simp only [buffer.pop_key, if_neg hne], ?_, h₅, h₇, h₃, h₂⟩
      rw [h₆]
      simp [hx]
  · by_cases hne : s.blur_commands_ = [] <;> simp [buffer.pop_blur, hne]
  · intro hne
    rcases List.eq_nil_or_concat s.blur_commands_ with hnil | ⟨xs, top, hx⟩
    · exact absurd hnil hne
    · have hx : s.blur_commands_ = xs ++ [top] := by simpa using hx
      obtain ⟨-, h₂, h₃, -, h₅, h₆, h₇⟩ := update_blur_frame
        { s with blur_commands_ := s.blur_commands_.dropLast }
      refine ⟨_, top, by simp only [buffer.pop_blur, if_neg hne], ?_, h₅, h₆, h₃, h₂⟩
      rw [h₇]
      simp [hx]

theorem C9_pop_asserts_iff_stack_empty_witness :
    ∃ s, buffer.fresh.run sample_environment three_pushes = .ok s ∧
      (∃ s' top, s.pop_scissor = .ok s' ∧
        s.scissor_commands_ = s'.scissor_commands_ ++ [top] ∧
        s'.key_commands_ = s.key_commands_ ∧ s'.blur_commands_ = s.blur_commands_ ∧
        s'.get_vertices = s.get_vertices ∧ s'.get_batches = s.get_batches) ∧
      (buffer.fresh.pop_key = .error .assertion_failed ↔ buffer.fresh.key_commands_ = []) :=
  ⟨_, rfl, (C9_pop_asserts_iff_stack_empty _).1.2 (by decide),
    (C9_pop_asserts_iff_stack_empty buffer.fresh).2.1.1⟩

/-- C10: on a reachable buffer, for each of scissor, key and blur whose stack is not
empty, the active fields are those of the stack's top entry, a push makes the pushed value
the active one, and the matching pop then returns and restores both the stack and the
active fields to what they were before the push. -/
theorem C10_push_then_pop_restores (env : environment) (s : buffer) (h : s.reachable env) :
    (s.scissor_commands_ ≠ [] → ∀ (bounds : vec4) (in_ circle : Bool), ∃ s' top,
      (s.push_scissor bounds in_ circle).scissor_commands_.getLast? =
        some (⟨bounds.x, bounds.y, bounds.z, bounds.w⟩, in_, circle) ∧
      (s.push_scissor bounds in_ circle).active_command.scissor_bounds =
        ⟨bounds.x, bounds.y, bounds.z, bounds.w⟩ ∧
      (s.push_scissor bounds in_ circle).pop_scissor = .ok s' ∧
      s'.scissor_commands_ = s.scissor_commands_ ∧
      s.scissor_commands_.getLast? = some top ∧
      s'.active_command.scissor_enable = s.active_command.scissor_enable ∧
      s'.active_command.scissor_bounds = s.active_command.scissor_bounds ∧
      s'.active_command.scissor_in = s.active_command.scissor_in ∧
      s'.active_command.scissor_circle = s.active_command.scissor_circle ∧
      s.active_command.scissor_enable = true ∧ s.active_command.scissor_bounds = top.1 ∧
      s.active_command.scissor_in = top.2.1 ∧ s.active_command.scissor_circle = top.2.2) ∧
    (s.key_commands_ ≠ [] → ∀ color : color_rgba, ∃ s' top,
      (s.push_key color).key_commands_.getLast? = some color ∧
      (s.push_key color).active_command.key_color = color ∧
      (s.push_key color).pop_key = .ok s' ∧
      s'.key_commands_ = s.key_commands_ ∧
      s.key_commands_.getLast? = some top ∧
      s'.active_command.key_enable = s.active_command.key_enable ∧
      s'.active_command.key_color = s.active_command.key_color ∧
      s.active_command.key_enable = true ∧ s.active_command.key_color = top) ∧
    (s.blur_commands_ ≠ [] → ∀ strength : ℚ, ∃ s' top,
      (s.push_blur strength).blur_commands_.getLast? = some strength ∧
      (s.push_blur strength).active_command.blur_strength = strength ∧
      (s.push_blur strength).pop_blur = .ok s' ∧
      s'.blur_commands_ = s.blur_commands_ ∧
      s.blur_commands_.getLast? = some top ∧
      s'.active_command.blur_strength = s.active_command.blur_strength ∧
      s.active_command.blur_strength = top) := by
  have hc := (reachable_consistent env s h).2
  refine ⟨?_, ?_, ?_⟩
  · intro hne bounds in_ circle
    rcases List.eq_nil_or_concat s.scissor_commands_ with hnil | ⟨xs, top, hx⟩
    · exact absurd hnil hne
    · have hx : s.scissor_commands_ = xs ++ [top] := by simpa using hx
      obtain ⟨t₁, t₂, t₃, t₄⟩ := hc.scissor_top top (by rw [hx]; simp)
      have hpush : (s.push_scissor bounds in_ circle).scissor_commands_ =
          s.scissor_commands_ ++ [(⟨bounds.x, bounds.y, bounds.z, bounds.w⟩, in_, circle)] :=
        (update_scissor_frame _).2.2.2.2.1
      have hact : (s.push_scissor bounds in_ circle).active_command =
          { s.active_command with
            scissor_enable := true, scissor_bounds := ⟨bounds.x, bounds.y, bounds.z, bounds.w⟩,
            scissor_in := in_, scissor_circle := circle } :=
        update_scissor_active _ (⟨bounds.x, bounds.y, bounds.z, bounds.w⟩, in_, circle)
          (by simp)
      have hpop := pop_scissor_of_ne (s.push_scissor bounds in_ circle) (by rw [hpush]; simp)
      have hlast : (s.push_scissor bounds in_ circle).scissor_commands_.dropLast.getLast? =
          some top := by
        rw [hpush, List.dropLast_concat, hx]
        simp
      have hact' := update_scissor_active { s.push_scissor bounds in_ circle with
          scissor_commands_ := (s.push_scissor bounds in_ circle).scissor_commands_.dropLast }
        top hlast
      refine ⟨_, top, ?_, ?_, hpop, ?_, ?_, ?_, ?_, ?_, ?_, t₁, t₂, t₃, t₄⟩
      · rw [hpush]
        simp
      · rw [hact]
      · rw [(update_scissor_frame _).2.2.2.2.1]
        simp [hpush]
      · rw [hx]
        simp
      · rw [hact', t₁]
      · rw [hact', t₂]
      · rw [hact', t₃]
      · rw [hact', t₄]
  · intro hne color
    rcases List.eq_nil_or_concat s.key_commands_ with hnil | ⟨xs, top, hx⟩
    · exact absurd hnil hne
    · have hx : s.key_commands_ = xs ++ [top] := by simpa using hx
      have t₁ := hc.key_enable.mpr hne
      have t₂ := hc.key_top top (by rw [hx]; simp)
      have hpush : (s.push_key color).key_commands_ = s.key_commands_ ++ [color] :=
        (update_key_frame _).2.2.2.2.2.1
      have hact : (s.push_key color).active_command =
          { s.active_command with key_enable := true, key_color := color } :=
        update_key_active _ color (by simp)
      have hpop := pop_key_of_ne (s.push_key color) (by rw [hpush]; simp)
      have hlast : (s.push_key color).key_commands_.dropLast.getLast? = some top := by
        rw [hpush, List.dropLast_concat, hx]
        simp
      have hact' := update_key_active { s.push_key color with
          key_commands_ := (s.push_key color).key_commands_.dropLast } top hlast
      refine ⟨_, top, ?_, ?_, hpop, ?_, ?_, ?_, ?_, t₁, t₂⟩
      · rw [hpush]
        simp
      · rw [hact]
      · rw [(update_key_frame _).2.2.2.2.2.1]
        simp [hpush]
      · rw [hx]
        simp
      · rw [hact', t₁]
      · rw [hact', t₂]
  · intro hne strength
    rcases List.eq_nil_or_concat s.blur_commands_ with hnil | ⟨xs, top, hx⟩
    · exact absurd hnil hne
    · have hx : s.blur_commands_ = xs ++ [top] := by simpa using hx
      have t₁ := hc.blur_top top (by rw [hx]; simp)
      have hpush : (s.push_blur strength).blur_commands_ = s.blur_commands_ ++ [strength] :=
        (update_blur_frame _).2.2.2.2.2.2
      have hact : (s.push_blur strength).active_command =
          { s.active_command with blur_strength := strength } :=
        update_blur_active _ strength (by simp)
      have hpop := pop_blur_of_ne (s.push_blur strength) (by rw [hpush]; simp)
      have hlast : (s.push_blur strength).blur_commands_.dropLast.getLast? = some top := by
        rw [hpush, List.dropLast_concat, hx]
        simp
      have hact' := update_blur_active { s.push_blur strength with
          blur_commands_ := (s.push_blur strength).blur_commands_.dropLast } top hlast
      refine ⟨_, top, ?_, ?_, hpop, ?_, ?_, ?_, t₁⟩
      · rw [hpush]
        simp
      · rw [hact]
      · rw [(update_blur_frame _).2.2.2.2.2.2]
        simp [hpush]
      · rw [hx]
        simp
      · rw [hact', t₁]

theorem C10_push_then_pop_restores_witness :
    ∃ s, buffer.fresh.run sample_environment three_pushes = .ok s ∧
      ∀ color : color_rgba, ∃ s' top,
        (s.push_key color).key_commands_.getLast? = some color ∧
        (s.push_key color).active_command.key_color = color ∧
        (s.push_key color).pop_key = .ok s' ∧
        s'.key_commands_ = s.key_commands_ ∧
        s.key_commands_.getLast? = some top ∧
        s'.active_command.key_enable = s.active_command.key_enable ∧
        s'.active_command.key_color = s.active_command.key_color ∧
        s.active_command.key_enable = true ∧ s.active_command.key_color = top :=
  ⟨_, rfl, (C10_push_then_pop_restores sample_environment _ ⟨three_pushes, rfl⟩).2.1
    (by decide)⟩

end renderer

namespace carbon

/-- C11, the code at the failing input: for a = (main 1, cross 2, row) and
b = (main 3, cross 2, row) the binary `operator+` returns main 4 and cross -1, while
`a += b` leaves main 4 and cross 4 in `a`, the value the claim gives for `a + b`. -/
theorem C11_binary_plus_is_not_plus_assign :
    axes.add (⟨1, 2, .row⟩ : axes ℚ) ⟨3, 2, .row⟩ = ⟨4, -1, .row⟩ ∧
    axes.add_assign (⟨1, 2, .row⟩ : axes ℚ) ⟨3, 2, .row⟩ = ⟨4, 4, .row⟩ ∧
    axes.add (⟨1, 2, .row⟩ : axes ℚ) ⟨3, 2, .row⟩ ≠
      axes.add_assign (⟨1, 2, .row⟩ : axes ℚ) ⟨3, 2, .row⟩ := by
  refine ⟨?_, ?_, ?_⟩
  · norm_num [axes.add]
  · norm_num [axes.add_assign]
  · norm_num [axes.add, axes.add_assign]

/-- C12: the conversion to the raw vector type gives (main, cross) for row and
row_reversed and (cross, main) for column and column_reversed, whatever the element type
and the constructor; for the two instantiations of the header this is (x, y) = (main,
cross) against (x, y) = (cross, main), so a column direction gives the row result with its
components swapped and a reversed direction converts like its non-reversed one. -/
theorem C12_conversion_follows_axis {T R : Type} (ret : T → T → R) (main cross : T)
    (m c : ℚ) (p q : renderer.vec2) :
    (axes.to_RetT ret ⟨main, cross, .row⟩ = ret main cross ∧
      axes.to_RetT ret ⟨main, cross, .row_reversed⟩ = ret main cross ∧
      axes.to_RetT ret ⟨main, cross, .column⟩ = ret cross main ∧
      axes.to_RetT ret ⟨main, cross, .column_reversed⟩ = ret cross main) ∧
    (axes_vec2_to_vec2 ⟨m, c, .row⟩ = ⟨m, c⟩ ∧
      axes_vec2_to_vec2 ⟨m, c, .row_reversed⟩ = ⟨m, c⟩ ∧
      axes_vec2_to_vec2 ⟨m, c, .column⟩ = ⟨c, m⟩ ∧
      axes_vec2_to_vec2 ⟨m, c, .column_reversed⟩ = ⟨c, m⟩) ∧
    ((axes_vec2_to_vec2 ⟨m, c, .column⟩).x = (axes_vec2_to_vec2 ⟨m, c, .row⟩).y ∧
      (axes_vec2_to_vec2 ⟨m, c, .column⟩).y = (axes_vec2_to_vec2 ⟨m, c, .row⟩).x) ∧
    (axes_vec4_to_vec4 ⟨p, q, .row⟩ = ⟨p.x, p.y, q.x, q.y⟩ ∧
      axes_vec4_to_vec4 ⟨p, q, .row_reversed⟩ = ⟨p.x, p.y, q.x, q.y⟩ ∧
      axes_vec4_to_vec4 ⟨p, q, .column⟩ = ⟨q.x, q.y, p.x, p.y⟩ ∧
      axes_vec4_to_vec4 ⟨p, q, .column_reversed⟩ = ⟨q.x, q.y, p.x, p.y⟩) := by
  refine ⟨⟨?_, ?_, ?_, ?_⟩, ⟨?_, ?_, ?_, ?_⟩, ⟨?_, ?_⟩, ⟨?_, ?_, ?_, ?_⟩⟩ <;>
    simp [axes.to_RetT, axes_vec2_to_vec2, axes_vec4_to_vec4]

/-! ## Flexible lengths -/

theorem sum_map_eq_add {α : Type} (l : List α) (f g h : α → ℚ)
    (H : ∀ a ∈ l, f a = g a + h a) : (l.map f).sum = (l.map g).sum + (l.map h).sum := by
  induction l with
  | nil => simp
  | cons a l ih =>
    simp only [List.map_cons, List.sum_cons]
    rw [H a (List.mem_cons_self _ _), ih fun b hb => H b (List.mem_cons_of_mem _ hb)]
    ring

theorem sum_map_scale {α : Type} (l : List α) (w : α → ℚ) (c d : ℚ) :
    (l.map fun a => c * w a / d).sum = c * (l.map w).sum / d := by
  induction l with
  | nil => simp
  | cons a l ih =>
    simp only [List.map_cons, List.sum_cons, ih]
    ring

theorem sum_pos_of_mem (l : List ℚ) (hnn : ∀ x ∈ l, 0 ≤ x) (hpos : ∃ x ∈ l, 0 < x) :
    0 < l.sum := by
  induction l with
  | nil =>
    obtain ⟨x, hx, -⟩ := hpos
    cases hx
  | cons a l ih =>
    simp only [List.sum_cons]
    have ha := hnn a (List.mem_cons_self _ _)
    have hl : 0 ≤ l.sum := List.sum_nonneg fun x hx => hnn x (List.mem_cons_of_mem _ hx)
    obtain ⟨x, hx, hx0⟩ := hpos
    rcases List.mem_cons.mp hx with rfl | hx
    · linarith
    · have := ih (fun y hy => hnn y (List.mem_cons_of_mem _ hy)) ⟨x, hx, hx0⟩
      linarith

theorem freezes_flexible (growing : Bool) (f t : ℚ) (item : flex_item)
    (h : flex_line.freezes growing f t item = true) : item.flexible = true := by
  simp only [flex_line.freezes, Bool.and_eq_true] at h
  exact h.1

theorem resolve_item_static (growing : Bool) (f t : ℚ) (item : flex_item) :
    (flex_line.resolve_item growing f t item).visible = item.visible ∧
    (flex_line.resolve_item growing f t item).flex = item.flex ∧
    (flex_line.resolve_item growing f t item).base_size_ = item.base_size_ ∧
    (flex_line.resolve_item growing f t item).flexible =
      (item.flexible && !flex_line.freezes growing f t item) := by
  unfold flex_line.resolve_item
  by_cases hfz : flex_line.freezes growing f t item = true
  · simp [hfz]
  · by_cases hflex : item.flexible = true
    · simp [hfz, hflex]
    · simp [hfz, hflex]

theorem frozen_growth_resolve_item (f t : ℚ) (item : flex_item)
    (h : item.flexible = true → item.visible = true ∧ 0 < item.flex.grow) :
    (flex_line.resolve_item true f t item).frozen_growth =
      item.frozen_growth + flex_line.frozen_space true f t item := by
  unfold flex_line.resolve_item flex_line.frozen_space flex_item.frozen_growth flex_item.growth
  by_cases hfz : flex_line.freezes true f t item = true
  · have hflex := freezes_flexible true f t item hfz
    obtain ⟨hv, hg⟩ := h hflex
    simp [hfz, hflex, hv, hg]
  · by_cases hflex : item.flexible = true
    · simp [hfz, hflex]
    · simp [hfz, hflex]

/-- In an iteration that clamps nothing, a flexible item grows by its proportional share
of the free space that is left. -/
theorem growth_resolve_item_last (f t : ℚ) (item : flex_item)
    (h : item.flexible = true → item.visible = true ∧ 0 < item.flex.grow)
    (hfz : flex_line.freezes true f t item = false) :
    (flex_line.resolve_item true f t item).growth =
      item.frozen_growth + f * (if item.flexible then flex_weight true item else 0) / t := by
  unfold flex_line.resolve_item flex_item.frozen_growth flex_item.growth
  by_cases hflex : item.flexible = true
  · obtain ⟨hv, hg⟩ := h hflex
    simp [hfz, hflex, hv, hg, flex_line.proposed, flex_line.resolve_flexible_length]
  · simp [hfz, hflex]

theorem countP_lt_of_imp {α : Type} (l : List α) (p q : α → Bool)
    (himp : ∀ a ∈ l, p a = true → q a = true) (hex : ∃ a ∈ l, q a = true ∧ p a = false) :
    l.countP p < l.countP q := by
  induction l with
  | nil =>
    obtain ⟨a, ha, -⟩ := hex
    cases ha
  | cons a l ih =>
    have hle : l.countP p ≤ l.countP q :=
      List.countP_mono_left fun x hx => himp x (List.mem_cons_of_mem _ hx)
    obtain ⟨b, hb, hqb, hpb⟩ := hex
    rcases List.mem_cons.mp hb with rfl | hb
    · rw [List.countP_cons_of_pos _ _ hqb, List.countP_cons_of_neg _ _ (by simp [hpb])]
      omega
    · have hlt := ih (fun x hx => himp x (List.mem_cons_of_mem _ hx)) ⟨b, hb, hqb, hpb⟩
      by_cases hpa : p a = true
      · rw [List.countP_cons_of_pos _ _ hpa,
          List.countP_cons_of_pos _ _ (himp a (List.mem_cons_self _ _) hpa)]
        omega
      · rw [List.countP_cons_of_neg _ _ hpa]
        by_cases hqa : q a = true
        · rw [List.countP_cons_of_pos _ _ hqa]
          omega
        · rw [List.countP_cons_of_neg _ _ hqa]
          exact hlt

/-- One iteration keeps the invariant of the grow distribution: flexible items are
visible and growing, and the frozen items have taken what is missing from the free
space. -/
theorem calculate_flex_invariant (free rem : ℚ) (items : List flex_item)
    (ha : ∀ item ∈ items, item.flexible = true → item.visible = true ∧ 0 < item.flex.grow)
    (hb : (items.map flex_item.frozen_growth).sum = free - rem) :
    (∀ item ∈ (flex_line.calculate_flex true rem items).1,
      item.flexible = true → item.visible = true ∧ 0 < item.flex.grow) ∧
    ((flex_line.calculate_flex true rem items).1.map flex_item.frozen_growth).sum =
      free - (flex_line.calculate_flex true rem items).2.1 := by
  constructor
  · intro item hmem hflex
    simp only [flex_line.calculate_flex, List.mem_map] at hmem
    obtain ⟨it, hit, rfl⟩ := hmem
    obtain ⟨hv, hf, -, hfl⟩ := resolve_item_static true rem
      (flex_line.weight_total true items) it
    rw [hfl, Bool.and_eq_true] at hflex
    rw [hv, hf]
    exact ha it hit hflex.1
  · simp only [flex_line.calculate_flex, List.map_map]
    rw [sum_map_eq_add items
      (flex_item.frozen_growth ∘
        flex_line.resolve_item true rem (flex_line.weight_total true items))
      flex_item.frozen_growth
      (flex_line.frozen_space true rem (flex_line.weight_total true items))
      (fun it hit => frozen_growth_resolve_item rem _ it (ha it hit)), hb]
    ring

theorem calculate_flex_count (rem : ℚ) (items : List flex_item)
    (hagain : (flex_line.calculate_flex true rem items).2.2 = true) :
    flex_line.flexible_count (flex_line.calculate_flex true rem items).1 <
      flex_line.flexible_count items := by
  simp only [flex_line.calculate_flex, List.any_eq_true] at hagain
  obtain ⟨it, hit, hfz⟩ := hagain
  simp only [flex_line.flexible_count, flex_line.calculate_flex, List.countP_map]
  refine countP_lt_of_imp items _ _ (fun a _ hfa => ?_) ⟨it, hit, ?_, ?_⟩
  · simp only [Function.comp_apply,
      (resolve_item_static true rem (flex_line.weight_total true items) a).2.2.2,
      Bool.and_eq_true] at hfa
    exact hfa.1
  · exact freezes_flexible true rem _ it hfz
  · simp only [Function.comp_apply,
      (resolve_item_static true rem (flex_line.weight_total true items) it).2.2.2, hfz,
      Bool.not_true, Bool.and_false]

/-- The grow distribution hands out all of the free space when an item is left unclamped,
and the unclamped items share what the clamped ones left in proportion to their grow
factors. -/
theorem resolve_flexible_lengths_sum (free : ℚ) :
    ∀ (rounds : Nat) (rem : ℚ) (items : List flex_item),
      (∀ item ∈ items, item.flexible = true → item.visible = true ∧ 0 < item.flex.grow) →
      (items.map flex_item.frozen_growth).sum = free - rem →
      flex_line.flexible_count items < rounds →
      (∃ item ∈ flex_line.resolve_flexible_lengths true rounds rem items,
        item.flexible = true) →
      ((flex_line.resolve_flexible_lengths true rounds rem items).map
        flex_item.growth).sum = free ∧
      ∃ R G : ℚ, 0 < G ∧
        ∀ item ∈ flex_line.resolve_flexible_lengths true rounds rem items,
          item.flexible = true → item.final_size - item.base_size_ = R * item.flex.grow / G := by
  intro rounds
  induction rounds with
  | zero =>
    intro rem items _ _ hcount
    exact absurd hcount (Nat.not_lt_zero _)
  | succ n ih =>
    intro rem items ha hb hcount hex
    obtain ⟨ha', hb'⟩ := calculate_flex_invariant free rem items ha hb
    cases hagain : (flex_line.calculate_flex true rem items).2.2 with
    | true =>
      have hlt := calculate_flex_count rem items hagain
      simp only [flex_line.resolve_flexible_lengths, hagain, if_true] at hex ⊢
      exact ih _ _ ha' hb' (by omega) hex
    | false =>
      simp only [flex_line.resolve_flexible_lengths, hagain, Bool.false_eq_true,
        if_false] at hex ⊢
      have hnone : ∀ it ∈ items,
          flex_line.freezes true rem (flex_line.weight_total true items) it = false := by
        intro it hit
        have := hagain
        simp only [flex_line.calculate_flex, List.any_eq_false] at this
        simpa using this it hit
      have hflex : ∃ it ∈ items, it.flexible = true := by
        obtain ⟨item, hmem, hf⟩ := hex
        simp only [flex_line.calculate_flex, List.mem_map] at hmem
        obtain ⟨it, hit, rfl⟩ := hmem
        rw [(resolve_item_static true rem _ it).2.2.2, Bool.and_eq_true] at hf
        exact ⟨it, hit, hf.1⟩
      have htotal : 0 < flex_line.weight_total true items := by
        unfold flex_line.weight_total
        apply sum_pos_of_mem
        · intro x hx
          obtain ⟨it, hit, rfl⟩ := List.mem_map.mp hx
          by_cases hf : it.flexible = true
          · simp only [hf, if_true, flex_weight]
            exact le_of_lt (ha it hit hf).2
          · simp [hf]
        · obtain ⟨it, hit, hf⟩ := hflex
          refine ⟨_, List.mem_map.mpr ⟨it, hit, rfl⟩, ?_⟩
          simp only [hf, if_true, flex_weight]
          exact (ha it hit hf).2
      constructor
      · simp only [flex_line.calculate_flex, List.map_map]
        rw [sum_map_eq_add items
          (flex_item.growth ∘
            flex_line.resolve_item true rem (flex_line.weight_total true items))
          flex_item.frozen_growth
          (fun it => rem * (if it.flexible then flex_weight true it else 0) /
            flex_line.weight_total true items)
          (fun it hit => growth_resolve_item_last rem _ it (ha it hit) (hnone it hit)), hb,
          sum_map_scale items (fun it => if it.flexible then flex_weight true it else 0) rem
            (flex_line.weight_total true items)]
        have : (items.map fun it => if it.flexible then flex_weight true it else 0).sum =
            flex_line.weight_total true items := rfl
        rw [this]
        field_simp
      · refine ⟨rem, flex_line.weight_total true items, htotal, ?_⟩
        intro item hmem hf
        simp only [flex_line.calculate_flex, List.mem_map] at hmem
        obtain ⟨it, hit, rfl⟩ := hmem
        have hf' := hf
        rw [(resolve_item_static true rem _ it).2.2.2, Bool.and_eq_true] at hf'
        simp [flex_line.resolve_item, hnone it hit, hf'.1, flex_line.proposed,
          flex_line.resolve_flexible_length, flex_weight]

theorem compute_of_pos (free : ℚ) (items : List flex_item) (hfree : 0 < free) :
    flex_line.compute free items =
      flex_line.resolve_flexible_lengths true (items.length + 1) free
        (flex_line.start true items) := by
  simp only [flex_line.compute, if_neg (ne_of_gt hfree), hfree, decide_True]

theorem start_invariant (free : ℚ) (items : List flex_item) :
    (∀ item ∈ flex_line.start true items,
      item.flexible = true → item.visible = true ∧ 0 < item.flex.grow) ∧
    ((flex_line.start true items).map flex_item.frozen_growth).sum = free - free ∧
    flex_line.flexible_count (flex_line.start true items) < items.length + 1 := by
  refine ⟨?_, ?_, ?_⟩
  · intro item hmem hflex
    simp only [flex_line.start, List.mem_map] at hmem
    obtain ⟨it, -, rfl⟩ := hmem
    simpa [flex_weight] using hflex
  · rw [sub_self]
    apply List.sum_eq_zero
    intro x hx
    simp only [flex_line.start, List.map_map, List.mem_map, Function.comp_apply] at hx
    obtain ⟨it, -, rfl⟩ := hx
    simp only [flex_item.frozen_growth, flex_item.growth, flex_weight, if_true,
      Bool.and_eq_true, decide_eq_true_eq]
    split <;> simp
  · have h := List.countP_le_length (fun item : flex_item => item.flexible)
      (l := flex_line.start true items)
    simp only [flex_line.start, List.length_map] at h
    simp only [flex_line.flexible_count, flex_line.start]
    omega

/-- An iteration that clamps nothing is the last one. -/
theorem resolve_flexible_lengths_last (growing : Bool) (rounds : Nat) (rem : ℚ)
    (items : List flex_item)
    (h : ∀ it ∈ items,
      flex_line.freezes growing rem (flex_line.weight_total growing items) it = false) :
    flex_line.resolve_flexible_lengths growing (rounds + 1) rem items =
      items.map (flex_line.resolve_item growing rem (flex_line.weight_total growing items)) := by
  have hany : (flex_line.calculate_flex growing rem items).2.2 = false := by
    simp only [flex_line.calculate_flex, List.any_eq_false]
    intro it hit
    simp [h it hit]
  simp only [flex_line.resolve_flexible_lengths, hany, Bool.false_eq_true, if_false]
  rfl

theorem start_grows_121 :
    flex_line.start true grows_121 =
      [{ flex_item.measured 1 1 0 FLT_MAX 0 with flexible := true },
       { flex_item.measured 2 1 0 FLT_MAX 0 with flexible := true },
       { flex_item.measured 1 1 0 FLT_MAX 0 with flexible := true }] := by
  simp [flex_line.start, grows_121, flex_item.measured, flex_weight]

theorem total_grows_121 :
    flex_line.weight_total true (flex_line.start true grows_121) = 4 := by
  rw [start_grows_121]
  norm_num [flex_line.weight_total, flex_item.measured, flex_weight]

theorem freezes_grows_121 :
    flex_line.freezes true 40 4 { flex_item.measured 1 1 0 FLT_MAX 0 with flexible := true } =
      false ∧
    flex_line.freezes true 40 4 { flex_item.measured 2 1 0 FLT_MAX 0 with flexible := true } =
      false := by
  constructor <;>
    norm_num [flex_line.freezes, flex_line.proposed, flex_line.resolve_flexible_length,
      flex_line.clamp, flex_weight, flex_item.measured, FLT_MAX]

theorem compute_grows_121 :
    (flex_line.compute 40 grows_121).map flex_item.final_size = [10, 20, 10] ∧
    (flex_line.compute 40 grows_121).map flex_item.flexible = [true, true, true] := by
  have hlast := resolve_flexible_lengths_last true grows_121.length 40
    (flex_line.start true grows_121) (by
      rw [total_grows_121, start_grows_121]
      intro it hit
      simp only [List.mem_cons, List.mem_singleton, List.not_mem_nil, or_false] at hit
      rcases hit with rfl | rfl | rfl
      · exact freezes_grows_121.1
      · exact freezes_grows_121.2
      · exact freezes_grows_121.1)
  rw [compute_of_pos 40 grows_121 (by norm_num), hlast, total_grows_121, start_grows_121]
  simp only [List.map_cons, List.map_nil, flex_line.resolve_item, freezes_grows_121.1,
    freezes_grows_121.2, Bool.false_eq_true, if_false, if_true]
  norm_num [flex_line.proposed, flex_line.resolve_flexible_length, flex_weight,
    flex_item.measured]

theorem start_capped_item :
    flex_line.start true capped_item =
      [{ flex_item.measured 1 1 0 10 0 with flexible := true }] := by
  simp [flex_line.start, capped_item, flex_item.measured, flex_weight]

theorem calculate_flex_capped_item :
    flex_line.calculate_flex true 40 (flex_line.start true capped_item) =
      ([{ flex_item.measured 1 1 0 10 0 with final_size := 10 }], 30, true) := by
  rw [start_capped_item]
  have hfz : flex_line.freezes true 40 1
      { flex_item.measured 1 1 0 10 0 with flexible := true } = true := by
    norm_num [flex_line.freezes, flex_line.proposed, flex_line.resolve_flexible_length,
      flex_line.clamp, flex_weight, flex_item.measured]
  have htot : flex_line.weight_total true
      [{ flex_item.measured 1 1 0 10 0 with flexible := true }] = 1 := by
    norm_num [flex_line.weight_total, flex_item.measured, flex_weight]
  simp only [flex_line.calculate_flex, htot, List.map_cons, List.map_nil, List.any_cons,
    List.any_nil, hfz, flex_line.resolve_item, flex_line.frozen_space, if_true,
    Bool.or_false, List.sum_cons, List.sum_nil]
  norm_num [flex_line.proposed, flex_line.resolve_flexible_length, flex_line.clamp,
    flex_weight, flex_item.measured]

theorem compute_capped_item :
    (flex_line.compute 40 capped_item).map flex_item.final_size = [10] ∧
    (flex_line.compute 40 capped_item).map flex_item.flexible = [false] ∧
    ((flex_line.compute 40 capped_item).map flex_item.growth).sum = 10 := by
  have hlast := resolve_flexible_lengths_last true 0 30
    [{ flex_item.measured 1 1 0 10 0 with final_size := 10 }] (by
      intro it hit
      simp only [List.mem_singleton] at hit
      subst hit
      simp [flex_line.freezes, flex_item.measured])
  have hres : flex_line.compute 40 capped_item =
      [{ flex_item.measured 1 1 0 10 0 with final_size := 10 }] := by
    rw [compute_of_pos 40 capped_item (by norm_num)]
    show flex_line.resolve_flexible_lengths true 2 40 (flex_line.start true capped_item) = _
    rw [flex_line.resolve_flexible_lengths, calculate_flex_capped_item]
    simp only [if_true]
    rw [hlast]
    simp [flex_line.resolve_item, flex_line.freezes, flex_item.measured]
  rw [hres]
  norm_num [flex_item.growth, flex_item.measured]

/-- C18, counterexample: one visible item with grow 1, basis 0 and max 10 in a container
with free space 40 ends at final size 10 and frozen, so the growth of the growing items
sums to 10 and not to the free space 40. -/
theorem C18_capped_item_leaves_free_space :
    (0 : ℚ) < 40 ∧
    (∃ item ∈ capped_item, item.visible = true ∧ 0 < item.flex.grow) ∧
    (flex_line.compute 40 capped_item).map flex_item.final_size = [10] ∧
    ((flex_line.compute 40 capped_item).map flex_item.growth).sum = 10 ∧
    ((flex_line.compute 40 capped_item).map flex_item.growth).sum ≠ 40 := by
  refine ⟨by norm_num, ⟨_, List.mem_singleton.mpr rfl, rfl, ?_⟩, compute_capped_item.1,
    compute_capped_item.2.2, ?_⟩
  · norm_num [flex_item.measured]
  · rw [compute_capped_item.2.2]
    norm_num

/-- C18, amended: for a container with positive free space in which at least one growing
item is left unclamped after `compute()`, the growth `final_size - base_size` summed over
the visible items with grow > 0 equals the free space, and the unclamped items share what
the clamped ones left in proportion to their grow factors; for three items with grows
1, 2, 1, basis 0, max unbounded and free space 40 the final sizes are 10, 20, 10. -/
theorem C18_growth_takes_all_free_space (items : List flex_item) (free_space : ℚ)
    (hfree : 0 < free_space)
    (hleft : ∃ item ∈ flex_line.compute free_space items, item.flexible = true) :
    ((flex_line.compute free_space items).map flex_item.growth).sum = free_space ∧
    (∃ R G : ℚ, 0 < G ∧ ∀ item ∈ flex_line.compute free_space items,
      item.flexible = true → item.final_size - item.base_size_ = R * item.flex.grow / G) ∧
    (flex_line.compute 40 grows_121).map flex_item.final_size = [10, 20, 10] := by
  obtain ⟨ha, hb, hcount⟩ := start_invariant free_space items
  rw [compute_of_pos free_space items hfree] at hleft ⊢
  obtain ⟨hsum, hshare⟩ := resolve_flexible_lengths_sum free_space (items.length + 1)
    free_space (flex_line.start true items) ha hb hcount hleft
  exact ⟨hsum, hshare, compute_grows_121.1⟩

theorem C18_growth_takes_all_free_space_witness :
    ((flex_line.compute 40 grows_121).map flex_item.growth).sum = 40 ∧
    (∃ R G : ℚ, 0 < G ∧ ∀ item ∈ flex_line.compute 40 grows_121,
      item.flexible = true → item.final_size - item.base_size_ = R * item.flex.grow / G) ∧
    (flex_line.compute 40 grows_121).map flex_item.final_size = [10, 20, 10] :=
  C18_growth_takes_all_free_space grows_121 40 (by norm_num) (by
    have h := compute_grows_121.2
    cases hc : flex_line.compute 40 grows_121 with
    | nil => rw [hc] at h; cases h
    | cons item rest =>
      rw [hc] at h
      simp only [List.map_cons, List.cons.injEq] at h
      exact ⟨item, List.mem_cons_self _ _, h.1⟩)

end carbon

namespace renderer

/-! ## Text, degenerate geometry, list merges and the partition invariant -/

theorem draw_text_skip (env : environment) (s : buffer) (pos : vec2) (c : Char)
    (rest : List Char) (font_id : Nat) (col : color_rgba) (h_align v_align : text_align)
    (hc : isprint c = false ∨ c = ' ') :
    s.draw_text env pos (c :: rest) font_id col h_align v_align =
      s.draw_text env pos rest font_id col h_align v_align := by
  simp only [buffer.draw_text, if_pos hc]

theorem draw_text_glyph (env : environment) (s : buffer) (pos : vec2) (c : Char)
    (rest : List Char) (font_id : Nat) (col : color_rgba) (h_align v_align : text_align)
    (hc : ¬ (isprint c = false ∨ c = ' ')) :
    s.draw_text env pos (c :: rest) font_id col h_align v_align =
      match s.draw_glyph pos (env.get_font_glyph font_id c) col with
      | .error e => .error e
      | .ok s₁ =>
        s₁.draw_text env
          { pos with x := pos.x + ((env.get_font_glyph font_id c).advance : ℚ) / 64 }
          rest font_id col h_align v_align := by
  simp only [buffer.draw_text, if_neg hc]

/-- C13: for a string that is empty or holds only spaces and non-printable characters,
`draw_text` reaches the glyph lookup for no character and returns the buffer it was given:
vertices, batches, the pending-split flag and the active render state are unchanged. -/
theorem C13_blank_text_draws_nothing (env : environment) (s : buffer) (pos : vec2)
    (text : List Char) (font_id : Nat) (col : color_rgba) (h_align v_align : text_align)
    (hblank : ∀ c ∈ text, isprint c = false ∨ c = ' ') :
    drawn_characters text = [] ∧
    s.draw_text env pos text font_id col h_align v_align = .ok s := by
  constructor
  · simp only [drawn_characters, List.filter_eq_nil_iff]
    intro c hc
    have := hblank c hc
    simp only [decide_eq_true_eq, not_not]
    exact this
  · induction text with
    | nil => rfl
    | cons c rest ih =>
      rw [draw_text_skip env s pos c rest font_id col h_align v_align
        (hblank c (List.mem_cons_self _ _))]
      exact ih fun d hd => hblank d (List.mem_cons_of_mem _ hd)

theorem C13_blank_text_draws_nothing_witness :
    (drawn_characters blank_text = [] ∧
      sample_points.draw_text sample_environment ⟨25, 60⟩ blank_text 0 ⟨255, 255, 255, 255⟩
        .align_left .align_top = .ok sample_points) ∧
    (drawn_characters [] = [] ∧
      sample_points.draw_text sample_environment ⟨25, 60⟩ [] 0 ⟨255, 255, 255, 255⟩
        .align_left .align_top = .ok sample_points) :=
  ⟨C13_blank_text_draws_nothing sample_environment sample_points ⟨25, 60⟩ blank_text 0
      ⟨255, 255, 255, 255⟩ .align_left .align_top (by decide),
    C13_blank_text_draws_nothing sample_environment sample_points ⟨25, 60⟩ [] 0
      ⟨255, 255, 255, 255⟩ .align_left .align_top (by simp)⟩

/-- Skipped characters can be dropped from the text without changing what `draw_text`
does. -/
theorem draw_text_drawn_characters (env : environment) (s : buffer) (pos : vec2)
    (text : List Char) (font_id : Nat) (col : color_rgba) (h_align v_align : text_align) :
    s.draw_text env pos text font_id col h_align v_align =
      s.draw_text env pos (drawn_characters text) font_id col h_align v_align := by
  induction text generalizing s pos with
  | nil => rfl
  | cons c rest ih =>
    by_cases hc : isprint c = false ∨ c = ' '
    · have hf : drawn_characters (c :: rest) = drawn_characters rest := by
        simp only [drawn_characters]
        rw [List.filter_cons_of_neg (by simp only [decide_eq_true_eq, not_not]; exact hc)]
      rw [hf, draw_text_skip env s pos c rest font_id col h_align v_align hc]
      exact ih s pos
    · have hf : drawn_characters (c :: rest) = c :: drawn_characters rest := by
        simp only [drawn_characters]
        rw [List.filter_cons_of_pos (by simp only [decide_eq_true_eq]; exact hc)]
      rw [hf, draw_text_glyph env s pos c rest font_id col h_align v_align hc,
        draw_text_glyph env s pos c (drawn_characters rest) font_id col h_align v_align hc]
      cases s.draw_glyph pos (env.get_font_glyph font_id c) col with
      | error e => rfl
      | ok s₁ => exact ih s₁ _

/-- C14: `draw_text` on a string leaves the buffer exactly as `draw_text` on the same
string with every space and every non-printable character removed: a skipped character
moves the pen by nothing. -/
theorem C14_skipped_characters_do_not_advance (env : environment) (s : buffer) (pos : vec2)
    (text : List Char) (font_id : Nat) (col : color_rgba) (h_align v_align : text_align) :
    s.draw_text env pos text font_id col h_align v_align =
      s.draw_text env pos (drawn_characters text) font_id col h_align v_align :=
  draw_text_drawn_characters env s pos text font_id col h_align v_align

/-- C17: `add_vertices` with an empty list, `draw_circle_filled` with zero segments and
`draw_polyline` whose stroker returns an empty path all return without a fault and return
the buffer they were given: vertices, batches and the pending-split flag are as before. -/
theorem C17_degenerate_geometry_changes_nothing (env : environment) (s : buffer)
    (type : D3D_PRIMITIVE_TOPOLOGY) (rv : Option Nat) (col : color_rgba) (pos : vec2)
    (radius thickness : ℚ) (points : List vec2) (joint : joint_type) (cap : cap_type)
    (hpath : env.polyline_compute thickness joint cap points = []) :
    s.add_vertices [] type rv col = .ok s ∧
    s.draw_circle_filled env pos radius col 0 = .ok s ∧
    s.draw_polyline env points col thickness joint cap = .ok s := by
  refine ⟨rfl, rfl, ?_⟩
  simp only [buffer.draw_polyline, hpath]

theorem C17_degenerate_geometry_changes_nothing_witness :
    (sample_points.push_key ⟨1, 2, 3, 4⟩).split_batch_ = true ∧
    (sample_points.push_key ⟨1, 2, 3, 4⟩).add_vertices [] .LINELIST (some 5) ⟨9, 9, 9, 9⟩ =
      .ok (sample_points.push_key ⟨1, 2, 3, 4⟩) ∧
    (sample_points.push_key ⟨1, 2, 3, 4⟩).draw_circle_filled sample_environment ⟨7, 7⟩ 5
      ⟨9, 9, 9, 9⟩ 0 = .ok (sample_points.push_key ⟨1, 2, 3, 4⟩) ∧
    (sample_points.push_key ⟨1, 2, 3, 4⟩).draw_polyline sample_environment [] ⟨9, 9, 9, 9⟩ 2
      .joint_miter .cap_joint = .ok (sample_points.push_key ⟨1, 2, 3, 4⟩) :=
  ⟨rfl, C17_degenerate_geometry_changes_nothing sample_environment
    (sample_points.push_key ⟨1, 2, 3, 4⟩) .LINELIST (some 5) ⟨9, 9, 9, 9⟩ ⟨7, 7⟩ 5 2 []
    .joint_miter .cap_joint rfl⟩

theorem run_append_ok (env : environment) (ops₁ ops₂ : List operation) :
    ∀ s s₁ s₂ : buffer, s.run env ops₁ = .ok s₁ → s₁.run env ops₂ = .ok s₂ →
      s.run env (ops₁ ++ ops₂) = .ok s₂ := by
  induction ops₁ with
  | nil =>
    intro s s₁ s₂ h₁ h₂
    cases h₁
    exact h₂
  | cons op ops ih =>
    intro s s₁ s₂ h₁ h₂
    cases ha : s.apply env op with
    | error e =>
      simp only [buffer.run, ha] at h₁
      cases h₁
    | ok t =>
      rw [run_cons_ok env s t op ops ha] at h₁
      rw [List.cons_append, run_cons_ok env s t op (ops ++ ops₂) ha]
      exact ih t s₁ s₂ h₁ h₂

theorem forall₂_left_of {α β : Type} {R : α → β → Prop} {P : α → Prop} {l₁ : List α}
    {l₂ : List β} (h : List.Forall₂ R l₁ l₂) (hp : ∀ a b, R a b → P a) : ∀ a ∈ l₁, P a := by
  induction h with
  | nil => intro a ha; cases ha
  | cons hab _ ih =>
    intro a ha
    rcases List.mem_cons.mp ha with rfl | ha
    · exact hp _ _ hab
    · exact ih a ha

theorem forall₂_mem_imp {α β : Type} {R S : α → β → Prop} {l₁ : List α} {l₂ : List β}
    (h : List.Forall₂ R l₁ l₂) (hs : ∀ a b, a ∈ l₁ → R a b → S a b) :
    List.Forall₂ S l₁ l₂ := by
  induction h with
  | nil => exact List.Forall₂.nil
  | cons hab _ ih =>
    exact List.Forall₂.cons (hs _ _ (List.mem_cons_self _ _) hab)
      (ih fun a b ha => hs a b (List.mem_cons_of_mem _ ha))

/-- C19: with a last batch of list topology `t` and a null handle and no split pending,
`add_vertices(vs, t)` with the null handle and a non-empty `vs` merges without any
bridging vertex: the number of batches is unchanged, the last batch grows by exactly
`|vs|`, and the vertex stream becomes the prior vertices followed by `vs`. Two consecutive
`draw_line` calls on a fresh buffer give one LINELIST batch of 4 vertices. -/
theorem C19_list_topologies_merge_plainly (env : environment) (s : buffer) (bs : List batch)
    (p : batch) (vs : List vertex) (t : D3D_PRIMITIVE_TOPOLOGY) (col : color_rgba)
    (hb : s.get_batches = bs ++ [p])
    (ht : t = .POINTLIST ∨ t = .LINELIST ∨ t = .TRIANGLELIST)
    (hty : p.type = t) (hrv : p.rv = none) (hs : s.split_batch_ = false) (hvs : vs ≠ []) :
    (∃ s', s.add_vertices vs t none col = .ok s' ∧
      s'.get_batches.length = s.get_batches.length ∧
      s'.get_batches = bs ++ [{ p with size := p.size + vs.length, color := col,
                                       command := s.active_command }] ∧
      s'.get_vertices = s.get_vertices ++ vs) ∧
    (∀ (a b c d : vec2) (c₁ c₂ : color_rgba),
      ∃ s', buffer.fresh.run env [.draw_line a b c₁, .draw_line c d c₂] = .ok s' ∧
        s'.get_batches = [{ size := 4, type := .LINELIST, rv := none,
                            color := env.default_color, command := command.initial }] ∧
        s'.get_vertices = [vertex.of_xy a.x a.y c₁ 0 0, vertex.of_xy b.x b.y c₁ 0 0,
          vertex.of_xy c.x c.y c₂ 0 0, vertex.of_xy d.x d.y c₂ 0 0]) := by
  constructor
  · obtain ⟨v, vs', rfl⟩ := List.exists_cons_of_ne_nil hvs
    have hb' : s.batches_ = bs ++ [p] := hb
    have hnm : t.never_merged = false := by
      rcases ht with rfl | rfl | rfl <;> rfl
    have hts : t ≠ .TRIANGLESTRIP := by
      rcases ht with rfl | rfl | rfl <;> simp
    refine ⟨_, add_vertices_merge s v vs' t col bs p hb' hs hty hrv hnm hts, ?_, ?_, rfl⟩
    · simp [buffer.get_batches, buffer.with_grown_batch, hb']
    · cases p
      simp only at hrv
      simp [buffer.get_batches, buffer.with_grown_batch, hrv]
  · intro a b c d c₁ c₂
    exact ⟨_, rfl, rfl, rfl⟩

theorem C19_list_topologies_merge_plainly_witness :
    ∃ s', sample_points.add_vertices [other_vertex, sample_vertex] .POINTLIST none
        ⟨0, 0, 0, 255⟩ = .ok s' ∧
      s'.get_batches.length = sample_points.get_batches.length ∧
      s'.get_batches = [] ++
        [⟨1 + [other_vertex, sample_vertex].length, .POINTLIST, none, ⟨0, 0, 0, 255⟩,
          sample_points.active_command⟩] ∧
      s'.get_vertices = sample_points.get_vertices ++ [other_vertex, sample_vertex] :=
  (C19_list_topologies_merge_plainly sample_environment sample_points []
    ⟨1, .POINTLIST, none, ⟨255, 255, 255, 255⟩, command.initial⟩ [other_vertex, sample_vertex]
    .POINTLIST ⟨0, 0, 0, 255⟩ rfl (Or.inl rfl) rfl rfl rfl (by simp)).1

/-- Batches whose sizes sum to the length of a stream cut it into consecutive runs of
their sizes. -/
theorem batch_runs_partition {α : Type} (bs : List batch) :
    ∀ xs : List α, (bs.map batch.size).sum = xs.length →
      (batch_runs bs xs).flatten = xs ∧
      List.Forall₂ (fun b run => run.length = b.size) bs (batch_runs bs xs) := by
  induction bs with
  | nil =>
    intro xs h
    have : xs = [] := by
      apply List.eq_nil_of_length_eq_zero
      simpa using h.symm
    subst this
    exact ⟨rfl, List.Forall₂.nil⟩
  | cons b bs ih =>
    intro xs h
    simp only [List.map_cons, List.sum_cons] at h
    have hle : b.size ≤ xs.length := by omega
    obtain ⟨h₁, h₂⟩ := ih (xs.drop b.size) (by rw [List.length_drop]; omega)
    refine ⟨?_, List.Forall₂.cons ?_ h₂⟩
    · simp only [batch_runs, List.flatten_cons, h₁, List.take_append_drop]
    · simp only [List.length_take]
      omega

/-- No public call on a consistent buffer runs into undefined behaviour. -/
theorem apply_defined (env : environment) (s : buffer) (h : s.consistent) (op : operation) :
    s.apply env op ≠ .error .undefined_behaviour := by
  have key : ∀ r : Except fault buffer, (∃ t, r = .ok t ∧ t.consistent ∧ t.same_state s) →
      r ≠ .error .undefined_behaviour := by
    rintro r ⟨t, rfl, -, -⟩ e
    cases e
  cases op with
  | clear => intro e; cases e
  | add_vertices vertices type rv col =>
    exact key _ (add_vertices_consistent s h vertices type rv col)
  | draw_polyline points col thickness joint cap =>
    exact key _ (draw_polyline_consistent env s h points col thickness joint cap)
  | draw_point pos col => exact key _ (draw_point_consistent env s h pos col)
  | draw_line start finish col => exact key _ (draw_line_consistent env s h start finish col)
  | draw_rect rect col thickness => exact key _ (draw_rect_consistent env s h rect col thickness)
  | draw_rect_filled rect col => exact key _ (draw_rect_filled_consistent env s h rect col)
  | draw_textured_quad rect rv col => exact key _ (draw_textured_quad_consistent s h rect rv col)
  | draw_circle pos radius col thickness segments =>
    exact key _ (draw_circle_consistent env s h pos radius col thickness segments)
  | draw_circle_filled pos radius col segments =>
    exact key _ (draw_circle_filled_consistent env s h pos radius col segments)
  | draw_glyph pos g col => exact key _ (draw_glyph_consistent s h pos g col)
  | draw_text pos text font_id col h_align v_align =>
    exact key _ (draw_text_consistent env font_id col h_align v_align text s pos h)
  | push_scissor bounds in_ round => intro e; cases e
  | pop_scissor =>
    simp only [buffer.apply, buffer.pop_scissor]
    split <;> intro e <;> cases e
  | push_key color => intro e; cases e
  | pop_key =>
    simp only [buffer.apply, buffer.pop_key]
    split <;> intro e <;> cases e
  | push_blur strength => intro e; cases e
  | pop_blur =>
    simp only [buffer.apply, buffer.pop_blur]
    split <;> intro e <;> cases e

/-- C20: after every sequence of public operations from a fresh buffer the batch sizes
sum to the number of stored vertices and every batch has size at least 1, so the batches
cut the vertex stream into consecutive non-empty runs; a buffer with a batch has a last
stored vertex, `add_vertices` always returns, and no public call runs into an undefined
read. -/
theorem C20_batches_partition_vertices (env : environment) (s : buffer)
    (h : s.reachable env) :
    (s.get_batches.map batch.size).sum = s.get_vertices.length ∧
    (∀ b ∈ s.get_batches, 1 ≤ b.size) ∧
    (batch_runs s.get_batches s.get_vertices).flatten = s.get_vertices ∧
    List.Forall₂ (fun b run => run.length = b.size ∧ run ≠ [])
      s.get_batches (batch_runs s.get_batches s.get_vertices) ∧
    (s.get_batches ≠ [] → s.get_vertices ≠ []) ∧
    (∀ (vs : List vertex) (t : D3D_PRIMITIVE_TOPOLOGY) (rv : Option Nat) (col : color_rgba),
      ∃ s', s.add_vertices vs t rv col = .ok s' ∧ s'.reachable env) ∧
    (∀ op : operation, s.apply env op ≠ .error .undefined_behaviour) := by
  have hc := reachable_consistent env s h
  obtain ⟨-, hsum, hruns⟩ := reachable_runs env s h
  have hpos : ∀ b ∈ s.batches_, 1 ≤ b.size :=
    forall₂_left_of hruns fun b _ hr => Nat.one_le_iff_ne_zero.mpr hr.2.1
  obtain ⟨hflat, hlen⟩ := batch_runs_partition s.batches_ s.vertices_ hsum
  refine ⟨hsum, hpos, hflat, ?_, ?_, ?_, apply_defined env s hc⟩
  · refine forall₂_mem_imp hlen fun b run hb hl => ⟨hl, fun hnil => ?_⟩
    have hp := hpos b hb
    rw [hnil] at hl
    simp only [List.length_nil] at hl
    omega
  · intro hne hnil
    rcases List.eq_nil_or_concat s.batches_ with hb | ⟨bs, p, hb⟩
    · exact hne hb
    · obtain ⟨-, ws, back, hv⟩ := batches_ok_last s hc.1 bs p (by simpa using hb)
      have hv' : s.vertices_ = [] := hnil
      rw [hv] at hv'
      simp at hv'
  · intro vs t rv col
    obtain ⟨s', e, -, -⟩ := add_vertices_consistent s hc vs t rv col
    obtain ⟨ops, hops⟩ := h
    refine ⟨s', e, ops ++ [.add_vertices vs t rv col], ?_⟩
    exact run_append_ok env ops [.add_vertices vs t rv col] buffer.fresh s s' hops
      (by simp only [buffer.run, buffer.apply, e])

theorem C20_batches_partition_vertices_witness :
    ∃ s, buffer.fresh.run sample_environment sample_scene = .ok s ∧
      (s.get_batches.map batch.size).sum = s.get_vertices.length ∧
      (∀ b ∈ s.get_batches, 1 ≤ b.size) ∧
      (batch_runs s.get_batches s.get_vertices).flatten = s.get_vertices :=
  ⟨_, rfl, (C20_batches_partition_vertices sample_environment _ ⟨sample_scene, rfl⟩).1,
    (C20_batches_partition_vertices sample_environment _ ⟨sample_scene, rfl⟩).2.1,
    (C20_batches_partition_vertices sample_environment _ ⟨sample_scene, rfl⟩).2.2.1⟩

/-! ## Glyph quads -/

theorem draw_textured_quad_eq (s : buffer) (h : s.batches_ok) (rect : vec4)
    (rv : Option Nat) (col : color_rgba) :
    s.draw_textured_quad rect rv col = .ok (s.with_textured_quad rect rv col) := by
  have h₁ : buffer.batches_ok { s with
      split_batch_ := true, active_command := { s.active_command with textured := true } } :=
    ⟨h.history_length, h.runs, fun hf => by simp at hf⟩
  have e := add_vertices_opens _ h₁ (vertex.of_xy rect.x rect.y col 0 0)
    [vertex.of_xy (rect.x + rect.z) rect.y col 1 0,
     vertex.of_xy rect.x (rect.y + rect.w) col 0 1,
     vertex.of_xy (rect.x + rect.z) (rect.y + rect.w) col 1 1] .TRIANGLESTRIP rv col
    (Or.inr (Or.inl rfl))
  simp only [buffer.draw_textured_quad, e]
  rfl

theorem with_textured_quad_consistent (s : buffer) (h : s.consistent) (rect : vec4)
    (rv : Option Nat) (col : color_rgba) :
    (s.with_textured_quad rect rv col).consistent ∧
    (s.with_textured_quad rect rv col).active_command = s.active_command := by
  obtain ⟨s', e, hc, hst⟩ := draw_textured_quad_consistent s h rect rv col
  rw [draw_textured_quad_eq s h.1 rect rv col] at e
  cases e
  exact ⟨hc, hst.2.2.2⟩

theorem text_quad_rect_succ (env : environment) (font_id : Nat) (pos : vec2) (c : Char)
    (cs : List Char) (i : Nat) :
    text_quad_rect env font_id pos (c :: cs) (i + 1) =
      text_quad_rect env font_id
        { pos with x := pos.x + ((env.get_font_glyph font_id c).advance : ℚ) / 64 } cs i := by
  simp only [text_quad_rect, List.getD_cons_succ, List.take_succ_cons, List.map_cons,
    List.sum_cons, add_assoc]

/-- What `draw_text` appends on a consistent buffer: one textured quad and one batch for
each drawn character. -/
theorem draw_text_quads (env : environment) (font_id : Nat) (col : color_rgba)
    (h_align v_align : text_align) (cs : List Char) :
    ∀ (s : buffer) (pos : vec2), s.consistent →
      (∀ c ∈ cs, ¬ (isprint c = false ∨ c = ' ')) →
      ∃ s', s.draw_text env pos cs font_id col h_align v_align = .ok s' ∧
        s'.consistent ∧ s'.active_command = s.active_command ∧
        s'.batches_ = s.batches_ ++ cs.map (fun c =>
          { size := 4, type := .TRIANGLESTRIP, rv := (env.get_font_glyph font_id c).rv,
            color := col, command := { s.active_command with textured := true } }) ∧
        s'.vertices_ = s.vertices_ ++ (List.range cs.length).flatMap (fun i =>
          textured_quad_vertices (text_quad_rect env font_id pos cs i) col) := by
  induction cs with
  | nil =>
    intro s pos h _
    exact ⟨s, rfl, h, rfl, by simp, by simp⟩
  | cons c rest ih =>
    intro s pos h hall
    have hc := hall c (List.mem_cons_self _ _)
    have e₁ := draw_textured_quad_eq s h.1
      ⟨pos.x + (env.get_font_glyph font_id c).bearing.x,
       pos.y + (env.get_font_glyph font_id c).bearing.y,
       (env.get_font_glyph font_id c).size.x, (env.get_font_glyph font_id c).size.y⟩
      (env.get_font_glyph font_id c).rv col
    obtain ⟨hc₁, ha₁⟩ := with_textured_quad_consistent s h
      ⟨pos.x + (env.get_font_glyph font_id c).bearing.x,
       pos.y + (env.get_font_glyph font_id c).bearing.y,
       (env.get_font_glyph font_id c).size.x, (env.get_font_glyph font_id c).size.y⟩
      (env.get_font_glyph font_id c).rv col
    obtain ⟨s', e₂, hc₂, ha₂, hb₂, hv₂⟩ := ih _
      { pos with x := pos.x + ((env.get_font_glyph font_id c).advance : ℚ) / 64 } hc₁
      (fun d hd => hall d (List.mem_cons_of_mem _ hd))
    refine ⟨s', ?_, hc₂, ha₂.trans ha₁, ?_, ?_⟩
    · rw [draw_text_glyph env s pos c rest font_id col h_align v_align hc]
      simp only [buffer.draw_glyph, e₁, e₂]
    · rw [hb₂, ha₁]
      simp [buffer.with_textured_quad]
    · rw [hv₂]
      simp only [buffer.with_textured_quad, List.length_cons, List.range_succ_eq_map,
        List.flatMap_cons, List.flatMap_map, Function.comp_def, text_quad_rect_succ,
        List.append_assoc]
      congr 2
      simp [text_quad_rect]

theorem length_flatMap_of_length {α β : Type} (f : α → List β) (n : Nat)
    (hf : ∀ a, (f a).length = n) (l : List α) : (l.flatMap f).length = n * l.length := by
  induction l with
  | nil => rfl
  | cons a l ih =>
    rw [List.flatMap_cons, List.length_append, hf a, ih, List.length_cons, Nat.mul_succ,
      Nat.add_comm]

/-- C15: on a reachable buffer, for a string whose drawn characters are `c1..ck`,
`draw_text` returns and appends exactly `k` textured quads: `k` batches, each a
TRIANGLESTRIP batch of 4 vertices with that glyph's texture handle, the color and a
command with `textured` set, and `4k` vertices; the quad of index `i` is the quad of the
rectangle `text_quad_rect`, with the texture coordinates (0,0), (1,0), (0,1), (1,1). -/
theorem C15_one_textured_quad_per_glyph (env : environment) (s : buffer) (pos : vec2)
    (text : List Char) (font_id : Nat) (col : color_rgba) (h_align v_align : text_align)
    (h : s.reachable env) :
    (∃ s', s.draw_text env pos text font_id col h_align v_align = .ok s' ∧
      s'.get_batches.length = s.get_batches.length + (drawn_characters text).length ∧
      s'.get_vertices.length = s.get_vertices.length + 4 * (drawn_characters text).length ∧
      s'.get_batches = s.get_batches ++ (drawn_characters text).map (fun c =>
        { size := 4, type := .TRIANGLESTRIP, rv := (env.get_font_glyph font_id c).rv,
          color := col, command := { s.active_command with textured := true } }) ∧
      s'.get_vertices = s.get_vertices ++
        (List.range (drawn_characters text).length).flatMap (fun i =>
          textured_quad_vertices
            (text_quad_rect env font_id pos (drawn_characters text) i) col)) ∧
    (∀ rect : vec4,
      (textured_quad_vertices rect col).map vertex.uv =
        [⟨0, 0⟩, ⟨1, 0⟩, ⟨0, 1⟩, ⟨1, 1⟩] ∧
      (textured_quad_vertices rect col).map vertex.pos =
        [⟨rect.x, rect.y, 0⟩, ⟨rect.x + rect.z, rect.y, 0⟩, ⟨rect.x, rect.y + rect.w, 0⟩,
          ⟨rect.x + rect.z, rect.y + rect.w, 0⟩]) := by
  constructor
  · have hall : ∀ c ∈ drawn_characters text, ¬ (isprint c = false ∨ c = ' ') := by
      intro c hc
      have := (List.mem_filter.mp hc).2
      simpa only [decide_eq_true_eq] using this
    obtain ⟨s', e, -, -, hb, hv⟩ := draw_text_quads env font_id col h_align v_align
      (drawn_characters text) s pos (reachable_consistent env s h) hall
    refine ⟨s', ?_, ?_, ?_, hb, hv⟩
    · rw [draw_text_drawn_characters]
      exact e
    · simp only [buffer.get_batches, hb, List.length_append, List.length_map]
    · simp only [buffer.get_vertices, hv, List.length_append]
      rw [length_flatMap_of_length
        (fun i => textured_quad_vertices
          (text_quad_rect env font_id pos (drawn_characters text) i) col) 4 (fun _ => rfl),
        List.length_range]
  · intro rect
    exact ⟨rfl, rfl⟩

theorem C15_one_textured_quad_per_glyph_witness :
    ∃ s, buffer.fresh.run sample_environment sample_scene = .ok s ∧
      ∃ s', s.draw_text sample_environment ⟨25, 60⟩ spaced_text 0 ⟨255, 255, 255, 255⟩
          .align_left .align_top = .ok s' ∧
        s'.get_batches.length = s.get_batches.length + (drawn_characters spaced_text).length ∧
        s'.get_vertices.length =
          s.get_vertices.length + 4 * (drawn_characters spaced_text).length ∧
        (drawn_characters spaced_text).length = 2 :=
  ⟨_, rfl,
    (C15_one_textured_quad_per_glyph sample_environment _ ⟨25, 60⟩ spaced_text 0
      ⟨255, 255, 255, 255⟩ .align_left .align_top ⟨sample_scene, rfl⟩).1.imp
      fun _ hs => ⟨hs.1, hs.2.1, hs.2.2.1, by decide⟩⟩

/-! ## Filled circles -/

theorem draw_circle_filled_eq (env : environment) (s : buffer) (pos : vec2) (radius : ℚ)
    (col : color_rgba) (segments : Nat) :
    s.draw_circle_filled env pos radius col segments =
      s.add_vertices (circle_filled_vertices env pos radius col segments) .TRIANGLELIST none
        env.default_color := rfl

theorem quarter_turn_points :
    circle_point quarter_turn_environment ⟨-50, 0⟩ 50 4 0 = ⟨0, 0⟩ ∧
    circle_point quarter_turn_environment ⟨-50, 0⟩ 50 4 1 = ⟨-50, 50⟩ ∧
    circle_point quarter_turn_environment ⟨-50, 0⟩ 50 4 2 = ⟨-100, 0⟩ ∧
    circle_point quarter_turn_environment ⟨-50, 0⟩ 50 4 3 = ⟨-50, -50⟩ := by
  refine ⟨?_, ?_, ?_, ?_⟩ <;>
    norm_num [circle_point, quarter_turn_environment]

theorem quarter_turn_vertices (col : color_rgba) :
    circle_filled_vertices quarter_turn_environment ⟨-50, 0⟩ 50 col 4 =
      [vertex.of_vec2 ⟨-50, 50⟩ col 0 0, vertex.of_vec2 ⟨-100, 0⟩ col 0 0,
       vertex.of_vec2 ⟨-50, 0⟩ col 0 0,
       vertex.of_vec2 ⟨-100, 0⟩ col 0 0, vertex.of_vec2 ⟨-50, -50⟩ col 0 0,
       vertex.of_vec2 ⟨-50, 0⟩ col 0 0,
       vertex.of_vec2 ⟨-50, -50⟩ col 0 0, vertex.of_vec2 ⟨0, 0⟩ col 0 0,
       vertex.of_vec2 ⟨-50, 0⟩ col 0 0] := by
  obtain ⟨h₀, h₁, h₂, h₃⟩ := quarter_turn_points
  simp only [circle_filled_vertices, List.range_succ, List.range_zero, List.nil_append,
    List.cons_append, List.foldl_cons, List.foldl_nil, circle_filled_step, h₀, h₁, h₂, h₃]
  norm_num

/-- C16, the code at the failing input: for the center (-50, 0), radius 50 and 4 segments
the tessellation points are (0,0), (-50,50), (-100,0), (-50,-50); `draw_circle_filled`
appends 9 vertices, the triangles (p1, p2, pos), (p2, p3, pos), (p3, p0, pos), and not the
12 of the claim: the triangle (p0, p1, pos) is missing because p0 is the zero vector. -/
theorem C16_zero_point_drops_a_triangle (col : color_rgba) :
    ∃ s, buffer.fresh.draw_circle_filled quarter_turn_environment ⟨-50, 0⟩ 50 col 4 = .ok s ∧
      s.get_vertices.length = 9 ∧
      s.get_batches.map batch.size = [9] ∧
      s.get_vertices =
        [vertex.of_vec2 ⟨-50, 50⟩ col 0 0, vertex.of_vec2 ⟨-100, 0⟩ col 0 0,
         vertex.of_vec2 ⟨-50, 0⟩ col 0 0,
         vertex.of_vec2 ⟨-100, 0⟩ col 0 0, vertex.of_vec2 ⟨-50, -50⟩ col 0 0,
         vertex.of_vec2 ⟨-50, 0⟩ col 0 0,
         vertex.of_vec2 ⟨-50, -50⟩ col 0 0, vertex.of_vec2 ⟨0, 0⟩ col 0 0,
         vertex.of_vec2 ⟨-50, 0⟩ col 0 0] := by
  rw [draw_circle_filled_eq, quarter_turn_vertices]
  exact ⟨_, rfl, rfl, rfl, rfl⟩

/-! ## The marks of `draw_circle` -/

theorem draw_rect_filled_eq (env : environment) (s : buffer) (rect : vec4)
    (col : color_rgba) :
    s.draw_rect_filled env rect col =
      s.add_vertices (rect_filled_vertices rect col) .TRIANGLESTRIP none env.default_color :=
  rfl

theorem draw_circle_marks_cons (env : environment) (s s₁ : buffer) (point : vec2)
    (rest : List vec2)
    (e : s.add_vertices (marker_quad env point) .TRIANGLESTRIP none env.default_color =
      .ok s₁) :
    s.draw_circle_marks env (point :: rest) = s₁.draw_circle_marks env rest := by
  have e' : s.draw_rect_filled env ⟨point.x - 1, point.y - 1, 3, 3⟩ env.COLOR_RED = .ok s₁ := e
  simp only [buffer.draw_circle_marks, e']

/-- Every quad around a point of `points` lies in `stitched_marks` as a run of consecutive
vertices. -/
theorem marker_quad_infix_stitched (env : environment) (points : List vec2) :
    ∀ back : vertex, ∀ p ∈ points,
      marker_quad env p <:+: stitched_marks env back points := by
  induction points with
  | nil => intro _ p hp; cases hp
  | cons q qs ih =>
    intro back p hp
    rcases List.mem_cons.mp hp with rfl | hp
    · exact ⟨[back, marker_first env p], stitched_marks env (marker_last env p) qs, by
        simp [stitched_marks]⟩
    · obtain ⟨l₁, l₂, hl⟩ := ih (marker_last env q) p hp
      exact ⟨back :: marker_first env q :: (marker_quad env q ++ l₁), l₂, by
        simp [stitched_marks, ← hl]⟩

/-- On a buffer whose last batch is a TRIANGLESTRIP batch with a null handle and no split
pending, the loop of `draw_circle` stitches every quad onto that batch. -/
theorem draw_circle_marks_stitched (env : environment) (points : List vec2) :
    ∀ (s : buffer) (bs : List batch) (b : batch) (ws : List vertex) (back : vertex),
      s.batches_ok → s.batches_ = bs ++ [b] → b.type = .TRIANGLESTRIP → b.rv = none →
      s.split_batch_ = false → s.vertices_ = ws ++ [back] →
      ∃ s' b', s.draw_circle_marks env points = .ok s' ∧
        s'.vertices_ = s.vertices_ ++ stitched_marks env back points ∧
        s'.batches_ = bs ++ [b'] ∧ b'.type = .TRIANGLESTRIP ∧ b'.rv = none := by
  induction points with
  | nil =>
    intro s bs b ws back _ hb hty hrv _ _
    exact ⟨s, b, rfl, by simp [stitched_marks], hb, hty, hrv⟩
  | cons p ps ih =>
    intro s bs b ws back h hb hty hrv hs hv
    have e := add_vertices_stitch s (vertex.of_xy (p.x - 1) (p.y - 1) env.COLOR_RED 0 0)
      [vertex.of_xy (p.x - 1 + 3) (p.y - 1) env.COLOR_RED 0 0,
       vertex.of_xy (p.x - 1) (p.y - 1 + 3) env.COLOR_RED 0 0,
       vertex.of_xy (p.x - 1 + 3) (p.y - 1 + 3) env.COLOR_RED 0 0]
      env.default_color bs b hb ws back hv hs hty hrv
    have h₂ := batches_ok_with_grown_batch s h bs b hb hs hrv back
      [vertex.of_xy (p.x - 1) (p.y - 1) env.COLOR_RED 0 0,
       vertex.of_xy (p.x - 1) (p.y - 1) env.COLOR_RED 0 0,
       vertex.of_xy (p.x - 1 + 3) (p.y - 1) env.COLOR_RED 0 0,
       vertex.of_xy (p.x - 1) (p.y - 1 + 3) env.COLOR_RED 0 0,
       vertex.of_xy (p.x - 1 + 3) (p.y - 1 + 3) env.COLOR_RED 0 0] env.default_color
    obtain ⟨s', b', e', hv', hb', hty', hrv'⟩ := ih _ bs _
      (s.vertices_ ++ [back, vertex.of_xy (p.x - 1) (p.y - 1) env.COLOR_RED 0 0,
        vertex.of_xy (p.x - 1) (p.y - 1) env.COLOR_RED 0 0,
        vertex.of_xy (p.x - 1 + 3) (p.y - 1) env.COLOR_RED 0 0,
        vertex.of_xy (p.x - 1) (p.y - 1 + 3) env.COLOR_RED 0 0])
      (marker_last env p) h₂ rfl hty rfl hs (by simp [buffer.with_grown_batch, marker_last])
    refine ⟨s', b', ?_, ?_, hb', hty', hrv'⟩
    · rw [draw_circle_marks_cons env s _ p ps e]
      exact e'
    · rw [hv']
      simp [buffer.with_grown_batch, stitched_marks, marker_quad, marker_first,
        rect_filled_vertices]

theorem marker_quad_corners (env : environment) (p : vec2) :
    marker_quad env p =
      [vertex.of_xy (p.x - 1) (p.y - 1) env.COLOR_RED 0 0,
       vertex.of_xy (p.x + 2) (p.y - 1) env.COLOR_RED 0 0,
       vertex.of_xy (p.x - 1) (p.y + 2) env.COLOR_RED 0 0,
       vertex.of_xy (p.x + 2) (p.y + 2) env.COLOR_RED 0 0] ∧
    ∀ v ∈ marker_quad env p, v.col = env.COLOR_RED := by
  have hx : p.x - 1 + 3 = p.x + 2 := by ring
  have hy : p.y - 1 + 3 = p.y + 2 := by ring
  constructor
  · simp only [marker_quad, rect_filled_vertices, hx, hy]
  · intro v hv
    simp only [marker_quad, rect_filled_vertices, List.mem_cons, List.mem_singleton,
      List.not_mem_nil, or_false] at hv
    rcases hv with rfl | rfl | rfl | rfl <;> rfl

/-- What the loop of `draw_circle` appends to a consistent buffer for a non-empty list of
points: the first quad either opens a new batch or is stitched onto the last batch, every
further quad is stitched. -/
theorem draw_circle_marks_appended (env : environment) (s : buffer) (h : s.batches_ok)
    (p : vec2) (ps : List vec2) :
    ∃ s' b', s.draw_circle_marks env (p :: ps) = .ok s' ∧
      s'.batches_.getLast? = some b' ∧ b'.type = .TRIANGLESTRIP ∧ b'.rv = none ∧
      ((s'.vertices_ = s.vertices_ ++ marker_quad env p ++
            stitched_marks env (marker_last env p) ps ∧
          s'.batches_.length = s.batches_.length + 1) ∨
       (∃ back, s.vertices_.getLast? = some back ∧
          s'.vertices_ = s.vertices_ ++ stitched_marks env back (p :: ps) ∧
          s'.batches_.length = s.batches_.length)) := by
  rcases add_vertices_cases s h (vertex.of_xy (p.x - 1) (p.y - 1) env.COLOR_RED 0 0)
      [vertex.of_xy (p.x - 1 + 3) (p.y - 1) env.COLOR_RED 0 0,
       vertex.of_xy (p.x - 1) (p.y - 1 + 3) env.COLOR_RED 0 0,
       vertex.of_xy (p.x - 1 + 3) (p.y - 1 + 3) env.COLOR_RED 0 0]
      .TRIANGLESTRIP none env.default_color with
    e | ⟨bs, b, hb, hs, hty, -, hrv, -, ⟨hne, -⟩ | ⟨-, ws, back, hv, -⟩⟩
  · have h₂ := batches_ok_with_new_batch s h
      (vertex.of_xy (p.x - 1) (p.y - 1) env.COLOR_RED 0 0)
      [vertex.of_xy (p.x - 1 + 3) (p.y - 1) env.COLOR_RED 0 0,
       vertex.of_xy (p.x - 1) (p.y - 1 + 3) env.COLOR_RED 0 0,
       vertex.of_xy (p.x - 1 + 3) (p.y - 1 + 3) env.COLOR_RED 0 0]
      .TRIANGLESTRIP none env.default_color
    obtain ⟨s', b', e', hv', hb', hty', hrv'⟩ := draw_circle_marks_stitched env ps _
      s.batches_ _
      (s.vertices_ ++ [vertex.of_xy (p.x - 1) (p.y - 1) env.COLOR_RED 0 0,
        vertex.of_xy (p.x - 1 + 3) (p.y - 1) env.COLOR_RED 0 0,
        vertex.of_xy (p.x - 1) (p.y - 1 + 3) env.COLOR_RED 0 0])
      (marker_last env p) h₂ rfl rfl rfl rfl (by simp [buffer.with_new_batch, marker_last])
    refine ⟨s', b', ?_, by rw [hb']; simp, hty', hrv', Or.inl ⟨?_, by rw [hb']; simp⟩⟩
    · rw [draw_circle_marks_cons env s _ p ps e]
      exact e'
    · rw [hv']
      simp [buffer.with_new_batch, marker_quad, rect_filled_vertices]
  · exact absurd rfl hne
  · obtain ⟨s', b', e', hv', hb', hty', hrv'⟩ := draw_circle_marks_stitched env (p :: ps) s
      bs b ws back h hb hty hrv hs hv
    refine ⟨s', b', e', by rw [hb']; simp, hty', hrv', Or.inr ⟨back, ?_, hv', ?_⟩⟩
    · rw [hv]
      simp
    · rw [hb', hb]
      simp

/-- C21: on a reachable buffer `draw_circle` returns; after the N tessellation points
have gone to `draw_polyline` in the requested color it appends, for every tessellation
point `p` in order, the TRIANGLESTRIP quad with the corners (p.x-1, p.y-1), (p.x+2, p.y-1),
(p.x-1, p.y+2), (p.x+2, p.y+2) in `COLOR_RED`, whatever `col` is: the first quad opens a
new batch or is stitched onto the last batch, every further quad is stitched onto the
same batch, each stitch putting its two bridging vertices before the quad. With
segments = 0 nothing is appended after `draw_polyline`. -/
theorem C21_circle_marks_are_red_quads (env : environment) (s : buffer) (pos : vec2)
    (radius : ℚ) (col : color_rgba) (thickness : ℚ) (segments : Nat)
    (h : s.reachable env) :
    ∃ s₁ s',
      s.draw_polyline env ((List.range segments).map (circle_point env pos radius segments))
        col thickness .joint_miter .cap_joint = .ok s₁ ∧
      s.draw_circle env pos radius col thickness segments = .ok s' ∧
      ((List.range segments).map (circle_point env pos radius segments)).length = segments ∧
      (segments = 0 → s' = s₁) ∧
      (∀ p ps, (List.range segments).map (circle_point env pos radius segments) = p :: ps →
        (∃ b', s'.get_batches.getLast? = some b' ∧ b'.type = .TRIANGLESTRIP ∧ b'.rv = none) ∧
        ((s'.get_vertices = s₁.get_vertices ++ marker_quad env p ++
              stitched_marks env (marker_last env p) ps ∧
            s'.get_batches.length = s₁.get_batches.length + 1) ∨
         (∃ back, s₁.get_vertices.getLast? = some back ∧
            s'.get_vertices = s₁.get_vertices ++ stitched_marks env back (p :: ps) ∧
            s'.get_batches.length = s₁.get_batches.length))) ∧
      (∀ p ∈ (List.range segments).map (circle_point env pos radius segments),
        marker_quad env p <:+: s'.get_vertices.drop s₁.get_vertices.length) ∧
      (∀ p : vec2,
        marker_quad env p =
          [vertex.of_xy (p.x - 1) (p.y - 1) env.COLOR_RED 0 0,
           vertex.of_xy (p.x + 2) (p.y - 1) env.COLOR_RED 0 0,
           vertex.of_xy (p.x - 1) (p.y + 2) env.COLOR_RED 0 0,
           vertex.of_xy (p.x + 2) (p.y + 2) env.COLOR_RED 0 0] ∧
        ∀ v ∈ marker_quad env p, v.col = env.COLOR_RED) := by
  obtain ⟨s₁, e₁, hc₁, -⟩ := draw_polyline_consistent env s (reachable_consistent env s h)
    ((List.range segments).map (circle_point env pos radius segments)) col thickness
    .joint_miter .cap_joint
  have hcircle : s.draw_circle env pos radius col thickness segments =
      s₁.draw_circle_marks env
        ((List.range segments).map (circle_point env pos radius segments)) := by
    simp only [buffer.draw_circle, e₁]
  cases hpts : (List.range segments).map (circle_point env pos radius segments) with
  | nil =>
    refine ⟨s₁, s₁, by rw [← hpts]; exact e₁, by rw [hcircle, hpts]; rfl, ?_, fun _ => rfl,
      ?_, ?_, marker_quad_corners env⟩
    · have hlen := congrArg List.length hpts
      simp only [List.length_map, List.length_range, List.length_nil, List.length_cons] at hlen
      simp only [List.length_nil, List.length_cons]
      omega
    · intro p ps hp
      cases hp
    · intro p hp
      cases hp
  | cons q qs =>
    obtain ⟨s', b', e', hlast, hty, hrv, hcases⟩ := draw_circle_marks_appended env s₁ hc₁.1 q qs
    refine ⟨s₁, s', by rw [← hpts]; exact e₁, by rw [hcircle, hpts]; exact e', ?_, ?_, ?_, ?_,
      marker_quad_corners env⟩
    · have hlen := congrArg List.length hpts
      simp only [List.length_map, List.length_range, List.length_nil, List.length_cons] at hlen
      simp only [List.length_nil, List.length_cons]
      omega
    · intro h0
      subst h0
      simp at hpts
    · intro p ps hp
      obtain ⟨rfl, rfl⟩ := List.cons.inj hp
      exact ⟨⟨b', hlast, hty, hrv⟩, hcases⟩
    · intro p hp
      rcases hcases with ⟨hv, -⟩ | ⟨back, -, hv, -⟩
      · have hdrop : s'.get_vertices.drop s₁.get_vertices.length =
            marker_quad env q ++ stitched_marks env (marker_last env q) qs := by
          show s'.vertices_.drop s₁.vertices_.length = _
          rw [hv, List.append_assoc, List.drop_left]
        rw [hdrop]
        rcases List.mem_cons.mp hp with rfl | hp
        · exact ⟨[], stitched_marks env (marker_last env p) qs, by simp⟩
        · obtain ⟨l₁, l₂, hl⟩ := marker_quad_infix_stitched env qs (marker_last env q) p hp
          exact ⟨marker_quad env q ++ l₁, l₂, by simp [← hl]⟩
      · have hdrop : s'.get_vertices.drop s₁.get_vertices.length =
            stitched_marks env back (q :: qs) := by
          show s'.vertices_.drop s₁.vertices_.length = _
          rw [hv, List.drop_left]
        rw [hdrop]
        exact marker_quad_infix_stitched env (q :: qs) back p hp

theorem C21_circle_marks_are_red_quads_witness :
    ∃ s, buffer.fresh.run sample_environment sample_scene = .ok s ∧
      ∃ s₁ s',
        s.draw_polyline sample_environment
          ((List.range 3).map (circle_point sample_environment ⟨550, 400⟩ 50 3))
          ⟨255, 255, 255, 255⟩ 2 .joint_miter .cap_joint = .ok s₁ ∧
        s.draw_circle sample_environment ⟨550, 400⟩ 50 ⟨255, 255, 255, 255⟩ 2 3 = .ok s' ∧
        ∀ p ∈ (List.range 3).map (circle_point sample_environment ⟨550, 400⟩ 50 3),
          marker_quad sample_environment p <:+: s'.get_vertices.drop s₁.get_vertices.length :=
  ⟨_, rfl,
    (C21_circle_marks_are_red_quads sample_environment _ ⟨550, 400⟩ 50 ⟨255, 255, 255, 255⟩ 2 3
      ⟨sample_scene, rfl⟩).imp fun _ h₁ => h₁.imp fun _ h₂ => ⟨h₂.1, h₂.2.1, h₂.2.2.2.2.2.1⟩⟩

end renderer
